import Mathlib

/-!
# Verification development for the `protoc-gen-go-apiclienttwirp` generator

The generator walks service / method / field descriptors and writes Go source
through `protogen`'s `GeneratedFile.P`.  The embedding below keeps the text of
every `P` call as one entry of the file's buffer (the real buffer is the
concatenation of the entries, each followed by a newline), keeps the files of a
plugin in creation order, and threads the state of a generated file explicitly.

* `handle`, `generatePackageFile`, `generateServiceFile` follow
  `internal/protoplugin/cmd/protoc-gen-go-apiclienttwirp/main.go`.
* `Protoc.executePlugin` follows `internal/buf/cmd/buf/command/protoc/plugin.go`.
* the `protogen` library (`QualifiedGoIdent`, the rendering of `Comments`) and
  the `NamedHelper` interface are parameters;
* the `protogenutil` helpers that are not part of the sources at hand are
  modelled from the specification and marked so.
-/

set_option autoImplicit false

namespace ApiClientTwirp

/-! ## Descriptor model (read-only input) -/

/-- Go errors that travel through the generator: the shape error of the method
validator, carrying the method's fully-qualified name, and any other failure
reported by a collaborator. -/
inductive Error where
  | shape (method : String)
  | other (msg : String)
deriving DecidableEq, Repr

/-- Mirror of `protogen.GoIdent`: a Go name together with its import path. -/
structure GoIdent where
  GoName : String
  GoImportPath : String
deriving DecidableEq, Repr

/-- Mirror of `protogen.GoImportPath.Ident`. -/
def GoImportPath_Ident (path name : String) : GoIdent :=
  { GoName := name, GoImportPath := path }

/-- Mirror of `protogen.Field`, reduced to what the generator and its helpers read:
the Go name and the descriptor (kept abstract; only helpers inspect it). -/
structure Field where
  GoName : String
  Desc : String
deriving DecidableEq, Repr

/-- Mirror of `protogen.Message`: its Go identifier and its ordered fields. -/
structure Message where
  GoIdent : GoIdent
  Fields : List Field
deriving DecidableEq, Repr

/-- Mirror of `protogen.Method`.  `Leading` is `Comments.Leading`, `FullName`,
`IsStreamingClient` and `IsStreamingServer` are read from `Desc`. -/
structure Method where
  GoName : String
  FullName : String
  Input : Message
  Output : Message
  Leading : String
  IsStreamingClient : Bool
  IsStreamingServer : Bool
deriving DecidableEq, Repr

/-- Mirror of `protogen.Service`. -/
structure Service where
  GoName : String
  Methods : List Method
deriving DecidableEq, Repr

/-- Mirror of `protogen.File`, reduced to the parts read here. -/
structure File where
  Path : String
  GoImportPath : String
  Services : List Service
deriving DecidableEq, Repr

/-- Mirror of `protogenutil.GoPackageFileSet`: the files of one Go package. -/
structure GoPackageFileSet where
  GoImportPath : String
  Files : List File
deriving DecidableEq, Repr

/-- Modelled from the spec: `GoPackageFileSet.Services` is not part of the sources at
hand.  The specification describes the aggregated service sequence of a generation
unit as the services of its member files, "insertion order = file order, then
declaration order". -/
def GoPackageFileSet.Services (goPackageFileSet : GoPackageFileSet) : List Service :=
  goPackageFileSet.Files.flatMap (fun file => file.Services)

/-! ## Generated files and the plugin -/

/-- State of a `protogen.GeneratedFile`: its name, its import path, the identifiers
resolved so far through `QualifiedGoIdent` (which determine the import table), and
the text written so far, one entry per call of `P`. -/
structure GeneratedFile where
  filename : String
  goImportPath : String
  resolved : List GoIdent
  buf : List String
deriving DecidableEq, Repr

/-- State of a `protogen.Plugin`: the generated files in creation order. -/
structure Plugin where
  genFiles : List GeneratedFile
deriving DecidableEq, Repr

/-- Operations of the `protogen` library that the generator relies on.
`qualify` is `GeneratedFile.QualifiedGoIdent` as a function of the file's import
path, the identifiers resolved before and the identifier asked for; `comments` is
the text `P` prints for a value of type `protogen.Comments`.  Also the two
field-level helpers behind `GetParameterStrings` and
`GetParameterErrorReturnString`: each yields a string or fails, and reports the
identifiers it resolved on the file. -/
structure Env where
  qualify : String → List GoIdent → GoIdent → String
  comments : String → String
  GetFieldGoTypeString : GeneratedFile → Field → Except Error String × List GoIdent
  GetFieldGoZeroValueString : GeneratedFile → Field → Except Error String × List GoIdent

/-- Mirror of the `protogenutil.NamedHelper` interface, reduced to the methods the
generator calls.  The two file constructors decide the name and import path of the
new file (or fail); the file itself is created by `Plugin.NewGeneratedFile`. -/
structure NamedHelper where
  NewGeneratedFile : Plugin → File → String → Except Error (String × String)
  NewPackageGeneratedFile : Plugin → GoPackageFileSet → String → Except Error (String × String)
  NewPackageGoImportPath : GoPackageFileSet → String → Except Error String

/-- Fresh file as created by `Plugin.NewGeneratedFile`. -/
def GeneratedFile.new (filename goImportPath : String) : GeneratedFile :=
  { filename := filename, goImportPath := goImportPath, resolved := [], buf := [] }

/-- Mirror of `GeneratedFile.P`: prints the operands one after the other and ends the line. -/
def GeneratedFile.P (g : GeneratedFile) (v : List String) : GeneratedFile :=
  { g with buf := g.buf ++ [String.join v] }

/-- Mirror of `GeneratedFile.QualifiedGoIdent`: the reference text, and the file with
the identifier recorded. -/
def GeneratedFile.QualifiedGoIdent (env : Env) (g : GeneratedFile) (ident : GoIdent) :
    String × GeneratedFile :=
  (env.qualify g.goImportPath g.resolved ident, { g with resolved := g.resolved ++ [ident] })

/-- Records identifiers resolved by a helper on the file. -/
def GeneratedFile.record (g : GeneratedFile) (idents : List GoIdent) : GeneratedFile :=
  { g with resolved := g.resolved ++ idents }

/-- The plugin once `g` is among its files: `Plugin.NewGeneratedFile` appends the
new file to the plugin, and the generator writes to it through the pointer. -/
def Plugin.withFile (plugin : Plugin) (g : GeneratedFile) : Plugin :=
  { genFiles := plugin.genFiles ++ [g] }

/-! ## `protogenutil` helpers -/

/-- Modelled from the spec: `protogenutil.GetUnexportGoName` is not part of the
sources at hand.  The specification describes it as the deterministic lowering of a
name: "first letter un-capitalized, rest unchanged". -/
def GetUnexportGoName (goName : String) : String :=
  match goName.data with
  | [] => ""
  | c :: cs => String.mk (c.toLower :: cs)

/-- Modelled from the spec: `protogenutil.ValidateMethodUnary` is not part of the
sources at hand.  The specification: validation "fails when the method is declared
as streaming on either side", and the error carries "the offending method's
fully-qualified name". -/
def ValidateMethodUnary (method : Method) : Except Error Unit :=
  if method.IsStreamingClient || method.IsStreamingServer then
    .error (Error.shape method.FullName)
  else
    .ok ()

/-- Modelled from the spec: `protogenutil.GetParameterStrings` is not part of the
sources at hand.  The specification: each field becomes one positional parameter, in
field declaration order, named by the lowering of the field's name and followed by
its type (as in `name string`).  A failing field type aborts the whole list. -/
def GetParameterStrings (env : Env) (g : GeneratedFile) :
    List Field → Except Error (List String) × GeneratedFile
  | [] => (.ok [], g)
  | field :: rest =>
    match env.GetFieldGoTypeString g field with
    | (.error err, idents) => (.error err, g.record idents)
    | (.ok fieldGoTypeString, idents) =>
      match GetParameterStrings env (g.record idents) rest with
      | (.error err, g) => (.error err, g)
      | (.ok parameterStrings, g) =>
        (.ok ((GetUnexportGoName field.GoName ++ " " ++ fieldGoTypeString) :: parameterStrings), g)

/-- The zero values of the fields, in field order (first part of
`GetParameterErrorReturnString`). -/
def getZeroValueStrings (env : Env) (g : GeneratedFile) :
    List Field → Except Error (List String) × GeneratedFile
  | [] => (.ok [], g)
  | field :: rest =>
    match env.GetFieldGoZeroValueString g field with
    | (.error err, idents) => (.error err, g.record idents)
    | (.ok fieldGoZeroValueString, idents) =>
      match getZeroValueStrings env (g.record idents) rest with
      | (.error err, g) => (.error err, g)
      | (.ok returnValueStrings, g) => (.ok (fieldGoZeroValueString :: returnValueStrings), g)

/-- Modelled from the spec: `protogenutil.GetParameterErrorReturnString` is not part
of the sources at hand.  The specification: `errorReturn(type, errorExpr)` is the
"literal expression producing one failure value per structured field plus one error
value", the zero/default value of every field followed by the error (as in
`"", err`); the generator prints it as a statement, so it starts with `return `. -/
def GetParameterErrorReturnString (env : Env) (g : GeneratedFile) (fields : List Field)
    (errorVarName : String) : Except Error String × GeneratedFile :=
  match getZeroValueStrings env g fields with
  | (.error err, g) => (.error err, g)
  | (.ok returnValueStrings, g) =>
    (.ok ("return " ++ String.intercalate ", " (returnValueStrings ++ [errorVarName])), g)

/-! ## The generator (`main.go`) -/

def contextPackage : String := "context"
def httpclientPackage : String := "github.com/bufbuild/buf/internal/pkg/transport/http/httpclient"
def twirpclientPackage : String := "github.com/bufbuild/buf/internal/pkg/transport/twirp/twirpclient"
def zapPackage : String := "go.uber.org/zap"
def pluginName : String := "apiclienttwirp"

/-- Body of the loop over `goPackageFileSet.Services()` in `generatePackageFile`
(one factory method). -/
def generatePackageFile_service (env : Env) (goPackageFileSet : GoPackageFileSet)
    (newClientOptionsGoIdentString contextGoIdentString apiGoImportPath : String)
    (g : GeneratedFile) (service : Service) : GeneratedFile :=
  let interfaceName := service.GoName
  let interfaceGoIdent := GoImportPath_Ident apiGoImportPath interfaceName
  let r := g.QualifiedGoIdent env interfaceGoIdent
  let interfaceGoIdentString := r.1
  let g := r.2
  let structName := GetUnexportGoName interfaceName
  let newProtobufClientGoIdent :=
    GoImportPath_Ident goPackageFileSet.GoImportPath ("New" ++ interfaceName ++ "ProtobufClient")
  let r := g.QualifiedGoIdent env newProtobufClientGoIdent
  let newProtobufClientGoIdentString := r.1
  let g := r.2
  let g := g.P ["func (p *provider) New", interfaceName, "(ctx ", contextGoIdentString,
    ", address string) (", interfaceGoIdentString, ", error) \x7b"]
  let g := g.P ["return &", structName, "\x7b"]
  let g := g.P ["logger: p.logger,"]
  let g := g.P ["client: ", newProtobufClientGoIdentString, "("]
  let g := g.P ["p.httpClient.ParseAddress(address),"]
  let g := g.P ["p.httpClient,"]
  let g := g.P [newClientOptionsGoIdentString, "()...,"]
  let g := g.P ["),"]
  let g := g.P ["\x7d, nil"]
  let g := g.P ["\x7d"]
  let g := g.P []
  g

/-- Mirror of `generatePackageFile`: the unit-level artifact (provider and one factory
method per service).  Returns the error (`none` for `nil`) and the plugin afterwards. -/
def generatePackageFile (env : Env) (helper : NamedHelper) (plugin : Plugin)
    (goPackageFileSet : GoPackageFileSet) : Option Error × Plugin :=
  match helper.NewPackageGeneratedFile plugin goPackageFileSet pluginName with
  | .error err => (some err, plugin)
  | .ok (filename, goImportPath) =>
    let g := GeneratedFile.new filename goImportPath
    let r := g.QualifiedGoIdent env (GoImportPath_Ident httpclientPackage "Client")
    let httpClientGoIdentString := r.1
    let g := r.2
    let r := g.QualifiedGoIdent env (GoImportPath_Ident twirpclientPackage "NewClientOptions")
    let newClientOptionsGoIdentString := r.1
    let g := r.2
    let r := g.QualifiedGoIdent env (GoImportPath_Ident zapPackage "Logger")
    let loggerGoIdentString := r.1
    let g := r.2
    match helper.NewPackageGoImportPath goPackageFileSet "apiclient" with
    | .error err => (some err, plugin.withFile g)
    | .ok apiclientGoImportPath =>
      let providerGoIdent := GoImportPath_Ident apiclientGoImportPath "Provider"
      let r := g.QualifiedGoIdent env providerGoIdent
      let providerGoIdentString := r.1
      let g := r.2
      let g := g.P ["// NewProvider returns a new Provider."]
      let g := g.P ["func NewProvider("]
      let g := g.P ["logger *", loggerGoIdentString, ","]
      let g := g.P ["httpClient ", httpClientGoIdentString, ","]
      let g := g.P [") ", providerGoIdentString, "\x7b"]
      let g := g.P ["return &provider\x7b"]
      let g := g.P ["logger: logger,"]
      let g := g.P ["httpClient: httpClient,"]
      let g := g.P ["\x7d"]
      let g := g.P ["\x7d"]
      let g := g.P []
      let g := g.P ["type provider struct \x7b"]
      let g := g.P ["logger *", loggerGoIdentString]
      let g := g.P ["httpClient ", httpClientGoIdentString]
      let g := g.P ["\x7d"]
      let g := g.P []
      let r := g.QualifiedGoIdent env (GoImportPath_Ident contextPackage "Context")
      let contextGoIdentString := r.1
      let g := r.2
      match helper.NewPackageGoImportPath goPackageFileSet "api" with
      | .error err => (some err, plugin.withFile g)
      | .ok apiGoImportPath =>
        let g := goPackageFileSet.Services.foldl
          (generatePackageFile_service env goPackageFileSet newClientOptionsGoIdentString
            contextGoIdentString apiGoImportPath) g
        (none, plugin.withFile g)

/-- Body of the loop over `service.Methods` in `generateServiceFile` (one wrapper
method).  Returns the error that stops the generation (`none` when the method was
written in full) and the file as written so far. -/
def generateServiceFile_method (env : Env) (contextGoIdentString structName : String)
    (g : GeneratedFile) (method : Method) : Option Error × GeneratedFile :=
  match ValidateMethodUnary method with
  | .error err => (some err, g)
  | .ok _ =>
    match GetParameterStrings env g method.Input.Fields with
    | (.error err, g) => (some err, g)
    | (.ok requestParameterStrings, g) =>
      match GetParameterStrings env g method.Output.Fields with
      | (.error err, g) => (some err, g)
      | (.ok responseParameterStrings, g) =>
        let funcName := method.GoName
        let funcParameterStrings := ["ctx " ++ contextGoIdentString] ++ requestParameterStrings
        let funcReturnStrings := responseParameterStrings ++ ["_ error"]
        let g :=
          if funcParameterStrings.length > 2 ∨ funcReturnStrings.length > 2 then
            let g := g.P [env.comments method.Leading, "func (s *", structName, ") ", funcName, "("]
            let g := funcParameterStrings.foldl
              (fun g funcParameterString => g.P [funcParameterString, ","]) g
            g.P [") (", String.intercalate ", " funcReturnStrings, ") \x7b"]
          else
            g.P [env.comments method.Leading, "func (s *", structName, ") ", funcName, "(",
              String.intercalate ", " funcParameterStrings, ") (",
              String.intercalate ", " funcReturnStrings, ") \x7b"]
        let r := g.QualifiedGoIdent env method.Input.GoIdent
        let requestGoIdentString := r.1
        let g := r.2
        let g :=
          if funcReturnStrings.length = 1 then
            g.P ["_, err := s.client.", funcName, "("]
          else
            g.P ["response, err := s.client.", funcName, "("]
        let g := g.P ["ctx,"]
        let g := g.P ["&", requestGoIdentString, "\x7b"]
        let g := method.Input.Fields.foldl
          (fun g field => g.P [field.GoName, ": ", GetUnexportGoName field.GoName, ","]) g
        let g := g.P ["\x7d,"]
        let g := g.P [")"]
        let g := g.P ["if err != nil \x7b"]
        match GetParameterErrorReturnString env g method.Output.Fields "err" with
        | (.error err, g) => (some err, g)
        | (.ok errorReturnString, g) =>
          let g := g.P [errorReturnString]
          let g := g.P ["\x7d"]
          let returnValueStrings :=
            method.Output.Fields.map (fun field => "response." ++ field.GoName)
          let returnValueStrings := returnValueStrings ++ ["nil"]
          let g := g.P ["return ", String.intercalate ", " returnValueStrings]
          let g := g.P ["\x7d"]
          let g := g.P []
          (none, g)

/-- The loop over `service.Methods` in `generateServiceFile`: stops at the first error. -/
def generateServiceFile_methods (env : Env) (contextGoIdentString structName : String)
    (g : GeneratedFile) : List Method → Option Error × GeneratedFile
  | [] => (none, g)
  | method :: rest =>
    match generateServiceFile_method env contextGoIdentString structName g method with
    | (some err, g) => (some err, g)
    | (none, g) => generateServiceFile_methods env contextGoIdentString structName g rest

/-- Body of the loop over `file.Services` in `generateServiceFile` (one wrapper type
and its methods). -/
def generateServiceFile_service (env : Env) (file : File)
    (contextGoIdentString loggerGoIdentString : String)
    (g : GeneratedFile) (service : Service) : Option Error × GeneratedFile :=
  let interfaceName := service.GoName
  let structName := GetUnexportGoName interfaceName
  let clientGoIdent := GoImportPath_Ident file.GoImportPath interfaceName
  let r := g.QualifiedGoIdent env clientGoIdent
  let clientGoIdentString := r.1
  let g := r.2
  let g := g.P ["type ", structName, " struct \x7b"]
  let g := g.P ["logger *", loggerGoIdentString]
  let g := g.P ["client ", clientGoIdentString]
  let g := g.P ["\x7d"]
  let g := g.P []
  match generateServiceFile_methods env contextGoIdentString structName g service.Methods with
  | (some err, g) => (some err, g)
  | (none, g) =>
    let g := g.P []
    (none, g)

/-- The loop over `file.Services` in `generateServiceFile`: stops at the first error. -/
def generateServiceFile_services (env : Env) (file : File)
    (contextGoIdentString loggerGoIdentString : String)
    (g : GeneratedFile) : List Service → Option Error × GeneratedFile
  | [] => (none, g)
  | service :: rest =>
    match generateServiceFile_service env file contextGoIdentString loggerGoIdentString g service with
    | (some err, g) => (some err, g)
    | (none, g) =>
      generateServiceFile_services env file contextGoIdentString loggerGoIdentString g rest

/-- Mirror of `generateServiceFile`: the file-level artifact (one wrapper type per
service of the file, one method per service method).  Returns the error (`none` for
`nil`) and the plugin afterwards; a file created before the error stays in the plugin
with the lines written so far. -/
def generateServiceFile (env : Env) (helper : NamedHelper) (plugin : Plugin) (file : File) :
    Option Error × Plugin :=
  match helper.NewGeneratedFile plugin file pluginName with
  | .error err => (some err, plugin)
  | .ok (filename, goImportPath) =>
    let g := GeneratedFile.new filename goImportPath
    let r := g.QualifiedGoIdent env (GoImportPath_Ident contextPackage "Context")
    let contextGoIdentString := r.1
    let g := r.2
    let r := g.QualifiedGoIdent env (GoImportPath_Ident zapPackage "Logger")
    let loggerGoIdentString := r.1
    let g := r.2
    match generateServiceFile_services env file contextGoIdentString loggerGoIdentString g
        file.Services with
    | (err, g) => (err, plugin.withFile g)

/-- The loop over `goPackageFileSet.Files` in `handle`: one file-level artifact per
file that declares services; stops at the first error. -/
def handle_files (env : Env) (helper : NamedHelper) (plugin : Plugin) :
    List File → Option Error × Plugin
  | [] => (none, plugin)
  | file :: rest =>
    if file.Services.length > 0 then
      match generateServiceFile env helper plugin file with
      | (some err, plugin) => (some err, plugin)
      | (none, plugin) => handle_files env helper plugin rest
    else
      handle_files env helper plugin rest

/-- Mirror of `handle`: generation for one Go package (generation unit). -/
def handle (env : Env) (helper : NamedHelper) (plugin : Plugin)
    (goPackageFileSet : GoPackageFileSet) : Option Error × Plugin :=
  if goPackageFileSet.Services.length = 0 then
    (none, plugin)
  else
    match generatePackageFile env helper plugin goPackageFileSet with
    | (some err, plugin) => (some err, plugin)
    | (none, plugin) => handle_files env helper plugin goPackageFileSet.Files

/-! ## Sample inputs -/

/-- A resolver that always answers with the bare Go name, an identity rendering of
comments, and field helpers for string fields. -/
def sampleEnv : Env :=
  { qualify := fun _ _ ident => ident.GoName
    comments := fun c => c
    GetFieldGoTypeString := fun _ _ => (.ok "string", [])
    GetFieldGoZeroValueString := fun _ _ => (.ok "\"\"", []) }

/-- A helper that names the artifacts after the package and the source file. -/
def sampleHelper : NamedHelper :=
  { NewGeneratedFile := fun _ file _ => .ok (file.Path ++ ".pb.go", file.GoImportPath)
    NewPackageGeneratedFile := fun _ set _ => .ok (set.GoImportPath ++ "/provider.pb.go", set.GoImportPath)
    NewPackageGoImportPath := fun set name => .ok (set.GoImportPath ++ "/" ++ name) }

/-- An empty message type. -/
def emptyMessage : Message :=
  { GoIdent := { GoName := "Empty", GoImportPath := "pkg/a" }, Fields := [] }

/-- A server-streaming method. -/
def watchMethod : Method :=
  { GoName := "Watch", FullName := "a.Greeter.Watch", Input := emptyMessage,
    Output := emptyMessage, Leading := "", IsStreamingClient := false,
    IsStreamingServer := true }

/-- A generation unit of one file whose only service has a server-streaming method. -/
def streamingUnit : GoPackageFileSet :=
  { GoImportPath := "pkg/a"
    Files := [{ Path := "a/greeter", GoImportPath := "pkg/a",
                Services := [{ GoName := "Greeter", Methods := [watchMethod] }] }] }

/-! ## Expected text of a wrapper method -/

/-- The string `t` is a Go type the field helper yields for `field`. -/
def IsFieldGoType (env : Env) (field : Field) (t : String) : Prop :=
  ∃ g, (env.GetFieldGoTypeString g field).1 = .ok t

/-- The string `z` is a Go zero value the field helper yields for `field`. -/
def IsFieldGoZeroValue (env : Env) (field : Field) (z : String) : Prop :=
  ∃ g, (env.GetFieldGoZeroValueString g field).1 = .ok z

/-- Parameter strings for fields with given type strings: lowered field name, a
blank, the type. -/
def parameterText (fields : List Field) (types : List String) : List String :=
  List.zipWith (fun field t => GetUnexportGoName field.GoName ++ " " ++ t) fields types

/-- Signature of a wrapper method with the given parameter and return strings, in the
multi-line layout when either list has more than two entries, else on one line. -/
def signatureText (comment structName funcName : String) (params rets : List String) :
    List String :=
  if params.length > 2 ∨ rets.length > 2 then
    [String.join [comment, "func (s *", structName, ") ", funcName, "("]] ++
      params.map (fun p => String.join [p, ","]) ++
      [String.join [") (", String.intercalate ", " rets, ") \x7b"]]
  else
    [String.join [comment, "func (s *", structName, ") ", funcName, "(",
      String.intercalate ", " params, ") (", String.intercalate ", " rets, ") \x7b"]]

/-- First line of the transport call: `response` is bound unless there is nothing to
read from it. -/
def callText (funcName : String) (outFields : List Field) : String :=
  if outFields.length + 1 = 1 then
    String.join ["_, err := s.client.", funcName, "("]
  else
    String.join ["response, err := s.client.", funcName, "("]

/-- Body of a wrapper method: the transport call with the request literal, the error
branch with the given failure return statement, the success return, the closing brace
and a blank line. -/
def bodyText (funcName requestGoIdentString : String) (inFields outFields : List Field)
    (errorReturnString : String) : List String :=
  [callText funcName outFields, String.join ["ctx,"],
    String.join ["&", requestGoIdentString, "\x7b"]] ++
  inFields.map (fun field =>
    String.join [field.GoName, ": ", GetUnexportGoName field.GoName, ","]) ++
  [String.join ["\x7d,"], String.join [")"], String.join ["if err != nil \x7b"],
    String.join [errorReturnString], String.join ["\x7d"],
    String.join ["return ", String.intercalate ", "
      (outFields.map (fun field => "response." ++ field.GoName) ++ ["nil"])],
    String.join ["\x7d"], String.join []]

/-- Text of one wrapper method: signature and body, for some type strings of the
fields, some zero values of the output fields and some reference to the request type. -/
def MethodText (env : Env) (ctx sn : String) (m : Method) (block : List String) : Prop :=
  ∃ inTypes outTypes zs requestGoIdentString,
    List.Forall₂ (IsFieldGoType env) m.Input.Fields inTypes ∧
    List.Forall₂ (IsFieldGoType env) m.Output.Fields outTypes ∧
    List.Forall₂ (IsFieldGoZeroValue env) m.Output.Fields zs ∧
    block =
      signatureText (env.comments m.Leading) sn m.GoName
        (["ctx " ++ ctx] ++ parameterText m.Input.Fields inTypes)
        (parameterText m.Output.Fields outTypes ++ ["_ error"]) ++
      bodyText m.GoName requestGoIdentString m.Input.Fields m.Output.Fields
        ("return " ++ String.intercalate ", " (zs ++ ["err"]))

/-- Text of one wrapper type with its methods: the struct declaration, the text of
every method in declaration order, and a closing blank line. -/
def ServiceText (env : Env) (ctx lg : String) (s : Service) (text : List String) : Prop :=
  ∃ clientGoIdentString blocks,
    List.Forall₂ (MethodText env ctx (GetUnexportGoName s.GoName)) s.Methods blocks ∧
    text =
      [String.join ["type ", GetUnexportGoName s.GoName, " struct \x7b"],
        String.join ["logger *", lg], String.join ["client ", clientGoIdentString],
        String.join ["\x7d"], String.join []] ++ blocks.flatten ++ [String.join []]

deriving instance DecidableEq for Except

/-- A message with the single string field `Name`. -/
def helloRequest : Message :=
  { GoIdent := { GoName := "SayHelloRequest", GoImportPath := "pkg/a" },
    Fields := [{ GoName := "Name", Desc := "string" }] }

/-- A message with the single string field `Greeting`. -/
def helloResponse : Message :=
  { GoIdent := { GoName := "SayHelloResponse", GoImportPath := "pkg/a" },
    Fields := [{ GoName := "Greeting", Desc := "string" }] }

/-- A unary method from `helloRequest` to `helloResponse`. -/
def sayHello : Method :=
  { GoName := "SayHello", FullName := "a.Greeter.SayHello", Input := helloRequest,
    Output := helloResponse, Leading := "", IsStreamingClient := false,
    IsStreamingServer := false }

/-- A source file that declares the service `Greeter` with the method `SayHello`. -/
def greeterFile : File :=
  { Path := "a/greeter", GoImportPath := "pkg/a",
    Services := [{ GoName := "Greeter", Methods := [sayHello] }] }

/-- A generation unit made of `greeterFile`. -/
def greeterUnit : GoPackageFileSet :=
  { GoImportPath := "pkg/a", Files := [greeterFile] }

/-- Text written by `generatePackageFile` before the factory methods: the constructor
`NewProvider` and the type `provider`. -/
def providerText (loggerGoIdentString httpClientGoIdentString providerGoIdentString : String) :
    List String :=
  [String.join ["// NewProvider returns a new Provider."],
    String.join ["func NewProvider("],
    String.join ["logger *", loggerGoIdentString, ","],
    String.join ["httpClient ", httpClientGoIdentString, ","],
    String.join [") ", providerGoIdentString, "\x7b"],
    String.join ["return &provider\x7b"],
    String.join ["logger: logger,"],
    String.join ["httpClient: httpClient,"],
    String.join ["\x7d"],
    String.join ["\x7d"],
    String.join [],
    String.join ["type provider struct \x7b"],
    String.join ["logger *", loggerGoIdentString],
    String.join ["httpClient ", httpClientGoIdentString],
    String.join ["\x7d"],
    String.join []]

/-- Text of the factory method of one service, for given references to the context
type, the service interface, the transport client constructor and the client options. -/
def factoryText (interfaceName contextGoIdentString interfaceGoIdentString
    newProtobufClientGoIdentString newClientOptionsGoIdentString : String) : List String :=
  [String.join ["func (p *provider) New", interfaceName, "(ctx ", contextGoIdentString,
      ", address string) (", interfaceGoIdentString, ", error) \x7b"],
    String.join ["return &", GetUnexportGoName interfaceName, "\x7b"],
    String.join ["logger: p.logger,"],
    String.join ["client: ", newProtobufClientGoIdentString, "("],
    String.join ["p.httpClient.ParseAddress(address),"],
    String.join ["p.httpClient,"],
    String.join [newClientOptionsGoIdentString, "()...,"],
    String.join ["),"],
    String.join ["\x7d, nil"],
    String.join ["\x7d"],
    String.join []]

/-- Text of the factory method of a service inside a file with import path `path`:
the two references it needs are resolved on that file. -/
def FactoryText (env : Env) (path pkgPath apiPath nco ctx : String) (s : Service)
    (block : List String) : Prop :=
  ∃ r1 r2,
    block = factoryText s.GoName ctx
      (env.qualify path r1 (GoImportPath_Ident apiPath s.GoName))
      (env.qualify path r2 (GoImportPath_Ident pkgPath ("New" ++ s.GoName ++ "ProtobufClient")))
      nco

/-- A generation unit whose only file declares no service. -/
def emptyUnit : GoPackageFileSet :=
  { GoImportPath := "pkg/a",
    Files := [{ Path := "a/types", GoImportPath := "pkg/a", Services := [] }] }

/-- A generation unit of two files, the first of which declares no service. -/
def mixedUnit : GoPackageFileSet :=
  { GoImportPath := "pkg/a",
    Files := [{ Path := "a/types", GoImportPath := "pkg/a", Services := [] }, greeterFile] }

/-- The file-level artifact of a source file: named by the helper, holding the text
of the file's services in declaration order. -/
def FileArtifact (env : Env) (helper : NamedHelper) (file : File) (g : GeneratedFile) : Prop :=
  (∃ plugin, helper.NewGeneratedFile plugin file pluginName = .ok (g.filename, g.goImportPath)) ∧
  ∃ ctx lg texts,
    List.Forall₂ (ServiceText env ctx lg) file.Services texts ∧ g.buf = texts.flatten

/-- A unary method without input and output fields. -/
def pingMethod : Method :=
  { GoName := "Ping", FullName := "a.Greeter.Ping", Input := emptyMessage,
    Output := emptyMessage, Leading := "", IsStreamingClient := false,
    IsStreamingServer := false }

/-- A fresh generated file used to write single methods. -/
def sampleFile : GeneratedFile := GeneratedFile.new "a/greeter.pb.go" "pkg/a"

/-- The field helpers succeed on every field of the method, whatever the state of the
generated file. -/
def MethodHelpersOk (env : Env) (m : Method) : Prop :=
  (∀ f ∈ m.Input.Fields, ∀ g, ∃ t, (env.GetFieldGoTypeString g f).1 = .ok t) ∧
  (∀ f ∈ m.Output.Fields, ∀ g, ∃ t, (env.GetFieldGoTypeString g f).1 = .ok t) ∧
  (∀ f ∈ m.Output.Fields, ∀ g, ∃ z, (env.GetFieldGoZeroValueString g f).1 = .ok z)

/-- Pieces of a text between newlines, as `strings.Split(s, "\n")` yields them. -/
def splitLines : List Char → List (List Char)
  | [] => [[]]
  | c :: cs =>
    if c = '\n' then [] :: splitLines cs
    else
      match splitLines cs with
      | [] => [[c]]
      | line :: lines => (c :: line) :: lines

/-- The text without one trailing newline, as `strings.TrimSuffix(s, "\n")` yields it. -/
def trimNewline : List Char → List Char
  | [] => []
  | [c] => if c = '\n' then [] else [c]
  | c :: d :: cs => c :: trimNewline (d :: cs)

/-- Mirror of `protogen.Comments.String`, the text `P` prints (through `fmt.Fprint`) for
an operand of type `protogen.Comments`: `//` is put before every line of the comment and
every line ends with a newline; an empty comment is printed as the empty string. -/
def Comments_String (c : String) : String :=
  if c = "" then ""
  else String.mk ((splitLines (trimNewline c.data)).flatMap (fun line => '/' :: '/' :: line ++ ['\n']))

/-- The sample environment with comments rendered as `protogen` renders them. -/
def protogenEnv : Env :=
  { sampleEnv with comments := Comments_String }

/-- The method `SayHello` with a leading comment as `protoc` provides it. -/
def documentedHello : Method :=
  { sayHello with Leading := " SayHello greets the caller.\n" }

/-- A message with the two string fields `First` and `Last`. -/
def fullNameRequest : Message :=
  { GoIdent := { GoName := "FullNameRequest", GoImportPath := "pkg/a" },
    Fields := [{ GoName := "First", Desc := "string" }, { GoName := "Last", Desc := "string" }] }

/-- A unary method with two input fields and one output field. -/
def greetFullName : Method :=
  { GoName := "GreetFullName", FullName := "a.Greeter.GreetFullName", Input := fullNameRequest,
    Output := helloResponse, Leading := "", IsStreamingClient := false,
    IsStreamingServer := false }

/-- The file-level artifact of a source file whose generation stopped at a method:
named by the helper, it holds the text of the services before the failing one, the
wrapper type of the failing service and the text of the methods before the failing one,
and nothing else. -/
def StoppedArtifact (env : Env) (helper : NamedHelper) (file : File)
    (servicesBefore : List Service) (service : Service) (methodsBefore : List Method)
    (g : GeneratedFile) : Prop :=
  (∃ plugin, helper.NewGeneratedFile plugin file pluginName = .ok (g.filename, g.goImportPath)) ∧
  ∃ ctx lg client texts blocks,
    List.Forall₂ (ServiceText env ctx lg) servicesBefore texts ∧
    List.Forall₂ (MethodText env ctx (GetUnexportGoName service.GoName)) methodsBefore blocks ∧
    g.buf =
      texts.flatten ++
        [String.join ["type ", GetUnexportGoName service.GoName, " struct \x7b"],
          String.join ["logger *", lg], String.join ["client ", client],
          String.join ["\x7d"], String.join []] ++
        blocks.flatten

/-- An environment whose field helper knows no Go type for a field of kind `group`. -/
def strictEnv : Env :=
  { sampleEnv with
    GetFieldGoTypeString := fun _ field =>
      if field.Desc = "group" then (.error (Error.other "unsupported field kind: group"), [])
      else (.ok "string", []) }

/-- A unary method whose input type has a field of kind `group`. -/
def legacyMethod : Method :=
  { GoName := "Legacy", FullName := "a.Greeter.Legacy",
    Input := { GoIdent := { GoName := "LegacyRequest", GoImportPath := "pkg/a" },
               Fields := [{ GoName := "Payload", Desc := "group" }] },
    Output := emptyMessage, Leading := "", IsStreamingClient := false,
    IsStreamingServer := false }

/-- A service that declares the unary `SayHello` and then the streaming `Watch`. -/
def helloThenWatchService : Service :=
  { GoName := "Greeter", Methods := [sayHello, watchMethod] }

/-- A source file that declares `helloThenWatchService`. -/
def helloThenWatchFile : File :=
  { Path := "a/greeter", GoImportPath := "pkg/a", Services := [helloThenWatchService] }

/-- A generation unit made of `helloThenWatchFile`. -/
def helloThenWatchUnit : GoPackageFileSet :=
  { GoImportPath := "pkg/a", Files := [helloThenWatchFile] }

/-- A Go name is exported when it starts with an upper-case letter, as the Go names of
services do. -/
def isExportedGoName (goName : String) : Bool :=
  match goName.data with
  | [] => false
  | c :: _ => c.isUpper

/-! ## Running a plugin (`plugin.go`) -/

namespace Protoc

/-- Mirror of `pluginInfo` in `internal/buf/cmd/buf/command/protoc/plugin.go`. -/
structure pluginInfo where
  Out : String
  Opt : List String
  Path : String
deriving DecidableEq, Repr

/-- Mirror of `executePlugin` in `plugin.go`.  The generator
(`appprotoos.NewGenerator(logger).Generate`) and `bufimage.ImagesToCodeGeneratorRequests`
are collaborators and taken as parameters; `generate` receives the plugin name, the
output location, the requests and the plugin path, and answers with `none` for `nil` or
with the message of its error.  An error is represented by its message; context, logger
and container are passed through unchanged and left out. -/
def executePlugin {Image Request : Type}
    (generate : String → String → List Request → String → Option String)
    (ImagesToCodeGeneratorRequests : List Image → String → List Request)
    (images : List Image) (pluginName : String) (info : pluginInfo) : Option String :=
  match generate pluginName info.Out
      (ImagesToCodeGeneratorRequests images (String.intercalate "," info.Opt)) info.Path with
  | some err => some ("--" ++ pluginName ++ "_out: " ++ err)
  | none => none

/-- A generator that fails when the requests carry the option string `fail`. -/
def sampleGenerate (pluginName _out : String) (requests : List String) (_path : String) :
    Option String :=
  if requests = ["fail"] then some ("plugin " ++ pluginName ++ " rejected its options")
  else none

/-- One request that carries the option string. -/
def sampleRequests (_ : List Unit) (parameter : String) : List String :=
  [parameter]

end Protoc

/-- A helper like `sampleHelper` whose `NewPackageGoImportPath` fails for the package
named `api`. -/
def apiFailingHelper : NamedHelper :=
  { sampleHelper with
    NewPackageGoImportPath := fun set name =>
      if name = "api" then .error (Error.other "no import path for api")
      else .ok (set.GoImportPath ++ "/" ++ name) }

/-- A source file that declares the service `Echo` with the method `Ping`. -/
def echoFile : File :=
  { Path := "a/echo", GoImportPath := "pkg/a",
    Services := [{ GoName := "Echo", Methods := [pingMethod] }] }

/-- A generation unit of three files: `Greeter`, a file without services, `Echo`. -/
def twoServiceUnit : GoPackageFileSet :=
  { GoImportPath := "pkg/a",
    Files := [greeterFile, { Path := "a/types", GoImportPath := "pkg/a", Services := [] },
      echoFile] }

/-- A generation unit whose file declares the services `Greeter` and `greeter`: the
names are different, their lowered forms are not. -/
def clashingUnit : GoPackageFileSet :=
  { GoImportPath := "pkg/a",
    Files := [{ Path := "a/greeter", GoImportPath := "pkg/a",
                Services := [{ GoName := "Greeter", Methods := [sayHello] },
                  { GoName := "greeter", Methods := [pingMethod] }] }] }

/-- A source file without services. -/
def typesFile : File :=
  { Path := "a/types", GoImportPath := "pkg/a", Services := [] }

/-- A service that declares the unary `SayHello`, then the streaming `Watch`, then
`Legacy`, whose input field the type helper of `strictEnv` rejects. -/
def stopService : Service :=
  { GoName := "Greeter", Methods := [sayHello, watchMethod, legacyMethod] }

/-- A source file that declares the services `Health`, `stopService` and `Archive`. -/
def stopFile : File :=
  { Path := "a/greeter", GoImportPath := "pkg/a",
    Services := [{ GoName := "Health", Methods := [pingMethod] }, stopService,
      { GoName := "Archive", Methods := [legacyMethod] }] }

/-- A source file that declares the service `Late`. -/
def lateFile : File :=
  { Path := "a/late", GoImportPath := "pkg/a",
    Services := [{ GoName := "Late", Methods := [pingMethod] }] }

/-- A generation unit of four files: `echoFile`, a file without services, `stopFile`
and `lateFile`. -/
def stopUnit : GoPackageFileSet :=
  { GoImportPath := "pkg/a", Files := [echoFile, typesFile, stopFile, lateFile] }

/-- A helper like `sampleHelper` whose `NewGeneratedFile` fails for the source file
`a/late`. -/
def lateFailingHelper : NamedHelper :=
  { sampleHelper with
    NewGeneratedFile := fun _ file _ =>
      if file.Path = "a/late" then .error (Error.other "no generated file for a/late")
      else .ok (file.Path ++ ".pb.go", file.GoImportPath) }

/-! ## Validation is the first step of every method -/

theorem method_none_valid (env : Env) (ctx sn : String) (g : GeneratedFile) (m : Method)
    (h : (generateServiceFile_method env ctx sn g m).1 = none) :
    ValidateMethodUnary m = .ok () := by
  unfold generateServiceFile_method at h
  split at h
  · simp at h
  · assumption

theorem methods_none_valid (env : Env) (ctx sn : String) (ms : List Method) :
    ∀ g : GeneratedFile, (generateServiceFile_methods env ctx sn g ms).1 = none →
      ∀ m ∈ ms, ValidateMethodUnary m = .ok () := by
  induction ms with
  | nil => intro g _ m hm; simp at hm
  | cons a rest ih =>
    intro g h m hm
    unfold generateServiceFile_methods at h
    split at h
    · simp at h
    · rename_i g1 heq
      rcases List.mem_cons.mp hm with rfl | hm
      · exact method_none_valid env ctx sn g m (by rw [heq])
      · exact ih g1 h m hm

theorem service_none_valid (env : Env) (file : File) (ctx lg : String) (g : GeneratedFile)
    (s : Service) (h : (generateServiceFile_service env file ctx lg g s).1 = none) :
    ∀ m ∈ s.Methods, ValidateMethodUnary m = .ok () := by
  unfold generateServiceFile_service at h
  simp only at h
  split at h
  · simp at h
  · rename_i g1 heq
    exact methods_none_valid env ctx _ s.Methods _ (by rw [heq])

theorem services_none_valid (env : Env) (file : File) (ctx lg : String) (ss : List Service) :
    ∀ g : GeneratedFile, (generateServiceFile_services env file ctx lg g ss).1 = none →
      ∀ s ∈ ss, ∀ m ∈ s.Methods, ValidateMethodUnary m = .ok () := by
  induction ss with
  | nil => intro g _ s hs; simp at hs
  | cons a rest ih =>
    intro g h s hs
    unfold generateServiceFile_services at h
    split at h
    · simp at h
    · rename_i g1 heq
      rcases List.mem_cons.mp hs with rfl | hs
      · exact service_none_valid env file ctx lg g s (by rw [heq])
      · exact ih g1 h s hs

theorem serviceFile_none_valid (env : Env) (helper : NamedHelper) (plugin : Plugin) (file : File)
    (h : (generateServiceFile env helper plugin file).1 = none) :
    ∀ s ∈ file.Services, ∀ m ∈ s.Methods, ValidateMethodUnary m = .ok () := by
  unfold generateServiceFile at h
  split at h
  · simp at h
  · simp only at h
    exact services_none_valid env file _ _ file.Services _ h

theorem handle_files_none_valid (env : Env) (helper : NamedHelper) (files : List File) :
    ∀ plugin : Plugin, (handle_files env helper plugin files).1 = none →
      ∀ f ∈ files, ∀ s ∈ f.Services, ∀ m ∈ s.Methods, ValidateMethodUnary m = .ok () := by
  induction files with
  | nil => intro p _ f hf; simp at hf
  | cons a rest ih =>
    intro p h f hf
    unfold handle_files at h
    split at h
    · split at h
      · simp at h
      · rename_i p1 heq
        rcases List.mem_cons.mp hf with rfl | hf
        · exact serviceFile_none_valid env helper p f (by rw [heq])
        · exact ih p1 h f hf
    · rename_i hlen
      rcases List.mem_cons.mp hf with rfl | hf
      · intro s hs
        have : f.Services = [] := by
          cases hS : f.Services with
          | nil => rfl
          | cons x xs => simp [hS] at hlen
        simp [this] at hs
      · exact ih p h f hf

/-! ## The generator only appends files to the plugin -/

theorem generatePackageFile_genFiles (env : Env) (helper : NamedHelper) (plugin : Plugin)
    (set : GoPackageFileSet) :
    (generatePackageFile env helper plugin set).2 = plugin ∨
      ∃ g, (generatePackageFile env helper plugin set).2 = plugin.withFile g := by
  unfold generatePackageFile
  split
  · exact Or.inl rfl
  · simp only
    split
    · exact Or.inr ⟨_, rfl⟩
    · split
      · exact Or.inr ⟨_, rfl⟩
      · exact Or.inr ⟨_, rfl⟩

theorem generateServiceFile_genFiles (env : Env) (helper : NamedHelper) (plugin : Plugin)
    (file : File) :
    (generateServiceFile env helper plugin file).2 = plugin ∨
      ∃ g, (generateServiceFile env helper plugin file).2 = plugin.withFile g := by
  unfold generateServiceFile
  split
  · exact Or.inl rfl
  · exact Or.inr ⟨_, rfl⟩

theorem handle_files_appends (env : Env) (helper : NamedHelper) (files : List File) :
    ∀ plugin : Plugin,
      plugin.genFiles <+: (handle_files env helper plugin files).2.genFiles := by
  induction files with
  | nil => intro p; exact List.prefix_refl _
  | cons a rest ih =>
    intro p
    unfold handle_files
    have hstep : p.genFiles <+: (generateServiceFile env helper p a).2.genFiles := by
      rcases generateServiceFile_genFiles env helper p a with h | ⟨g, h⟩
      · rw [h]
      · rw [h]; exact List.prefix_append _ _
    split
    · split
      · rename_i e p1 heq
        rw [heq] at hstep
        exact hstep
      · rename_i p1 heq
        rw [heq] at hstep
        exact hstep.trans (ih p1)
    · exact ih p

theorem handle_appends (env : Env) (helper : NamedHelper) (plugin : Plugin)
    (set : GoPackageFileSet) :
    plugin.genFiles <+: (handle env helper plugin set).2.genFiles := by
  unfold handle
  have hstep : plugin.genFiles <+: (generatePackageFile env helper plugin set).2.genFiles := by
    rcases generatePackageFile_genFiles env helper plugin set with h | ⟨g, h⟩
    · rw [h]
    · rw [h]; exact List.prefix_append _ _
  split
  · exact List.prefix_refl _
  · split
    · rename_i e p1 heq
      rw [heq] at hstep
      exact hstep
    · rename_i p1 heq
      rw [heq] at hstep
      exact hstep.trans (handle_files_appends env helper set.Files p1)

/-! ## Text written by the helpers and by one method -/

theorem foldl_P_eq {α : Type} (f : α → List String) (xs : List α) :
    ∀ g : GeneratedFile,
      xs.foldl (fun g x => g.P (f x)) g =
        { g with buf := g.buf ++ xs.map (fun x => String.join (f x)) } := by
  induction xs with
  | nil => intro g; simp
  | cons a rest ih => intro g; rw [List.foldl_cons, ih]; simp [GeneratedFile.P]

theorem GetParameterStrings_spec (env : Env) (fields : List Field) :
    ∀ g : GeneratedFile,
      (∃ ids, (GetParameterStrings env g fields).2 = g.record ids) ∧
      ∀ ps, (GetParameterStrings env g fields).1 = .ok ps →
        ∃ types, List.Forall₂ (IsFieldGoType env) fields types ∧
          ps = parameterText fields types := by
  induction fields with
  | nil =>
    intro g
    refine ⟨⟨[], by simp [GetParameterStrings, GeneratedFile.record]⟩, ?_⟩
    intro ps h
    refine ⟨[], List.Forall₂.nil, ?_⟩
    simp [GetParameterStrings] at h
    simp [parameterText, ← h]
  | cons a rest ih =>
    intro g
    unfold GetParameterStrings
    split
    · rename_i err ids heq
      exact ⟨⟨ids, rfl⟩, by intro ps h; simp at h⟩
    · rename_i t ids heq
      obtain ⟨⟨ids2, h2⟩, hps⟩ := ih (g.record ids)
      split
      · rename_i err g1 heq1
        rw [heq1] at h2
        simp only at h2
        refine ⟨⟨ids ++ ids2, ?_⟩, by intro ps h; simp at h⟩
        simp [h2, GeneratedFile.record]
      · rename_i ps1 g1 heq1
        rw [heq1] at h2 hps
        simp only at h2
        refine ⟨⟨ids ++ ids2, ?_⟩, ?_⟩
        · simp [h2, GeneratedFile.record]
        · intro ps h
          obtain ⟨types, hlen, htypes⟩ := hps ps1 rfl
          refine ⟨t :: types, List.Forall₂.cons ⟨g, by rw [heq]⟩ hlen, ?_⟩
          simp only [Except.ok.injEq] at h
          simp [parameterText, ← h, htypes]

theorem getZeroValueStrings_spec (env : Env) (fields : List Field) :
    ∀ g : GeneratedFile,
      (∃ ids, (getZeroValueStrings env g fields).2 = g.record ids) ∧
      ∀ zs, (getZeroValueStrings env g fields).1 = .ok zs →
        List.Forall₂ (IsFieldGoZeroValue env) fields zs := by
  induction fields with
  | nil =>
    intro g
    refine ⟨⟨[], by simp [getZeroValueStrings, GeneratedFile.record]⟩, ?_⟩
    intro zs h
    simp [getZeroValueStrings] at h
    simp [← h]
  | cons a rest ih =>
    intro g
    unfold getZeroValueStrings
    split
    · rename_i err ids heq
      exact ⟨⟨ids, rfl⟩, by intro zs h; simp at h⟩
    · rename_i t ids heq
      obtain ⟨⟨ids2, h2⟩, hzs⟩ := ih (g.record ids)
      split
      · rename_i err g1 heq1
        rw [heq1] at h2
        simp only at h2
        refine ⟨⟨ids ++ ids2, ?_⟩, by intro zs h; simp at h⟩
        simp [h2, GeneratedFile.record]
      · rename_i zs1 g1 heq1
        rw [heq1] at h2 hzs
        simp only at h2
        refine ⟨⟨ids ++ ids2, ?_⟩, ?_⟩
        · simp [h2, GeneratedFile.record]
        · intro zs h
          have hlen := hzs zs1 rfl
          simp only [Except.ok.injEq] at h
          rw [← h]
          exact List.Forall₂.cons ⟨g, by rw [heq]⟩ hlen

theorem GetParameterErrorReturnString_spec (env : Env) (fields : List Field) (errorVarName : String)
    (g : GeneratedFile) :
    (∃ ids, (GetParameterErrorReturnString env g fields errorVarName).2 = g.record ids) ∧
    ∀ s, (GetParameterErrorReturnString env g fields errorVarName).1 = .ok s →
      ∃ zs, List.Forall₂ (IsFieldGoZeroValue env) fields zs ∧
        s = "return " ++ String.intercalate ", " (zs ++ [errorVarName]) := by
  obtain ⟨⟨ids, h2⟩, hzs⟩ := getZeroValueStrings_spec env fields g
  unfold GetParameterErrorReturnString
  split
  · rename_i err g1 heq
    rw [heq] at h2
    exact ⟨⟨ids, h2⟩, by intro s h; simp at h⟩
  · rename_i zs g1 heq
    rw [heq] at h2 hzs
    refine ⟨⟨ids, h2⟩, ?_⟩
    intro s h
    simp only [Except.ok.injEq] at h
    exact ⟨zs, hzs zs rfl, h.symm⟩

theorem parameterText_length (fields : List Field) (types : List String)
    (h : types.length = fields.length) : (parameterText fields types).length = fields.length := by
  simp [parameterText, h]

theorem method_ok_text (env : Env) (ctx sn : String) (g : GeneratedFile) (m : Method)
    (h : (generateServiceFile_method env ctx sn g m).1 = none) :
    ∃ inTypes outTypes zs r ids,
      List.Forall₂ (IsFieldGoType env) m.Input.Fields inTypes ∧
      List.Forall₂ (IsFieldGoType env) m.Output.Fields outTypes ∧
      List.Forall₂ (IsFieldGoZeroValue env) m.Output.Fields zs ∧
      (generateServiceFile_method env ctx sn g m).2 =
        { g with
          resolved := g.resolved ++ ids
          buf := g.buf ++
            signatureText (env.comments m.Leading) sn m.GoName
              (["ctx " ++ ctx] ++ parameterText m.Input.Fields inTypes)
              (parameterText m.Output.Fields outTypes ++ ["_ error"]) ++
            bodyText m.GoName (env.qualify g.goImportPath r m.Input.GoIdent)
              m.Input.Fields m.Output.Fields
              ("return " ++ String.intercalate ", " (zs ++ ["err"])) } := by
  revert h
  unfold generateServiceFile_method
  cases hv : ValidateMethodUnary m with
  | error e => simp
  | ok u =>
    simp only
    obtain ⟨⟨ids1, hg1⟩, hps1⟩ := GetParameterStrings_spec env m.Input.Fields g
    rcases hr1 : GetParameterStrings env g m.Input.Fields with ⟨r1, g1⟩
    rw [hr1] at hg1 hps1
    simp only at hg1 hps1
    subst hg1
    cases r1 with
    | error e => simp
    | ok ps1 =>
      obtain ⟨inTypes, hin, rfl⟩ := hps1 ps1 rfl
      simp only
      obtain ⟨⟨ids2, hg2⟩, hps2⟩ := GetParameterStrings_spec env m.Output.Fields (g.record ids1)
      rcases hr2 : GetParameterStrings env (g.record ids1) m.Output.Fields with ⟨r2, g2⟩
      rw [hr2] at hg2 hps2
      simp only at hg2 hps2
      subst hg2
      cases r2 with
      | error e => simp
      | ok ps2 =>
        obtain ⟨outTypes, hout, rfl⟩ := hps2 ps2 rfl
        simp only
        split
        · simp
        · rename_i s3 g3 heq
          intro _
          obtain ⟨⟨ids3, hg3⟩, hs3⟩ := GetParameterErrorReturnString_spec env m.Output.Fields "err" _
          rw [heq] at hg3 hs3
          obtain ⟨zs, hzs, rfl⟩ := hs3 s3 rfl
          simp only at hg3
          subst hg3
          have hl1 := parameterText_length m.Input.Fields inTypes hin.length_eq.symm
          have hl2 := parameterText_length m.Output.Fields outTypes hout.length_eq.symm
          refine ⟨inTypes, outTypes, zs, g.resolved ++ ids1 ++ ids2,
            ids1 ++ ids2 ++ [m.Input.GoIdent] ++ ids3, hin, hout, hzs, ?_⟩
          simp only [foldl_P_eq]
          simp only [GeneratedFile.P, GeneratedFile.QualifiedGoIdent, GeneratedFile.record,
            signatureText, callText, bodyText, List.length_append, List.length_cons, List.length_nil, hl1, hl2]
          split_ifs <;> simp

theorem method_ok_MethodText (env : Env) (ctx sn : String) (g : GeneratedFile) (m : Method)
    (h : (generateServiceFile_method env ctx sn g m).1 = none) :
    ∃ block ids, MethodText env ctx sn m block ∧
      (generateServiceFile_method env ctx sn g m).2 =
        { g with resolved := g.resolved ++ ids, buf := g.buf ++ block } := by
  obtain ⟨inTypes, outTypes, zs, r, ids, h1, h2, h3, h4⟩ := method_ok_text env ctx sn g m h
  refine ⟨_, ids, ⟨inTypes, outTypes, zs, env.qualify g.goImportPath r m.Input.GoIdent,
    h1, h2, h3, rfl⟩, ?_⟩
  rw [h4]
  simp

theorem methods_ok_text (env : Env) (ctx sn : String) (ms : List Method) :
    ∀ g : GeneratedFile, (generateServiceFile_methods env ctx sn g ms).1 = none →
      ∃ blocks ids, List.Forall₂ (MethodText env ctx sn) ms blocks ∧
        (generateServiceFile_methods env ctx sn g ms).2 =
          { g with resolved := g.resolved ++ ids, buf := g.buf ++ blocks.flatten } := by
  induction ms with
  | nil =>
    intro g _
    exact ⟨[], [], List.Forall₂.nil, by simp [generateServiceFile_methods]⟩
  | cons a rest ih =>
    intro g
    unfold generateServiceFile_methods
    rcases hr : generateServiceFile_method env ctx sn g a with ⟨e, g1⟩
    cases e with
    | some err => simp
    | none =>
      simp only
      intro h
      obtain ⟨block, ids, hb, hg⟩ := method_ok_MethodText env ctx sn g a (by rw [hr])
      rw [hr] at hg
      simp only at hg
      obtain ⟨blocks, ids2, hbs, hg2⟩ := ih g1 h
      refine ⟨block :: blocks, ids ++ ids2, List.Forall₂.cons hb hbs, ?_⟩
      rw [hg2, hg]
      simp

theorem service_ok_text (env : Env) (file : File) (ctx lg : String) (g : GeneratedFile)
    (s : Service) (h : (generateServiceFile_service env file ctx lg g s).1 = none) :
    ∃ text ids, ServiceText env ctx lg s text ∧
      (generateServiceFile_service env file ctx lg g s).2 =
        { g with resolved := g.resolved ++ ids, buf := g.buf ++ text } := by
  revert h
  unfold generateServiceFile_service
  simp only
  split
  · simp
  · rename_i g1 heq
    intro _
    obtain ⟨blocks, ids, hbs, hg⟩ := methods_ok_text env ctx _ s.Methods _ (by rw [heq])
    rw [heq] at hg
    simp only at hg
    refine ⟨_, [GoImportPath_Ident file.GoImportPath s.GoName] ++ ids,
      ⟨env.qualify g.goImportPath g.resolved (GoImportPath_Ident file.GoImportPath s.GoName),
        blocks, hbs, rfl⟩, ?_⟩
    rw [hg]
    simp [GeneratedFile.P, GeneratedFile.QualifiedGoIdent]

theorem services_ok_text (env : Env) (file : File) (ctx lg : String) (ss : List Service) :
    ∀ g : GeneratedFile, (generateServiceFile_services env file ctx lg g ss).1 = none →
      ∃ texts ids, List.Forall₂ (ServiceText env ctx lg) ss texts ∧
        (generateServiceFile_services env file ctx lg g ss).2 =
          { g with resolved := g.resolved ++ ids, buf := g.buf ++ texts.flatten } := by
  induction ss with
  | nil =>
    intro g _
    exact ⟨[], [], List.Forall₂.nil, by simp [generateServiceFile_services]⟩
  | cons a rest ih =>
    intro g
    unfold generateServiceFile_services
    rcases hr : generateServiceFile_service env file ctx lg g a with ⟨e, g1⟩
    cases e with
    | some err => simp
    | none =>
      simp only
      intro h
      obtain ⟨text, ids, hb, hg⟩ := service_ok_text env file ctx lg g a (by rw [hr])
      rw [hr] at hg
      simp only at hg
      obtain ⟨texts, ids2, hbs, hg2⟩ := ih g1 h
      refine ⟨text :: texts, ids ++ ids2, List.Forall₂.cons hb hbs, ?_⟩
      rw [hg2, hg]
      simp

/-! ## The file-level artifact as a whole -/

theorem serviceFile_ok_text (env : Env) (helper : NamedHelper) (plugin : Plugin) (file : File)
    (h : (generateServiceFile env helper plugin file).1 = none) :
    ∃ filename path texts ids,
      helper.NewGeneratedFile plugin file pluginName = .ok (filename, path) ∧
      List.Forall₂
        (ServiceText env
          (env.qualify path [] (GoImportPath_Ident contextPackage "Context"))
          (env.qualify path [GoImportPath_Ident contextPackage "Context"]
            (GoImportPath_Ident zapPackage "Logger")))
        file.Services texts ∧
      (generateServiceFile env helper plugin file).2 =
        plugin.withFile
          { filename := filename, goImportPath := path, resolved := ids, buf := texts.flatten } := by
  revert h
  unfold generateServiceFile
  cases hn : helper.NewGeneratedFile plugin file pluginName with
  | error e => simp
  | ok r =>
    obtain ⟨filename, path⟩ := r
    simp only
    intro h
    obtain ⟨texts, ids, ht, hg⟩ := services_ok_text env file _ _ file.Services _ h
    refine ⟨filename, path, texts,
      [GoImportPath_Ident contextPackage "Context", GoImportPath_Ident zapPackage "Logger"] ++ ids,
      rfl, ?_, ?_⟩
    · simpa [GeneratedFile.QualifiedGoIdent, GeneratedFile.new] using ht
    · rw [hg]
      simp [GeneratedFile.QualifiedGoIdent, GeneratedFile.new]

/-! ## A unit with a streaming method (C1) -/

/-- C1 (as stated, refuted): on the unit whose only method is server-streaming,
`handle` returns the shape error, yet the plugin state afterwards holds the complete
unit-level artifact (27 lines) and the file-level artifact with the wrapper type that
was written before the method was validated (5 lines). -/
theorem handle_streaming_unit_keeps_artifacts :
    ValidateMethodUnary watchMethod = .error (Error.shape "a.Greeter.Watch") ∧
    (handle sampleEnv sampleHelper ⟨[]⟩ streamingUnit).1 = some (Error.shape "a.Greeter.Watch") ∧
    (handle sampleEnv sampleHelper ⟨[]⟩ streamingUnit).2.genFiles.map
        (fun g => (g.filename, g.buf.length)) =
      [("pkg/a/provider.pb.go", 27), ("a/greeter.pb.go", 5)] ∧
    (handle sampleEnv sampleHelper ⟨[]⟩ streamingUnit).2.genFiles.map (fun g => g.buf.take 1) =
      [["// NewProvider returns a new Provider."], ["type greeter struct \x7b"]] := by
  decide

/-! ## Claims about the methods of a file-level artifact (C2) -/

theorem String_join_append (xs ys : List String) :
    String.join (xs ++ ys) = String.join xs ++ String.join ys := by
  apply String.ext
  simp [String.data_join, String.data_append]

theorem signatureText_head (comment sn name : String) (params rets : List String) (tail : List String) :
    ∃ rest, (signatureText comment sn name params rets ++ tail).head? =
      some (String.join [comment, "func (s *", sn, ") ", name, "("] ++ rest) := by
  unfold signatureText
  split
  · exact ⟨"", by simp⟩
  · refine ⟨String.join [String.intercalate ", " params, ") (", String.intercalate ", " rets, ") \x7b"], ?_⟩
    rw [← String_join_append]
    simp

/-- C2: when `generateServiceFile` succeeds on a source file (every method passed
`ValidateMethodUnary` and every helper call succeeded), the text of the file-level
artifact is, service by service in declaration order, the wrapper type followed by
exactly one method text per method descriptor, in declaration order.  Each method
text starts with the line that opens the signature `func (s *<struct>) <GoName>(`
(after the rendered leading comment), and its declared return list has exactly
(number of output fields + 1) entries, the last one being `_ error`. -/
theorem generateServiceFile_method_declarations (env : Env) (helper : NamedHelper)
    (plugin : Plugin) (file : File)
    (hok : (generateServiceFile env helper plugin file).1 = none) :
    ∃ g lg texts,
      (generateServiceFile env helper plugin file).2 = plugin.withFile g ∧
      g.buf = texts.flatten ∧
      List.Forall₂
        (fun service text =>
          ∃ client blocks,
            blocks.length = service.Methods.length ∧
            text =
              [String.join ["type ", GetUnexportGoName service.GoName, " struct \x7b"],
                String.join ["logger *", lg], String.join ["client ", client], "\x7d", ""] ++
              blocks.flatten ++ [""] ∧
            List.Forall₂
              (fun method block =>
                ∃ params rets request errorReturn rest,
                  params.length = method.Input.Fields.length + 1 ∧
                  rets.length = method.Output.Fields.length + 1 ∧
                  rets.getLast? = some "_ error" ∧
                  block =
                    signatureText (env.comments method.Leading)
                        (GetUnexportGoName service.GoName) method.GoName params rets ++
                      bodyText method.GoName request method.Input.Fields method.Output.Fields
                        errorReturn ∧
                  block.head? =
                    some (String.join [env.comments method.Leading, "func (s *",
                      GetUnexportGoName service.GoName, ") ", method.GoName, "("] ++ rest))
              service.Methods blocks)
        file.Services texts := by
  obtain ⟨filename, path, texts, ids, _, ht, hg⟩ := serviceFile_ok_text env helper plugin file hok
  refine ⟨_, env.qualify path [GoImportPath_Ident contextPackage "Context"]
    (GoImportPath_Ident zapPackage "Logger"), texts, hg, rfl, ?_⟩
  refine List.Forall₂.imp ?_ ht
  intro service text hst
  obtain ⟨client, blocks, hbs, htext⟩ := hst
  refine ⟨client, blocks, hbs.length_eq.symm, ?_, ?_⟩
  · rw [htext]
    simp [String.join]
  · refine List.Forall₂.imp ?_ hbs
    intro method block hmb
    obtain ⟨inTypes, outTypes, zs, req, h1, h2, _, hblock⟩ := hmb
    obtain ⟨rest, hrest⟩ := signatureText_head (env.comments method.Leading)
      (GetUnexportGoName service.GoName) method.GoName
      (["ctx " ++ env.qualify path [] (GoImportPath_Ident contextPackage "Context")] ++
        parameterText method.Input.Fields inTypes)
      (parameterText method.Output.Fields outTypes ++ ["_ error"])
      (bodyText method.GoName req method.Input.Fields method.Output.Fields
        ("return " ++ String.intercalate ", " (zs ++ ["err"])))
    refine ⟨_, _, req, _, rest, ?_, ?_, ?_, hblock, ?_⟩
    · simp [parameterText_length _ _ h1.length_eq.symm]
    · simp [parameterText_length _ _ h2.length_eq.symm]
    · simp
    · rw [hblock]; exact hrest

/-- Witness for C2: the file that declares `Greeter` with the unary method `SayHello`. -/
theorem generateServiceFile_method_declarations_witness :
    (generateServiceFile sampleEnv sampleHelper ⟨[]⟩ greeterFile).1 = none ∧
    ∃ g lg texts,
      (generateServiceFile sampleEnv sampleHelper ⟨[]⟩ greeterFile).2 = (⟨[]⟩ : Plugin).withFile g ∧
      g.buf = texts.flatten ∧
      List.Forall₂
        (fun service text =>
          ∃ client blocks,
            blocks.length = service.Methods.length ∧
            text =
              [String.join ["type ", GetUnexportGoName service.GoName, " struct \x7b"],
                String.join ["logger *", lg], String.join ["client ", client], "\x7d", ""] ++
              blocks.flatten ++ [""] ∧
            List.Forall₂
              (fun method block =>
                ∃ params rets request errorReturn rest,
                  params.length = method.Input.Fields.length + 1 ∧
                  rets.length = method.Output.Fields.length + 1 ∧
                  rets.getLast? = some "_ error" ∧
                  block =
                    signatureText (sampleEnv.comments method.Leading)
                        (GetUnexportGoName service.GoName) method.GoName params rets ++
                      bodyText method.GoName request method.Input.Fields method.Output.Fields
                        errorReturn ∧
                  block.head? =
                    some (String.join [sampleEnv.comments method.Leading, "func (s *",
                      GetUnexportGoName service.GoName, ") ", method.GoName, "("] ++ rest))
              service.Methods blocks)
        greeterFile.Services texts :=
  ⟨by decide,
    generateServiceFile_method_declarations sampleEnv sampleHelper ⟨[]⟩ greeterFile (by decide)⟩

/-! ## The text of the unit-level artifact -/

theorem packageFile_service_text (env : Env) (set : GoPackageFileSet) (nco ctx api : String)
    (g : GeneratedFile) (s : Service) :
    ∃ block ids, FactoryText env g.goImportPath set.GoImportPath api nco ctx s block ∧
      generatePackageFile_service env set nco ctx api g s =
        { g with resolved := g.resolved ++ ids, buf := g.buf ++ block } := by
  refine ⟨_, [GoImportPath_Ident api s.GoName,
      GoImportPath_Ident set.GoImportPath ("New" ++ s.GoName ++ "ProtobufClient")],
    ⟨g.resolved, g.resolved ++ [GoImportPath_Ident api s.GoName], rfl⟩, ?_⟩
  simp [generatePackageFile_service, GeneratedFile.P, GeneratedFile.QualifiedGoIdent, factoryText]

theorem packageFile_services_text (env : Env) (set : GoPackageFileSet) (nco ctx api : String)
    (ss : List Service) :
    ∀ g : GeneratedFile,
      ∃ blocks ids,
        List.Forall₂ (FactoryText env g.goImportPath set.GoImportPath api nco ctx) ss blocks ∧
        ss.foldl (generatePackageFile_service env set nco ctx api) g =
          { g with resolved := g.resolved ++ ids, buf := g.buf ++ blocks.flatten } := by
  induction ss with
  | nil => intro g; exact ⟨[], [], List.Forall₂.nil, by simp⟩
  | cons a rest ih =>
    intro g
    obtain ⟨block, ids, hb, hg⟩ := packageFile_service_text env set nco ctx api g a
    obtain ⟨blocks, ids2, hbs, hg2⟩ := ih (generatePackageFile_service env set nco ctx api g a)
    refine ⟨block :: blocks, ids ++ ids2, List.Forall₂.cons hb ?_, ?_⟩
    · rw [hg] at hbs
      exact hbs
    · rw [List.foldl_cons, hg2, hg]
      simp

theorem packageFile_ok_text (env : Env) (helper : NamedHelper) (plugin : Plugin)
    (set : GoPackageFileSet) (h : (generatePackageFile env helper plugin set).1 = none) :
    ∃ filename path apiclient api blocks ids r1 r2 r3 r4 r5,
      helper.NewPackageGeneratedFile plugin set pluginName = .ok (filename, path) ∧
      helper.NewPackageGoImportPath set "apiclient" = .ok apiclient ∧
      helper.NewPackageGoImportPath set "api" = .ok api ∧
      List.Forall₂
        (FactoryText env path set.GoImportPath api
          (env.qualify path r2 (GoImportPath_Ident twirpclientPackage "NewClientOptions"))
          (env.qualify path r5 (GoImportPath_Ident contextPackage "Context")))
        set.Services blocks ∧
      (generatePackageFile env helper plugin set).2 =
        plugin.withFile
          { filename := filename, goImportPath := path, resolved := ids,
            buf :=
              providerText (env.qualify path r3 (GoImportPath_Ident zapPackage "Logger"))
                (env.qualify path r1 (GoImportPath_Ident httpclientPackage "Client"))
                (env.qualify path r4 (GoImportPath_Ident apiclient "Provider")) ++
              blocks.flatten } := by
  revert h
  unfold generatePackageFile
  cases hn : helper.NewPackageGeneratedFile plugin set pluginName with
  | error e => simp
  | ok r =>
    obtain ⟨filename, path⟩ := r
    simp only
    cases h1 : helper.NewPackageGoImportPath set "apiclient" with
    | error e => simp
    | ok apiclient =>
      simp only
      cases h2 : helper.NewPackageGoImportPath set "api" with
      | error e => simp
      | ok api =>
        simp only
        intro _
        obtain ⟨blocks, ids, hbs, hg⟩ := packageFile_services_text env set _ _ api set.Services _
        rw [hg]
        refine ⟨filename, path, apiclient, api, blocks,
          [GoImportPath_Ident httpclientPackage "Client",
            GoImportPath_Ident twirpclientPackage "NewClientOptions",
            GoImportPath_Ident zapPackage "Logger", GoImportPath_Ident apiclient "Provider",
            GoImportPath_Ident contextPackage "Context"] ++ ids,
          [], [GoImportPath_Ident httpclientPackage "Client"],
          [GoImportPath_Ident httpclientPackage "Client",
            GoImportPath_Ident twirpclientPackage "NewClientOptions"],
          [GoImportPath_Ident httpclientPackage "Client",
            GoImportPath_Ident twirpclientPackage "NewClientOptions",
            GoImportPath_Ident zapPackage "Logger"],
          [GoImportPath_Ident httpclientPackage "Client",
            GoImportPath_Ident twirpclientPackage "NewClientOptions",
            GoImportPath_Ident zapPackage "Logger", GoImportPath_Ident apiclient "Provider"],
          rfl, rfl, rfl, ?_, ?_⟩
        · simpa [GeneratedFile.P, GeneratedFile.QualifiedGoIdent, GeneratedFile.new] using hbs
        · simp [GeneratedFile.P, GeneratedFile.QualifiedGoIdent, GeneratedFile.new, providerText]

/-! ## The artifacts of a generation unit (C5, C6) -/

theorem handle_files_ok (env : Env) (helper : NamedHelper) (files : List File) :
    ∀ plugin : Plugin, (handle_files env helper plugin files).1 = none →
      ∃ arts,
        List.Forall₂ (FileArtifact env helper)
          (files.filter (fun file => file.Services.length > 0)) arts ∧
        (handle_files env helper plugin files).2.genFiles = plugin.genFiles ++ arts := by
  induction files with
  | nil => intro p _; exact ⟨[], by simp, by simp [handle_files]⟩
  | cons a rest ih =>
    intro p
    unfold handle_files
    by_cases hlen : a.Services.length > 0
    · simp only [hlen, if_true]
      rcases hr : generateServiceFile env helper p a with ⟨e, p1⟩
      cases e with
      | some err => simp
      | none =>
        simp only
        intro h
        obtain ⟨filename, path, texts, ids, hn, ht, hg⟩ :=
          serviceFile_ok_text env helper p a (by rw [hr])
        rw [hr] at hg
        simp only at hg
        obtain ⟨arts, harts, hfiles⟩ := ih p1 h
        refine ⟨GeneratedFile.mk filename path ids texts.flatten :: arts, ?_, ?_⟩
        · rw [List.filter_cons_of_pos (by simpa using hlen)]
          exact List.Forall₂.cons ⟨⟨p, hn⟩, _, _, texts, ht, rfl⟩ harts
        · rw [hfiles, hg]
          simp [Plugin.withFile]
    · simp only [hlen, if_false]
      intro h
      obtain ⟨arts, harts, hfiles⟩ := ih p h
      refine ⟨arts, ?_, hfiles⟩
      rw [List.filter_cons_of_neg (by simpa using hlen)]
      exact harts

/-- C5: for a generation unit whose aggregated service list is empty, `handle`
returns `nil` and leaves the plugin exactly as it was: no artifact is created. -/
theorem handle_no_services (env : Env) (helper : NamedHelper) (plugin : Plugin)
    (goPackageFileSet : GoPackageFileSet) (h : goPackageFileSet.Services.length = 0) :
    handle env helper plugin goPackageFileSet = (none, plugin) := by
  unfold handle
  simp [h]

/-- Witness for C5: a unit whose only file declares no service. -/
theorem handle_no_services_witness :
    emptyUnit.Services.length = 0 ∧
      handle sampleEnv sampleHelper ⟨[]⟩ emptyUnit = (none, ⟨[]⟩) :=
  ⟨by decide, handle_no_services sampleEnv sampleHelper ⟨[]⟩ emptyUnit (by decide)⟩

/-- C6: when `handle` succeeds on a generation unit with at least one service, the
files it adds to the plugin are exactly: the unit-level artifact (named by
`NewPackageGeneratedFile`, starting with the provider text), followed by one
file-level artifact for each member file that declares at least one service, in file
order; member files without services get no artifact.  The number of added files is
1 + the number of member files with a non-empty service list. -/
theorem handle_artifacts (env : Env) (helper : NamedHelper) (plugin : Plugin)
    (goPackageFileSet : GoPackageFileSet)
    (hservices : goPackageFileSet.Services.length > 0)
    (hok : (handle env helper plugin goPackageFileSet).1 = none) :
    ∃ unitArtifact fileArtifacts,
      (handle env helper plugin goPackageFileSet).2.genFiles =
        plugin.genFiles ++ unitArtifact :: fileArtifacts ∧
      helper.NewPackageGeneratedFile plugin goPackageFileSet pluginName =
        .ok (unitArtifact.filename, unitArtifact.goImportPath) ∧
      (∃ logger httpClient provider factories,
        unitArtifact.buf = providerText logger httpClient provider ++ factories) ∧
      List.Forall₂ (FileArtifact env helper)
        (goPackageFileSet.Files.filter (fun file => file.Services.length > 0)) fileArtifacts ∧
      (handle env helper plugin goPackageFileSet).2.genFiles.length =
        plugin.genFiles.length + 1 +
          (goPackageFileSet.Files.filter (fun file => file.Services.length > 0)).length := by
  revert hok
  unfold handle
  have hne : ¬ goPackageFileSet.Services.length = 0 := by omega
  simp only [hne, if_false]
  rcases hr : generatePackageFile env helper plugin goPackageFileSet with ⟨e, p1⟩
  cases e with
  | some err => simp
  | none =>
    simp only
    intro h
    obtain ⟨filename, path, apiclient, api, blocks, ids, r1, r2, r3, r4, r5, hn, _, _, _, hg⟩ :=
      packageFile_ok_text env helper plugin goPackageFileSet (by rw [hr])
    rw [hr] at hg
    simp only at hg
    obtain ⟨arts, harts, hfiles⟩ := handle_files_ok env helper goPackageFileSet.Files p1 h
    obtain ⟨u, hu, hname, hpath, hbuf⟩ : ∃ u : GeneratedFile, p1 = plugin.withFile u ∧
        u.filename = filename ∧ u.goImportPath = path ∧
        ∃ a b c d, u.buf = providerText a b c ++ d :=
      ⟨_, hg, rfl, rfl, _, _, _, _, rfl⟩
    refine ⟨u, arts, ?_, by rw [hn, hname, hpath], hbuf, harts, ?_⟩
    · rw [hfiles, hu]
      simp [Plugin.withFile]
    · rw [hfiles, hu]
      simp [Plugin.withFile, harts.length_eq]
      omega

/-- Witness for C6: a unit of two files, only the second of which declares a service. -/
theorem handle_artifacts_witness :
    mixedUnit.Services.length > 0 ∧
    (handle sampleEnv sampleHelper ⟨[]⟩ mixedUnit).1 = none ∧
    ∃ unitArtifact fileArtifacts,
      (handle sampleEnv sampleHelper ⟨[]⟩ mixedUnit).2.genFiles =
        (⟨[]⟩ : Plugin).genFiles ++ unitArtifact :: fileArtifacts ∧
      sampleHelper.NewPackageGeneratedFile ⟨[]⟩ mixedUnit pluginName =
        .ok (unitArtifact.filename, unitArtifact.goImportPath) ∧
      (∃ logger httpClient provider factories,
        unitArtifact.buf = providerText logger httpClient provider ++ factories) ∧
      List.Forall₂ (FileArtifact sampleEnv sampleHelper)
        (mixedUnit.Files.filter (fun file => file.Services.length > 0)) fileArtifacts ∧
      (handle sampleEnv sampleHelper ⟨[]⟩ mixedUnit).2.genFiles.length =
        (⟨[]⟩ : Plugin).genFiles.length + 1 +
          (mixedUnit.Files.filter (fun file => file.Services.length > 0)).length :=
  ⟨by decide, by decide,
    handle_artifacts sampleEnv sampleHelper ⟨[]⟩ mixedUnit (by decide) (by decide)⟩

/-! ## The text of one wrapper method (C4, C7, C8, C9, C10) -/

theorem bodyText_eq (name req : String) (ins outs : List Field) (errRet : String) :
    bodyText name req ins outs errRet =
      [callText name outs, "ctx,", "&" ++ req ++ "\x7b"] ++
      ins.map (fun field => field.GoName ++ ": " ++ GetUnexportGoName field.GoName ++ ",") ++
      ["\x7d,", ")", "if err != nil \x7b", errRet, "\x7d",
        "return " ++ String.intercalate ", "
          (outs.map (fun field => "response." ++ field.GoName) ++ ["nil"]),
        "\x7d", ""] := by
  simp [bodyText, String.join]

theorem method_ok_lines (env : Env) (ctx sn : String) (g : GeneratedFile) (m : Method)
    (h : (generateServiceFile_method env ctx sn g m).1 = none) :
    ∃ inTypes outTypes zs r,
      List.Forall₂ (IsFieldGoType env) m.Input.Fields inTypes ∧
      List.Forall₂ (IsFieldGoType env) m.Output.Fields outTypes ∧
      List.Forall₂ (IsFieldGoZeroValue env) m.Output.Fields zs ∧
      (generateServiceFile_method env ctx sn g m).2.buf =
        g.buf ++
          signatureText (env.comments m.Leading) sn m.GoName
            (("ctx " ++ ctx) :: parameterText m.Input.Fields inTypes)
            (parameterText m.Output.Fields outTypes ++ ["_ error"]) ++
          [callText m.GoName m.Output.Fields, "ctx,",
            "&" ++ env.qualify g.goImportPath r m.Input.GoIdent ++ "\x7b"] ++
          m.Input.Fields.map
            (fun field => field.GoName ++ ": " ++ GetUnexportGoName field.GoName ++ ",") ++
          ["\x7d,", ")", "if err != nil \x7b",
            "return " ++ String.intercalate ", " (zs ++ ["err"]), "\x7d",
            "return " ++ String.intercalate ", "
              (m.Output.Fields.map (fun field => "response." ++ field.GoName) ++ ["nil"]),
            "\x7d", ""] := by
  obtain ⟨inTypes, outTypes, zs, r, ids, h1, h2, h3, hg⟩ := method_ok_text env ctx sn g m h
  refine ⟨inTypes, outTypes, zs, r, h1, h2, h3, ?_⟩
  rw [hg, bodyText_eq]
  simp

theorem method_ok_tail (env : Env) (ctx sn : String) (g : GeneratedFile) (m : Method)
    (hok : (generateServiceFile_method env ctx sn g m).1 = none) :
    ∃ pre zeros,
      List.Forall₂ (IsFieldGoZeroValue env) m.Output.Fields zeros ∧
      (generateServiceFile_method env ctx sn g m).2.buf =
        g.buf ++ pre ++
          ["if err != nil \x7b",
            "return " ++ String.intercalate ", " (zeros ++ ["err"]),
            "\x7d",
            "return " ++ String.intercalate ", "
              (m.Output.Fields.map (fun field => "response." ++ field.GoName) ++ ["nil"]),
            "\x7d", ""] := by
  obtain ⟨inTypes, outTypes, zs, r, _, _, h3, hg⟩ := method_ok_lines env ctx sn g m hok
  refine ⟨signatureText (env.comments m.Leading) sn m.GoName
      (("ctx " ++ ctx) :: parameterText m.Input.Fields inTypes)
      (parameterText m.Output.Fields outTypes ++ ["_ error"]) ++
    [callText m.GoName m.Output.Fields, "ctx,",
      "&" ++ env.qualify g.goImportPath r m.Input.GoIdent ++ "\x7b"] ++
    m.Input.Fields.map
      (fun field => field.GoName ++ ": " ++ GetUnexportGoName field.GoName ++ ",") ++
    ["\x7d,", ")"], zs, h3, ?_⟩
  rw [hg]; simp

/-- C4: in every emitted method the return statement inside the `if err != nil {`
block returns one zero value per output field followed by `err`; it has
(number of output fields + 1) values, exactly as many as the success-path return
statement that follows the block. -/
theorem method_error_return_arity (env : Env) (ctx sn : String) (g : GeneratedFile) (m : Method)
    (hok : (generateServiceFile_method env ctx sn g m).1 = none) :
    ∃ pre zeros,
      List.Forall₂ (IsFieldGoZeroValue env) m.Output.Fields zeros ∧
      (generateServiceFile_method env ctx sn g m).2.buf =
        g.buf ++ pre ++
          ["if err != nil \x7b",
            "return " ++ String.intercalate ", " (zeros ++ ["err"]),
            "\x7d",
            "return " ++ String.intercalate ", "
              (m.Output.Fields.map (fun field => "response." ++ field.GoName) ++ ["nil"]),
            "\x7d", ""] ∧
      (zeros ++ ["err"]).length = m.Output.Fields.length + 1 ∧
      (zeros ++ ["err"]).length =
        (m.Output.Fields.map (fun field => "response." ++ field.GoName) ++ ["nil"]).length := by
  obtain ⟨pre, zeros, hz, hbuf⟩ := method_ok_tail env ctx sn g m hok
  refine ⟨pre, zeros, hz, hbuf, ?_, ?_⟩
  · simp [hz.length_eq]
  · simp [hz.length_eq]

/-- Witness for C4: the method `SayHello`. -/
theorem method_error_return_arity_witness :
    (generateServiceFile_method sampleEnv "Context" "greeter" sampleFile sayHello).1 = none ∧
    ∃ pre zeros,
      List.Forall₂ (IsFieldGoZeroValue sampleEnv) sayHello.Output.Fields zeros ∧
      (generateServiceFile_method sampleEnv "Context" "greeter" sampleFile sayHello).2.buf =
        sampleFile.buf ++ pre ++
          ["if err != nil \x7b",
            "return " ++ String.intercalate ", " (zeros ++ ["err"]),
            "\x7d",
            "return " ++ String.intercalate ", "
              (sayHello.Output.Fields.map (fun field => "response." ++ field.GoName) ++ ["nil"]),
            "\x7d", ""] ∧
      (zeros ++ ["err"]).length = sayHello.Output.Fields.length + 1 ∧
      (zeros ++ ["err"]).length =
        (sayHello.Output.Fields.map (fun field => "response." ++ field.GoName) ++ ["nil"]).length :=
  ⟨by decide,
    method_error_return_arity sampleEnv "Context" "greeter" sampleFile sayHello (by decide)⟩

/-- C7: in every emitted method the request literal passed to the transport client
holds exactly one initializer line per input field, in field order, of the form
`<GoName>: <lowered GoName>,`; the parameter list of the signature is `ctx <Context>`
followed by one parameter per input field in the same order, and the name of the
i-th field parameter is the lowered Go name that the i-th initializer uses as value. -/
theorem method_request_initializers (env : Env) (ctx sn : String) (g : GeneratedFile)
    (m : Method) (hok : (generateServiceFile_method env ctx sn g m).1 = none) :
    ∃ types rets call resolved post,
      List.Forall₂ (IsFieldGoType env) m.Input.Fields types ∧
      (generateServiceFile_method env ctx sn g m).2.buf =
        g.buf ++
          signatureText (env.comments m.Leading) sn m.GoName
            (("ctx " ++ ctx) ::
              List.zipWith (fun field t => GetUnexportGoName field.GoName ++ " " ++ t)
                m.Input.Fields types)
            rets ++
          [call, "ctx,", "&" ++ env.qualify g.goImportPath resolved m.Input.GoIdent ++ "\x7b"] ++
          m.Input.Fields.map
            (fun field => field.GoName ++ ": " ++ GetUnexportGoName field.GoName ++ ",") ++
          ["\x7d,", ")"] ++ post := by
  obtain ⟨inTypes, outTypes, zs, r, h1, _, _, hg⟩ := method_ok_lines env ctx sn g m hok
  refine ⟨inTypes, parameterText m.Output.Fields outTypes ++ ["_ error"],
    callText m.GoName m.Output.Fields, r,
    ["if err != nil \x7b", "return " ++ String.intercalate ", " (zs ++ ["err"]), "\x7d",
      "return " ++ String.intercalate ", "
        (m.Output.Fields.map (fun field => "response." ++ field.GoName) ++ ["nil"]),
      "\x7d", ""], h1, ?_⟩
  rw [hg]
  simp [parameterText]

/-- Witness for C7: the method `SayHello`. -/
theorem method_request_initializers_witness :
    (generateServiceFile_method sampleEnv "Context" "greeter" sampleFile sayHello).1 = none ∧
    ∃ types rets call resolved post,
      List.Forall₂ (IsFieldGoType sampleEnv) sayHello.Input.Fields types ∧
      (generateServiceFile_method sampleEnv "Context" "greeter" sampleFile sayHello).2.buf =
        sampleFile.buf ++
          signatureText (sampleEnv.comments sayHello.Leading) "greeter" sayHello.GoName
            (("ctx " ++ "Context") ::
              List.zipWith (fun field t => GetUnexportGoName field.GoName ++ " " ++ t)
                sayHello.Input.Fields types)
            rets ++
          [call, "ctx,",
            "&" ++ sampleEnv.qualify sampleFile.goImportPath resolved sayHello.Input.GoIdent ++
              "\x7b"] ++
          sayHello.Input.Fields.map
            (fun field => field.GoName ++ ": " ++ GetUnexportGoName field.GoName ++ ",") ++
          ["\x7d,", ")"] ++ post :=
  ⟨by decide,
    method_request_initializers sampleEnv "Context" "greeter" sampleFile sayHello (by decide)⟩

/-- C8: in every emitted method with output fields f1..fn (n >= 0), the success-path
return line, the statement that follows the closed `if err != nil {` block and ends
the body, is exactly `return ` followed by `response.<f1 GoName>`, ...,
`response.<fn GoName>`, `nil` joined by `, `. -/
theorem method_success_return (env : Env) (ctx sn : String) (g : GeneratedFile) (m : Method)
    (hok : (generateServiceFile_method env ctx sn g m).1 = none) :
    ∃ pre errorReturn,
      (generateServiceFile_method env ctx sn g m).2.buf =
        g.buf ++ pre ++
          ["if err != nil \x7b", errorReturn, "\x7d",
            "return " ++ String.intercalate ", "
              (m.Output.Fields.map (fun field => "response." ++ field.GoName) ++ ["nil"]),
            "\x7d", ""] := by
  obtain ⟨pre, zeros, _, hbuf⟩ := method_ok_tail env ctx sn g m hok
  exact ⟨pre, _, hbuf⟩

/-- Witness for C8: the method `SayHello`. -/
theorem method_success_return_witness :
    (generateServiceFile_method sampleEnv "Context" "greeter" sampleFile sayHello).1 = none ∧
    ∃ pre errorReturn,
      (generateServiceFile_method sampleEnv "Context" "greeter" sampleFile sayHello).2.buf =
        sampleFile.buf ++ pre ++
          ["if err != nil \x7b", errorReturn, "\x7d",
            "return " ++ String.intercalate ", "
              (sayHello.Output.Fields.map (fun field => "response." ++ field.GoName) ++ ["nil"]),
            "\x7d", ""] :=
  ⟨by decide,
    method_success_return sampleEnv "Context" "greeter" sampleFile sayHello (by decide)⟩

/-- C9: an emitted method whose input type has no field has the parameter list
`ctx <Context>` alone, and its request construction is the line `&<RequestType>{`
immediately followed by the line `},`, with no initializer between them. -/
theorem method_no_input_fields (env : Env) (ctx sn : String) (g : GeneratedFile) (m : Method)
    (hfields : m.Input.Fields = [])
    (hok : (generateServiceFile_method env ctx sn g m).1 = none) :
    ∃ rets call resolved post,
      (generateServiceFile_method env ctx sn g m).2.buf =
        g.buf ++
          signatureText (env.comments m.Leading) sn m.GoName ["ctx " ++ ctx] rets ++
          [call, "ctx,", "&" ++ env.qualify g.goImportPath resolved m.Input.GoIdent ++ "\x7b",
            "\x7d,", ")"] ++ post := by
  obtain ⟨inTypes, outTypes, zs, r, h1, _, _, hg⟩ := method_ok_lines env ctx sn g m hok
  rw [hfields] at h1 hg
  have hnil : inTypes = [] := List.forall₂_nil_left_iff.mp h1
  subst hnil
  refine ⟨parameterText m.Output.Fields outTypes ++ ["_ error"],
    callText m.GoName m.Output.Fields, r,
    ["if err != nil \x7b", "return " ++ String.intercalate ", " (zs ++ ["err"]), "\x7d",
      "return " ++ String.intercalate ", "
        (m.Output.Fields.map (fun field => "response." ++ field.GoName) ++ ["nil"]),
      "\x7d", ""], ?_⟩
  rw [hg]
  simp [parameterText]

/-- Witness for C9: the method `Ping`, which takes an empty message. -/
theorem method_no_input_fields_witness :
    pingMethod.Input.Fields = [] ∧
    (generateServiceFile_method sampleEnv "Context" "greeter" sampleFile pingMethod).1 = none ∧
    ∃ rets call resolved post,
      (generateServiceFile_method sampleEnv "Context" "greeter" sampleFile pingMethod).2.buf =
        sampleFile.buf ++
          signatureText (sampleEnv.comments pingMethod.Leading) "greeter" pingMethod.GoName
            ["ctx " ++ "Context"] rets ++
          [call, "ctx,",
            "&" ++ sampleEnv.qualify sampleFile.goImportPath resolved pingMethod.Input.GoIdent ++
              "\x7b",
            "\x7d,", ")"] ++ post :=
  ⟨by decide, by decide,
    method_no_input_fields sampleEnv "Context" "greeter" sampleFile pingMethod
      (by decide) (by decide)⟩

/-- C10: an emitted method whose output type has no field returns `return err` inside
the `if err != nil {` block and `return nil` on the success path: both return
statements consist of the error value alone. -/
theorem method_no_output_fields (env : Env) (ctx sn : String) (g : GeneratedFile) (m : Method)
    (hfields : m.Output.Fields = [])
    (hok : (generateServiceFile_method env ctx sn g m).1 = none) :
    ∃ pre,
      (generateServiceFile_method env ctx sn g m).2.buf =
        g.buf ++ pre ++
          ["if err != nil \x7b", "return err", "\x7d", "return nil", "\x7d", ""] := by
  obtain ⟨pre, zeros, hz, hbuf⟩ := method_ok_tail env ctx sn g m hok
  rw [hfields] at hz hbuf
  have hnil : zeros = [] := List.forall₂_nil_left_iff.mp hz
  subst hnil
  refine ⟨pre, ?_⟩
  rw [hbuf]
  have e1 : "return " ++ String.intercalate ", " (([] : List String) ++ ["err"]) = "return err" := by
    decide
  have e2 : "return " ++ String.intercalate ", "
      (([] : List Field).map (fun field => "response." ++ field.GoName) ++ ["nil"]) =
      "return nil" := by
    decide
  rw [e1, e2]

/-- Witness for C10: the method `Ping`, which returns an empty message. -/
theorem method_no_output_fields_witness :
    pingMethod.Output.Fields = [] ∧
    (generateServiceFile_method sampleEnv "Context" "greeter" sampleFile pingMethod).1 = none ∧
    ∃ pre,
      (generateServiceFile_method sampleEnv "Context" "greeter" sampleFile pingMethod).2.buf =
        sampleFile.buf ++ pre ++
          ["if err != nil \x7b", "return err", "\x7d", "return nil", "\x7d", ""] :=
  ⟨by decide, by decide,
    method_no_output_fields sampleEnv "Context" "greeter" sampleFile pingMethod
      (by decide) (by decide)⟩

/-! ## Success of the generator when validation and helpers succeed -/

theorem GetParameterStrings_ok (env : Env) (fields : List Field)
    (h : ∀ f ∈ fields, ∀ g, ∃ t, (env.GetFieldGoTypeString g f).1 = .ok t) :
    ∀ g : GeneratedFile, ∃ ps, (GetParameterStrings env g fields).1 = .ok ps := by
  induction fields with
  | nil => intro g; exact ⟨[], rfl⟩
  | cons a rest ih =>
    intro g
    obtain ⟨t, ht⟩ := h a (List.mem_cons_self _ _) g
    obtain ⟨ps, hps⟩ := ih (fun f hf => h f (List.mem_cons_of_mem _ hf))
      (g.record (env.GetFieldGoTypeString g a).2)
    rcases hr : env.GetFieldGoTypeString g a with ⟨r, ids⟩
    rw [hr] at ht hps
    simp only at ht hps
    subst ht
    rcases hr2 : GetParameterStrings env (g.record ids) rest with ⟨r2, g2⟩
    rw [hr2] at hps
    simp only at hps
    subst hps
    simp [GetParameterStrings, hr, hr2]

theorem GetParameterErrorReturnString_ok (env : Env) (fields : List Field) (errorVarName : String)
    (h : ∀ f ∈ fields, ∀ g, ∃ z, (env.GetFieldGoZeroValueString g f).1 = .ok z) :
    ∀ g : GeneratedFile,
      ∃ s, (GetParameterErrorReturnString env g fields errorVarName).1 = .ok s := by
  have hz : ∀ g : GeneratedFile, ∃ zs, (getZeroValueStrings env g fields).1 = .ok zs := by
    induction fields with
    | nil => intro g; exact ⟨[], rfl⟩
    | cons a rest ih =>
      intro g
      obtain ⟨t, ht⟩ := h a (List.mem_cons_self _ _) g
      obtain ⟨ps, hps⟩ := ih (fun f hf => h f (List.mem_cons_of_mem _ hf))
        (g.record (env.GetFieldGoZeroValueString g a).2)
      rcases hr : env.GetFieldGoZeroValueString g a with ⟨r, ids⟩
      rw [hr] at ht hps
      simp only at ht hps
      subst ht
      rcases hr2 : getZeroValueStrings env (g.record ids) rest with ⟨r2, g2⟩
      rw [hr2] at hps
      simp only at hps
      subst hps
      simp [getZeroValueStrings, hr, hr2]
  intro g
  obtain ⟨zs, hzs⟩ := hz g
  rcases hr : getZeroValueStrings env g fields with ⟨r, g1⟩
  rw [hr] at hzs
  simp only at hzs
  subst hzs
  simp [GetParameterErrorReturnString, hr]

theorem method_ok (env : Env) (ctx sn : String) (g : GeneratedFile) (m : Method)
    (hvalid : ValidateMethodUnary m = .ok ()) (hh : MethodHelpersOk env m) :
    (generateServiceFile_method env ctx sn g m).1 = none := by
  obtain ⟨h1, h2, h3⟩ := hh
  unfold generateServiceFile_method
  simp only [hvalid]
  obtain ⟨ps1, hps1⟩ := GetParameterStrings_ok env m.Input.Fields h1 g
  rcases hr1 : GetParameterStrings env g m.Input.Fields with ⟨r1, g1⟩
  rw [hr1] at hps1
  simp only at hps1
  subst hps1
  simp only
  obtain ⟨ps2, hps2⟩ := GetParameterStrings_ok env m.Output.Fields h2 g1
  rcases hr2 : GetParameterStrings env g1 m.Output.Fields with ⟨r2, g2⟩
  rw [hr2] at hps2
  simp only at hps2
  subst hps2
  simp only
  split
  · rename_i e g3 heq
    obtain ⟨s, hs⟩ := GetParameterErrorReturnString_ok env m.Output.Fields "err" h3 _
    rw [heq] at hs
    simp at hs
  · rfl

theorem methods_ok (env : Env) (ctx sn : String) (ms : List Method)
    (h : ∀ m ∈ ms, ValidateMethodUnary m = .ok () ∧ MethodHelpersOk env m) :
    ∀ g : GeneratedFile, (generateServiceFile_methods env ctx sn g ms).1 = none := by
  induction ms with
  | nil => intro g; rfl
  | cons a rest ih =>
    intro g
    have ha := method_ok env ctx sn g a (h a (List.mem_cons_self _ _)).1
      (h a (List.mem_cons_self _ _)).2
    unfold generateServiceFile_methods
    rcases hr : generateServiceFile_method env ctx sn g a with ⟨e, g1⟩
    rw [hr] at ha
    simp only at ha
    subst ha
    exact ih (fun m hm => h m (List.mem_cons_of_mem _ hm)) g1

theorem service_ok (env : Env) (file : File) (ctx lg : String) (g : GeneratedFile) (s : Service)
    (h : ∀ m ∈ s.Methods, ValidateMethodUnary m = .ok () ∧ MethodHelpersOk env m) :
    (generateServiceFile_service env file ctx lg g s).1 = none := by
  unfold generateServiceFile_service
  simp only
  split
  · rename_i e g1 heq
    have hm := methods_ok env ctx (GetUnexportGoName s.GoName) s.Methods h
    have hm2 := congrArg Prod.fst heq
    rw [hm] at hm2
    simp at hm2
  · rfl

theorem services_ok (env : Env) (file : File) (ctx lg : String) (ss : List Service)
    (h : ∀ s ∈ ss, ∀ m ∈ s.Methods, ValidateMethodUnary m = .ok () ∧ MethodHelpersOk env m) :
    ∀ g : GeneratedFile, (generateServiceFile_services env file ctx lg g ss).1 = none := by
  induction ss with
  | nil => intro g; rfl
  | cons a rest ih =>
    intro g
    have ha := service_ok env file ctx lg g a (h a (List.mem_cons_self _ _))
    unfold generateServiceFile_services
    rcases hr : generateServiceFile_service env file ctx lg g a with ⟨e, g1⟩
    rw [hr] at ha
    simp only at ha
    subst ha
    exact ih (fun s hs => h s (List.mem_cons_of_mem _ hs)) g1

theorem serviceFile_ok (env : Env) (helper : NamedHelper) (plugin : Plugin) (file : File)
    (hnew : ∃ r, helper.NewGeneratedFile plugin file pluginName = .ok r)
    (h : ∀ s ∈ file.Services, ∀ m ∈ s.Methods,
      ValidateMethodUnary m = .ok () ∧ MethodHelpersOk env m) :
    (generateServiceFile env helper plugin file).1 = none := by
  obtain ⟨⟨n, p⟩, hr⟩ := hnew
  unfold generateServiceFile
  simp only [hr]
  exact services_ok env file _ _ file.Services h _

theorem handle_files_success (env : Env) (helper : NamedHelper) (files : List File)
    (hnew : ∀ file ∈ files, ∀ p, ∃ r, helper.NewGeneratedFile p file pluginName = .ok r)
    (h : ∀ file ∈ files, ∀ s ∈ file.Services, ∀ m ∈ s.Methods,
      ValidateMethodUnary m = .ok () ∧ MethodHelpersOk env m) :
    ∀ plugin : Plugin, (handle_files env helper plugin files).1 = none := by
  induction files with
  | nil => intro p; rfl
  | cons a rest ih =>
    intro p
    have ha := serviceFile_ok env helper p a (hnew a (List.mem_cons_self _ _) p)
      (h a (List.mem_cons_self _ _))
    have hrest := ih (fun f hf => hnew f (List.mem_cons_of_mem _ hf))
      (fun f hf => h f (List.mem_cons_of_mem _ hf))
    unfold handle_files
    split
    · rcases hr : generateServiceFile env helper p a with ⟨e, p1⟩
      rw [hr] at ha
      simp only at ha
      subst ha
      exact hrest p1
    · exact hrest p

theorem generatePackageFile_ok (env : Env) (helper : NamedHelper) (plugin : Plugin)
    (set : GoPackageFileSet)
    (hunit : ∃ r, helper.NewPackageGeneratedFile plugin set pluginName = .ok r)
    (hapiclient : ∃ p, helper.NewPackageGoImportPath set "apiclient" = .ok p)
    (hapi : ∃ p, helper.NewPackageGoImportPath set "api" = .ok p) :
    (generatePackageFile env helper plugin set).1 = none := by
  obtain ⟨⟨n, p⟩, hunit⟩ := hunit
  obtain ⟨apiclient, hapiclient⟩ := hapiclient
  obtain ⟨api, hapi⟩ := hapi
  unfold generatePackageFile
  simp [hunit, hapiclient, hapi]

theorem handle_success (env : Env) (helper : NamedHelper) (plugin : Plugin)
    (set : GoPackageFileSet)
    (hunit : ∃ r, helper.NewPackageGeneratedFile plugin set pluginName = .ok r)
    (hapiclient : ∃ p, helper.NewPackageGoImportPath set "apiclient" = .ok p)
    (hapi : ∃ p, helper.NewPackageGoImportPath set "api" = .ok p)
    (hnew : ∀ file ∈ set.Files, ∀ p, ∃ r, helper.NewGeneratedFile p file pluginName = .ok r)
    (h : ∀ file ∈ set.Files, ∀ s ∈ file.Services, ∀ m ∈ s.Methods,
      ValidateMethodUnary m = .ok () ∧ MethodHelpersOk env m) :
    (handle env helper plugin set).1 = none := by
  have hp := generatePackageFile_ok env helper plugin set hunit hapiclient hapi
  unfold handle
  split
  · rfl
  · rcases hr : generatePackageFile env helper plugin set with ⟨e, p1⟩
    rw [hr] at hp
    simp only at hp
    subst hp
    exact handle_files_success env helper set.Files hnew h p1

theorem handle_ok_text (env : Env) (helper : NamedHelper) (plugin : Plugin)
    (set : GoPackageFileSet) (hservices : set.Services.length > 0)
    (hok : (handle env helper plugin set).1 = none) :
    ∃ filename path apiclient api blocks ids r1 r2 r3 r4 r5 arts,
      helper.NewPackageGeneratedFile plugin set pluginName = .ok (filename, path) ∧
      helper.NewPackageGoImportPath set "apiclient" = .ok apiclient ∧
      helper.NewPackageGoImportPath set "api" = .ok api ∧
      List.Forall₂
        (FactoryText env path set.GoImportPath api
          (env.qualify path r2 (GoImportPath_Ident twirpclientPackage "NewClientOptions"))
          (env.qualify path r5 (GoImportPath_Ident contextPackage "Context")))
        set.Services blocks ∧
      List.Forall₂ (FileArtifact env helper)
        (set.Files.filter (fun file => file.Services.length > 0)) arts ∧
      (handle env helper plugin set).2.genFiles =
        plugin.genFiles ++
          GeneratedFile.mk filename path ids
            (providerText (env.qualify path r3 (GoImportPath_Ident zapPackage "Logger"))
                (env.qualify path r1 (GoImportPath_Ident httpclientPackage "Client"))
                (env.qualify path r4 (GoImportPath_Ident apiclient "Provider")) ++
              blocks.flatten) :: arts := by
  revert hok
  unfold handle
  have hne : ¬ set.Services.length = 0 := by omega
  simp only [hne, if_false]
  rcases hr : generatePackageFile env helper plugin set with ⟨e, p1⟩
  cases e with
  | some err => simp
  | none =>
    simp only
    intro h
    obtain ⟨filename, path, apiclient, api, blocks, ids, r1, r2, r3, r4, r5, hn, h1, h2, hbs, hg⟩ :=
      packageFile_ok_text env helper plugin set (by rw [hr])
    rw [hr] at hg
    simp only at hg
    obtain ⟨arts, harts, hfiles⟩ := handle_files_ok env helper set.Files p1 h
    refine ⟨filename, path, apiclient, api, blocks, ids, r1, r2, r3, r4, r5, arts,
      hn, h1, h2, hbs, harts, ?_⟩
    rw [hfiles, hg]
    simp [Plugin.withFile]

/-! ## The `Greeter` scenario (C11) -/

theorem MethodText_single (env : Env) (ctx sn : String) (m : Method) (block : List String)
    (fin fout : Field) (tin tout z : String)
    (hin : m.Input.Fields = [fin]) (hout : m.Output.Fields = [fout])
    (htin : ∀ g, (env.GetFieldGoTypeString g fin).1 = .ok tin)
    (htout : ∀ g, (env.GetFieldGoTypeString g fout).1 = .ok tout)
    (hz : ∀ g, (env.GetFieldGoZeroValueString g fout).1 = .ok z)
    (h : MethodText env ctx sn m block) :
    ∃ request,
      block =
        [env.comments m.Leading ++ "func (s *" ++ sn ++ ") " ++ m.GoName ++ "(" ++
            ("ctx " ++ ctx ++ ", " ++ (GetUnexportGoName fin.GoName ++ " " ++ tin)) ++ ") (" ++
            (GetUnexportGoName fout.GoName ++ " " ++ tout ++ ", " ++ "_ error") ++ ") \x7b",
          "response, err := s.client." ++ m.GoName ++ "(",
          "ctx,",
          "&" ++ request ++ "\x7b",
          fin.GoName ++ ": " ++ GetUnexportGoName fin.GoName ++ ",",
          "\x7d,", ")", "if err != nil \x7b",
          "return " ++ (z ++ ", " ++ "err"),
          "\x7d",
          "return " ++ ("response." ++ fout.GoName ++ ", " ++ "nil"),
          "\x7d", ""] := by
  obtain ⟨inTypes, outTypes, zs, req, h1, h2, h3, hblock⟩ := h
  refine ⟨req, ?_⟩
  rw [hin] at h1
  rw [hout] at h2 h3
  obtain ⟨t1, l1, ⟨g1, ht1⟩, hl1, rfl⟩ := List.forall₂_cons_left_iff.mp h1
  obtain ⟨t2, l2, ⟨g2, ht2⟩, hl2, rfl⟩ := List.forall₂_cons_left_iff.mp h2
  obtain ⟨z1, l3, ⟨g3, hz1⟩, hl3, rfl⟩ := List.forall₂_cons_left_iff.mp h3
  have := List.forall₂_nil_left_iff.mp hl1
  have := List.forall₂_nil_left_iff.mp hl2
  have := List.forall₂_nil_left_iff.mp hl3
  subst_vars
  rw [htin g1] at ht1
  rw [htout g2] at ht2
  rw [hz g3] at hz1
  simp only [Except.ok.injEq] at ht1 ht2 hz1
  subst_vars
  rw [hin, hout, bodyText_eq]
  simp [signatureText, callText, parameterText, String.join, String.intercalate,
    String.intercalate.go]

/-- C11: for a unit (package path `pkg/a` or any other) made of one file whose only
service is `Greeter` with the single unary method `SayHello`, from a message with the
single string field `Name` to a message with the single string field `Greeting`, and
with helpers that succeed: `handle` succeeds and adds two artifacts.  The unit-level
artifact holds the factory method `NewGreeter` on the provider; the file-level
artifact is the type `greeter` and the method `SayHello` with the parameters `ctx`
and `name string`, the returns `greeting string, _ error`, the request initializer
`Name: name`, the call `s.client.SayHello`, and the returns `response.Greeting, nil`
on success and `"", err` on failure. -/
theorem handle_greeter_scenario (env : Env) (helper : NamedHelper) (plugin : Plugin)
    (goPackageFileSet : GoPackageFileSet) (file : File) (method : Method)
    (nameField greetingField : Field) (unitName unitPath fileName filePath apiclient api : String)
    (hfiles : goPackageFileSet.Files = [file])
    (hservices : file.Services = [{ GoName := "Greeter", Methods := [method] }])
    (hname : method.GoName = "SayHello")
    (hunary : ValidateMethodUnary method = .ok ())
    (hin : method.Input.Fields = [nameField]) (hinName : nameField.GoName = "Name")
    (hout : method.Output.Fields = [greetingField])
    (houtName : greetingField.GoName = "Greeting")
    (hinType : ∀ g, (env.GetFieldGoTypeString g nameField).1 = .ok "string")
    (houtType : ∀ g, (env.GetFieldGoTypeString g greetingField).1 = .ok "string")
    (hzero : ∀ g, (env.GetFieldGoZeroValueString g greetingField).1 = .ok "\"\"")
    (hunit : helper.NewPackageGeneratedFile plugin goPackageFileSet pluginName =
      .ok (unitName, unitPath))
    (hapiclient : helper.NewPackageGoImportPath goPackageFileSet "apiclient" = .ok apiclient)
    (hapi : helper.NewPackageGoImportPath goPackageFileSet "api" = .ok api)
    (hfile : ∀ p, helper.NewGeneratedFile p file pluginName = .ok (fileName, filePath)) :
    ∃ unitArtifact fileArtifact unitContext apiGreeter context logger client request,
      handle env helper plugin goPackageFileSet =
        (none, ⟨plugin.genFiles ++ [unitArtifact, fileArtifact]⟩) ∧
      unitArtifact.filename = unitName ∧ fileArtifact.filename = fileName ∧
      "func (p *provider) NewGreeter(ctx " ++ unitContext ++ ", address string) (" ++
          apiGreeter ++ ", error) \x7b" ∈ unitArtifact.buf ∧
      fileArtifact.buf =
        ["type greeter struct \x7b",
          "logger *" ++ logger,
          "client " ++ client,
          "\x7d",
          "",
          env.comments method.Leading ++ "func (s *greeter) SayHello(ctx " ++ context ++
            ", name string) (greeting string, _ error) \x7b",
          "response, err := s.client.SayHello(",
          "ctx,",
          "&" ++ request ++ "\x7b",
          "Name: name,",
          "\x7d,",
          ")",
          "if err != nil \x7b",
          "return \"\", err",
          "\x7d",
          "return response.Greeting, nil",
          "\x7d",
          "",
          ""] := by
  have hS : goPackageFileSet.Services = [{ GoName := "Greeter", Methods := [method] }] := by
    simp [GoPackageFileSet.Services, hfiles, hservices]
  have hlower : GetUnexportGoName "Greeter" = "greeter" := by decide
  have hlowerName : GetUnexportGoName "Name" = "name" := by decide
  have hlowerGreeting : GetUnexportGoName "Greeting" = "greeting" := by decide
  have hhelpers : MethodHelpersOk env method := by
    refine ⟨?_, ?_, ?_⟩
    · intro f hf g
      rw [hin] at hf
      simp only [List.mem_singleton] at hf
      subst hf
      exact ⟨_, hinType g⟩
    · intro f hf g
      rw [hout] at hf
      simp only [List.mem_singleton] at hf
      subst hf
      exact ⟨_, houtType g⟩
    · intro f hf g
      rw [hout] at hf
      simp only [List.mem_singleton] at hf
      subst hf
      exact ⟨_, hzero g⟩
  have hok : (handle env helper plugin goPackageFileSet).1 = none := by
    apply handle_success env helper plugin goPackageFileSet ⟨_, hunit⟩ ⟨_, hapiclient⟩ ⟨_, hapi⟩
    · intro f hf p
      rw [hfiles] at hf
      simp only [List.mem_singleton] at hf
      subst hf
      exact ⟨_, hfile p⟩
    · intro f hf s hs m hm
      rw [hfiles] at hf
      simp only [List.mem_singleton] at hf
      subst hf
      rw [hservices] at hs
      simp only [List.mem_singleton] at hs
      subst hs
      simp only [List.mem_singleton] at hm
      subst hm
      exact ⟨hunary, hhelpers⟩
  obtain ⟨n, p, ac, a, blocks, ids, r1, r2, r3, r4, r5, arts, hn, _, _, hbs, harts, hgen⟩ :=
    handle_ok_text env helper plugin goPackageFileSet (by simp [hS]) hok
  rw [hunit] at hn
  simp only [Except.ok.injEq, Prod.mk.injEq] at hn
  obtain ⟨rfl, rfl⟩ := hn
  -- the unit-level artifact
  rw [hS] at hbs
  obtain ⟨block, l, ⟨q1, q2, hblock⟩, hl, rfl⟩ := List.forall₂_cons_left_iff.mp hbs
  have hlnil := List.forall₂_nil_left_iff.mp hl
  subst hlnil
  -- the file-level artifact
  have hfilter : goPackageFileSet.Files.filter (fun file => file.Services.length > 0) = [file] := by
    simp [hfiles, hservices]
  rw [hfilter] at harts
  obtain ⟨art, l, ⟨⟨p0, hart⟩, ctx, lg, texts, htexts, hbuf⟩, hl, rfl⟩ :=
    List.forall₂_cons_left_iff.mp harts
  have hlnil := List.forall₂_nil_left_iff.mp hl
  subst hlnil
  rw [hfile p0] at hart
  simp only [Except.ok.injEq, Prod.mk.injEq] at hart
  rw [hservices] at htexts
  obtain ⟨text, l, ⟨client, mblocks, hmblocks, htext⟩, hl, rfl⟩ :=
    List.forall₂_cons_left_iff.mp htexts
  have hlnil := List.forall₂_nil_left_iff.mp hl
  subst hlnil
  simp only at hmblocks htext
  obtain ⟨mblock, l, hmblock, hl, rfl⟩ := List.forall₂_cons_left_iff.mp hmblocks
  have hlnil := List.forall₂_nil_left_iff.mp hl
  subst hlnil
  obtain ⟨request, hmtext⟩ := MethodText_single env ctx _ method mblock nameField greetingField
    "string" "string" "\"\"" hin hout hinType houtType hzero hmblock
  obtain ⟨u, hu, hun, hub⟩ : ∃ u : GeneratedFile,
      (handle env helper plugin goPackageFileSet).2.genFiles = plugin.genFiles ++ u :: [art] ∧
      u.filename = unitName ∧ block.head? ∈ u.buf.map some :=
    ⟨_, hgen, rfl, by rw [hblock]; simp [factoryText]⟩
  refine ⟨u, art, env.qualify unitPath r5 (GoImportPath_Ident contextPackage "Context"),
    env.qualify unitPath q1 (GoImportPath_Ident a "Greeter"), ctx, lg, client, request,
    ?_, hun, hart.1.symm, ?_, ?_⟩
  · apply Prod.ext
    · exact hok
    · show (handle env helper plugin goPackageFileSet).2 = _
      cases hh : (handle env helper plugin goPackageFileSet).2 with
      | mk gf =>
        rw [hh] at hu
        simp only at hu
        rw [hu]
  · rw [hblock] at hub
    simp only [factoryText, List.head?_cons, List.mem_map, Option.some.injEq] at hub
    obtain ⟨line, hline, heq⟩ := hub
    have : line = "func (p *provider) NewGreeter(ctx " ++
        env.qualify unitPath r5 (GoImportPath_Ident contextPackage "Context") ++
        ", address string) (" ++ env.qualify unitPath q1 (GoImportPath_Ident a "Greeter") ++
        ", error) \x7b" := by
      rw [heq]
      apply String.ext
      simp [String.data_append, String.join]
    rw [← this]
    exact hline
  · rw [hbuf, htext, hmtext, hname, hinName, houtName, hlower, hlowerName, hlowerGreeting]
    simp only [List.flatten_cons, List.flatten_nil, List.append_nil, List.cons_append,
      List.nil_append, List.cons.injEq, and_true, true_and]
    repeat' apply And.intro
    all_goals
      first
        | rfl
        | decide
        | (apply String.ext; simp [String.data_append, String.join])

/-- Witness for C11: the sample unit `pkg/a` with `Greeter.SayHello`. -/
theorem handle_greeter_scenario_witness :
    ValidateMethodUnary sayHello = .ok () ∧
    ∃ unitArtifact fileArtifact unitContext apiGreeter context logger client request,
      handle sampleEnv sampleHelper ⟨[]⟩ greeterUnit =
        (none, ⟨(⟨[]⟩ : Plugin).genFiles ++ [unitArtifact, fileArtifact]⟩) ∧
      unitArtifact.filename = "pkg/a/provider.pb.go" ∧ fileArtifact.filename = "a/greeter.pb.go" ∧
      "func (p *provider) NewGreeter(ctx " ++ unitContext ++ ", address string) (" ++
          apiGreeter ++ ", error) \x7b" ∈ unitArtifact.buf ∧
      fileArtifact.buf =
        ["type greeter struct \x7b",
          "logger *" ++ logger,
          "client " ++ client,
          "\x7d",
          "",
          sampleEnv.comments sayHello.Leading ++ "func (s *greeter) SayHello(ctx " ++ context ++
            ", name string) (greeting string, _ error) \x7b",
          "response, err := s.client.SayHello(",
          "ctx,",
          "&" ++ request ++ "\x7b",
          "Name: name,",
          "\x7d,",
          ")",
          "if err != nil \x7b",
          "return \"\", err",
          "\x7d",
          "return response.Greeting, nil",
          "\x7d",
          "",
          ""] :=
  ⟨by decide,
    handle_greeter_scenario sampleEnv sampleHelper ⟨[]⟩ greeterUnit greeterFile sayHello
      { GoName := "Name", Desc := "string" } { GoName := "Greeting", Desc := "string" }
      "pkg/a/provider.pb.go" "pkg/a" "a/greeter.pb.go" "pkg/a" "pkg/a/apiclient" "pkg/a/api"
      rfl rfl rfl (by decide) rfl rfl rfl rfl (fun _ => rfl) (fun _ => rfl) (fun _ => rfl)
      rfl rfl rfl (fun _ => rfl)⟩

/-! ## The leading comment of a method (C12) -/

/-- C12 (as stated, refuted): with comments rendered as `protogen` renders them, the
method `SayHello` with the leading comment ` SayHello greets the caller.` is emitted
with the first line `// SayHello greets the caller.` followed by `func (s *greeter)
SayHello(`: the characters `//` were put before the comment text, so the line is not
the descriptor's text followed by the signature. -/
theorem method_comment_is_rendered :
    (generateServiceFile_method protogenEnv "Context" "greeter" sampleFile documentedHello).1 = none ∧
    (generateServiceFile_method protogenEnv "Context" "greeter" sampleFile documentedHello).2.buf.head? =
      some ("// SayHello greets the caller.\nfunc (s *greeter) SayHello(ctx Context, name string) (greeting string, _ error) \x7b") ∧
    ∀ rest : String,
      (generateServiceFile_method protogenEnv "Context" "greeter" sampleFile documentedHello).2.buf.head? ≠
        some (documentedHello.Leading ++ "func (s *greeter) SayHello(" ++ rest) := by
  refine ⟨by decide, by decide, ?_⟩
  intro rest h
  have h1 : (generateServiceFile_method protogenEnv "Context" "greeter" sampleFile
      documentedHello).2.buf.head? =
      some ("// SayHello greets the caller.\nfunc (s *greeter) SayHello(ctx Context, name string) (greeting string, _ error) \x7b") := by
    decide
  rw [h1] at h
  have h2 := congrArg (fun o => o.map (fun s => s.data.head?)) h
  simp [String.data_append, documentedHello] at h2

theorem signatureText_cons (comment sn name : String) (params rets : List String) :
    ∃ rest tail,
      signatureText comment sn name params rets =
        (comment ++ "func (s *" ++ sn ++ ") " ++ name ++ "(" ++ rest) :: tail ∧
      (params.length > 2 ∨ rets.length > 2 → rest = "") := by
  unfold signatureText
  split
  · rename_i h
    refine ⟨"", params.map (fun p => String.join [p, ","]) ++
      [String.join [") (", String.intercalate ", " rets, ") \x7b"]], ?_, fun _ => rfl⟩
    simp [String.join]
  · rename_i h
    refine ⟨String.intercalate ", " params ++ ") (" ++ String.intercalate ", " rets ++ ") \x7b",
      [], ?_, fun h' => absurd h' h⟩
    simp only [List.cons.injEq, and_true]
    apply String.ext
    simp [String.data_append, String.join]

/-- C12 (amended): for every emitted method the generator hands
`method.Comments.Leading` unchanged to `P` as the first operand of the line that opens
the signature: in both layouts the first line emitted for the method is the text that
`P` prints for the leading comment, immediately followed by
`func (s *<struct>) <GoName>(`; in the multi-line layout nothing follows on that line.
The generator itself adds, drops or alters no character of the comment; the rendering
of the comment is that of `protogen`. -/
theorem method_leading_comment (env : Env) (ctx sn : String) (g : GeneratedFile) (m : Method)
    (hok : (generateServiceFile_method env ctx sn g m).1 = none) :
    ∃ rest tail,
      (generateServiceFile_method env ctx sn g m).2.buf =
        g.buf ++
          (env.comments m.Leading ++ "func (s *" ++ sn ++ ") " ++ m.GoName ++ "(" ++ rest) ::
            tail ∧
      (m.Input.Fields.length ≥ 2 ∨ m.Output.Fields.length ≥ 2 → rest = "") := by
  obtain ⟨inTypes, outTypes, zs, r, h1, h2, _, hg⟩ := method_ok_lines env ctx sn g m hok
  obtain ⟨rest, tail, hsig, hrest⟩ := signatureText_cons (env.comments m.Leading) sn m.GoName
    (("ctx " ++ ctx) :: parameterText m.Input.Fields inTypes)
    (parameterText m.Output.Fields outTypes ++ ["_ error"])
  refine ⟨rest, tail ++
    ([callText m.GoName m.Output.Fields, "ctx,",
        "&" ++ env.qualify g.goImportPath r m.Input.GoIdent ++ "\x7b"] ++
      m.Input.Fields.map
        (fun field => field.GoName ++ ": " ++ GetUnexportGoName field.GoName ++ ",") ++
      ["\x7d,", ")", "if err != nil \x7b",
        "return " ++ String.intercalate ", " (zs ++ ["err"]), "\x7d",
        "return " ++ String.intercalate ", "
          (m.Output.Fields.map (fun field => "response." ++ field.GoName) ++ ["nil"]),
        "\x7d", ""]), ?_, ?_⟩
  · rw [hg, hsig]
    simp only [List.append_assoc, List.cons_append]
  · intro h
    apply hrest
    simp only [List.length_cons, List.length_append, List.length_nil,
      parameterText_length _ _ h1.length_eq.symm, parameterText_length _ _ h2.length_eq.symm]
    omega

/-- Witness for C12 (amended): the documented method `SayHello`. -/
theorem method_leading_comment_witness :
    (generateServiceFile_method protogenEnv "Context" "greeter" sampleFile documentedHello).1 =
      none ∧
    ∃ rest tail,
      (generateServiceFile_method protogenEnv "Context" "greeter" sampleFile documentedHello).2.buf =
        sampleFile.buf ++
          (protogenEnv.comments documentedHello.Leading ++ "func (s *" ++ "greeter" ++ ") " ++
              documentedHello.GoName ++ "(" ++ rest) ::
            tail ∧
      (documentedHello.Input.Fields.length ≥ 2 ∨ documentedHello.Output.Fields.length ≥ 2 →
        rest = "") :=
  ⟨by decide,
    method_leading_comment protogenEnv "Context" "greeter" sampleFile documentedHello (by decide)⟩

/-! ## The body of a factory method (C13) -/

/-- C13: when `generatePackageFile` succeeds, the factory method of every service of
the unit has a body that is one return statement: it returns a pointer to the
service's wrapper struct with `logger: p.logger` and with `client` set to the call of
`New<GoName>ProtobufClient` (referenced in the unit's Go package) on
`p.httpClient.ParseAddress(address)`, `p.httpClient` and `NewClientOptions()...`, and
its second value is the literal `nil`.  No other return statement is emitted for a
factory method, so no factory path returns a non-nil error. -/
theorem generatePackageFile_factory_body (env : Env) (helper : NamedHelper) (plugin : Plugin)
    (goPackageFileSet : GoPackageFileSet)
    (hok : (generatePackageFile env helper plugin goPackageFileSet).1 = none) :
    ∃ g logger httpClient provider context newClientOptions blocks,
      (generatePackageFile env helper plugin goPackageFileSet).2 = plugin.withFile g ∧
      g.buf = providerText logger httpClient provider ++ blocks.flatten ∧
      (∃ resolved, newClientOptions =
        env.qualify g.goImportPath resolved
          (GoImportPath_Ident twirpclientPackage "NewClientOptions")) ∧
      List.Forall₂
        (fun service block =>
          ∃ api newClient,
            (∃ resolved, newClient =
              env.qualify g.goImportPath resolved
                (GoImportPath_Ident goPackageFileSet.GoImportPath
                  ("New" ++ service.GoName ++ "ProtobufClient"))) ∧
            block =
              ["func (p *provider) New" ++ service.GoName ++ "(ctx " ++ context ++
                  ", address string) (" ++ api ++ ", error) \x7b",
                "return &" ++ GetUnexportGoName service.GoName ++ "\x7b",
                "logger: p.logger,",
                "client: " ++ newClient ++ "(",
                "p.httpClient.ParseAddress(address),",
                "p.httpClient,",
                newClientOptions ++ "()...,",
                "),",
                "\x7d, nil",
                "\x7d",
                ""])
        goPackageFileSet.Services blocks := by
  obtain ⟨filename, path, apiclient, api, blocks, ids, r1, r2, r3, r4, r5, _, _, _, hbs, hg⟩ :=
    packageFile_ok_text env helper plugin goPackageFileSet hok
  refine ⟨_, _, _, _, env.qualify path r5 (GoImportPath_Ident contextPackage "Context"),
    env.qualify path r2 (GoImportPath_Ident twirpclientPackage "NewClientOptions"), blocks,
    hg, rfl, ⟨r2, rfl⟩, ?_⟩
  refine List.Forall₂.imp ?_ hbs
  intro service block hb
  obtain ⟨q1, q2, hblock⟩ := hb
  refine ⟨env.qualify path q1 (GoImportPath_Ident api service.GoName), _, ⟨q2, rfl⟩, ?_⟩
  rw [hblock]
  simp [factoryText, String.join]

/-- Witness for C13: the unit made of the file that declares `Greeter`. -/
theorem generatePackageFile_factory_body_witness :
    (generatePackageFile sampleEnv sampleHelper ⟨[]⟩ greeterUnit).1 = none ∧
    ∃ g logger httpClient provider context newClientOptions blocks,
      (generatePackageFile sampleEnv sampleHelper ⟨[]⟩ greeterUnit).2 =
        (⟨[]⟩ : Plugin).withFile g ∧
      g.buf = providerText logger httpClient provider ++ blocks.flatten ∧
      (∃ resolved, newClientOptions =
        sampleEnv.qualify g.goImportPath resolved
          (GoImportPath_Ident twirpclientPackage "NewClientOptions")) ∧
      List.Forall₂
        (fun service block =>
          ∃ api newClient,
            (∃ resolved, newClient =
              sampleEnv.qualify g.goImportPath resolved
                (GoImportPath_Ident greeterUnit.GoImportPath
                  ("New" ++ service.GoName ++ "ProtobufClient"))) ∧
            block =
              ["func (p *provider) New" ++ service.GoName ++ "(ctx " ++ context ++
                  ", address string) (" ++ api ++ ", error) \x7b",
                "return &" ++ GetUnexportGoName service.GoName ++ "\x7b",
                "logger: p.logger,",
                "client: " ++ newClient ++ "(",
                "p.httpClient.ParseAddress(address),",
                "p.httpClient,",
                newClientOptions ++ "()...,",
                "),",
                "\x7d, nil",
                "\x7d",
                ""])
        greeterUnit.Services blocks :=
  ⟨by decide,
    generatePackageFile_factory_body sampleEnv sampleHelper ⟨[]⟩ greeterUnit (by decide)⟩

/-! ## The layout of a signature (C15) -/

theorem signatureText_layout (comment sn name : String) (params rets : List String) :
    (params.length > 2 ∨ rets.length > 2 →
      signatureText comment sn name params rets =
        [comment ++ "func (s *" ++ sn ++ ") " ++ name ++ "("] ++
          params.map (fun p => p ++ ",") ++
          [") (" ++ String.intercalate ", " rets ++ ") \x7b"]) ∧
    (¬ (params.length > 2 ∨ rets.length > 2) →
      signatureText comment sn name params rets =
        [comment ++ "func (s *" ++ sn ++ ") " ++ name ++ "(" ++
          String.intercalate ", " params ++ ") (" ++ String.intercalate ", " rets ++ ") \x7b"]) := by
  unfold signatureText
  constructor
  · intro h
    rw [if_pos h]
    simp [String.join]
  · intro h
    rw [if_neg h]
    simp [String.join]

/-- C15: the signature of an emitted method is written in the multi-line layout (the
opening line, one line per parameter each followed by `,`, the line with the return
list) if and only if the method has at least two input fields or at least two output
fields, and on a single line otherwise.  Both layouts are built from the same
parameter strings (`ctx <Context>`, then one per input field) in the same order and
from the same return strings (one per output field, then `_ error`) in the same order;
they differ only in the line breaks and in the comma after the last parameter. -/
theorem method_signature_layout (env : Env) (ctx sn : String) (g : GeneratedFile) (m : Method)
    (hok : (generateServiceFile_method env ctx sn g m).1 = none) :
    ∃ inTypes outTypes request errorReturn,
      List.Forall₂ (IsFieldGoType env) m.Input.Fields inTypes ∧
      List.Forall₂ (IsFieldGoType env) m.Output.Fields outTypes ∧
      (m.Input.Fields.length ≥ 2 ∨ m.Output.Fields.length ≥ 2 →
        (generateServiceFile_method env ctx sn g m).2.buf =
          g.buf ++
            ([env.comments m.Leading ++ "func (s *" ++ sn ++ ") " ++ m.GoName ++ "("] ++
              (("ctx " ++ ctx) :: parameterText m.Input.Fields inTypes).map (fun p => p ++ ",") ++
              [") (" ++ String.intercalate ", "
                (parameterText m.Output.Fields outTypes ++ ["_ error"]) ++ ") \x7b"]) ++
            bodyText m.GoName request m.Input.Fields m.Output.Fields errorReturn) ∧
      (¬ (m.Input.Fields.length ≥ 2 ∨ m.Output.Fields.length ≥ 2) →
        (generateServiceFile_method env ctx sn g m).2.buf =
          g.buf ++
            [env.comments m.Leading ++ "func (s *" ++ sn ++ ") " ++ m.GoName ++ "(" ++
              String.intercalate ", " (("ctx " ++ ctx) :: parameterText m.Input.Fields inTypes) ++
              ") (" ++
              String.intercalate ", " (parameterText m.Output.Fields outTypes ++ ["_ error"]) ++
              ") \x7b"] ++
            bodyText m.GoName request m.Input.Fields m.Output.Fields errorReturn) := by
  obtain ⟨inTypes, outTypes, zs, r, ids, h1, h2, _, hg⟩ := method_ok_text env ctx sn g m hok
  obtain ⟨hmulti, hsingle⟩ := signatureText_layout (env.comments m.Leading) sn m.GoName
    (["ctx " ++ ctx] ++ parameterText m.Input.Fields inTypes)
    (parameterText m.Output.Fields outTypes ++ ["_ error"])
  have hlen : ((["ctx " ++ ctx] ++ parameterText m.Input.Fields inTypes).length > 2 ∨
      (parameterText m.Output.Fields outTypes ++ ["_ error"]).length > 2) ↔
      (m.Input.Fields.length ≥ 2 ∨ m.Output.Fields.length ≥ 2) := by
    simp only [List.length_cons, List.length_append, List.length_nil,
      parameterText_length _ _ h1.length_eq.symm, parameterText_length _ _ h2.length_eq.symm]
    omega
  refine ⟨inTypes, outTypes, env.qualify g.goImportPath r m.Input.GoIdent,
    "return " ++ String.intercalate ", " (zs ++ ["err"]), h1, h2, ?_, ?_⟩
  · intro h
    rw [hg, hmulti (hlen.mpr h)]
    simp
  · intro h
    rw [hg, hsingle (fun h' => h (hlen.mp h'))]
    simp

/-- Witness for C15: the method `GreetFullName`, which has two input fields. -/
theorem method_signature_layout_witness :
    (generateServiceFile_method sampleEnv "Context" "greeter" sampleFile greetFullName).1 = none ∧
    ∃ inTypes outTypes request errorReturn,
      List.Forall₂ (IsFieldGoType sampleEnv) greetFullName.Input.Fields inTypes ∧
      List.Forall₂ (IsFieldGoType sampleEnv) greetFullName.Output.Fields outTypes ∧
      (greetFullName.Input.Fields.length ≥ 2 ∨ greetFullName.Output.Fields.length ≥ 2 →
        (generateServiceFile_method sampleEnv "Context" "greeter" sampleFile greetFullName).2.buf =
          sampleFile.buf ++
            ([sampleEnv.comments greetFullName.Leading ++ "func (s *" ++ "greeter" ++ ") " ++ greetFullName.GoName ++ "("] ++
              (("ctx " ++ "Context") :: parameterText greetFullName.Input.Fields inTypes).map (fun p => p ++ ",") ++
              [") (" ++ String.intercalate ", "
                (parameterText greetFullName.Output.Fields outTypes ++ ["_ error"]) ++ ") \x7b"]) ++
            bodyText greetFullName.GoName request greetFullName.Input.Fields greetFullName.Output.Fields errorReturn) ∧
      (¬ (greetFullName.Input.Fields.length ≥ 2 ∨ greetFullName.Output.Fields.length ≥ 2) →
        (generateServiceFile_method sampleEnv "Context" "greeter" sampleFile greetFullName).2.buf =
          sampleFile.buf ++
            [sampleEnv.comments greetFullName.Leading ++ "func (s *" ++ "greeter" ++ ") " ++ greetFullName.GoName ++ "(" ++
              String.intercalate ", " (("ctx " ++ "Context") :: parameterText greetFullName.Input.Fields inTypes) ++
              ") (" ++
              String.intercalate ", " (parameterText greetFullName.Output.Fields outTypes ++ ["_ error"]) ++
              ") \x7b"] ++
            bodyText greetFullName.GoName request greetFullName.Input.Fields greetFullName.Output.Fields errorReturn) :=
  ⟨by decide,
    method_signature_layout sampleEnv "Context" "greeter" sampleFile greetFullName (by decide)⟩

/-! ## The binding of `response` (C18) -/

/-- C18: in every emitted method the transport call binds `response`
(`response, err := s.client.<Method>(`) if and only if the output type has at least
one field, and discards it otherwise (`_, err := s.client.<Method>(`).  The
success-path return statement returns one accessor `response.<GoName>` per output
field before `nil`: it refers to `response` exactly when the output type has a field,
that is exactly when `response` is bound. -/
theorem method_response_binding (env : Env) (ctx sn : String) (g : GeneratedFile) (m : Method)
    (hok : (generateServiceFile_method env ctx sn g m).1 = none) :
    ∃ signature call request zeros,
      List.Forall₂ (IsFieldGoZeroValue env) m.Output.Fields zeros ∧
      (generateServiceFile_method env ctx sn g m).2.buf =
        g.buf ++ signature ++
          [call, "ctx,", "&" ++ request ++ "\x7b"] ++
          m.Input.Fields.map
            (fun field => field.GoName ++ ": " ++ GetUnexportGoName field.GoName ++ ",") ++
          ["\x7d,", ")", "if err != nil \x7b",
            "return " ++ String.intercalate ", " (zeros ++ ["err"]), "\x7d",
            "return " ++ String.intercalate ", "
              (m.Output.Fields.map (fun field => "response." ++ field.GoName) ++ ["nil"]),
            "\x7d", ""] ∧
      (m.Output.Fields.length ≥ 1 → call = "response, err := s.client." ++ m.GoName ++ "(") ∧
      (m.Output.Fields.length = 0 →
        call = "_, err := s.client." ++ m.GoName ++ "(" ∧
        m.Output.Fields.map (fun field => "response." ++ field.GoName) ++ ["nil"] = ["nil"]) := by
  obtain ⟨inTypes, outTypes, zs, r, _, _, h3, hg⟩ := method_ok_lines env ctx sn g m hok
  refine ⟨signatureText (env.comments m.Leading) sn m.GoName
      (("ctx " ++ ctx) :: parameterText m.Input.Fields inTypes)
      (parameterText m.Output.Fields outTypes ++ ["_ error"]),
    callText m.GoName m.Output.Fields, env.qualify g.goImportPath r m.Input.GoIdent, zs,
    h3, ?_, ?_, ?_⟩
  · rw [hg]
  · intro h
    unfold callText
    rw [if_neg (by omega)]
    simp [String.join]
  · intro h
    unfold callText
    rw [if_pos (by omega)]
    have hnil : m.Output.Fields = [] := List.length_eq_zero.mp h
    simp [String.join, hnil]

/-- Witness for C18: the method `SayHello`, whose output type has one field. -/
theorem method_response_binding_witness :
    (generateServiceFile_method sampleEnv "Context" "greeter" sampleFile sayHello).1 = none ∧
    ∃ signature call request zeros,
      List.Forall₂ (IsFieldGoZeroValue sampleEnv) sayHello.Output.Fields zeros ∧
      (generateServiceFile_method sampleEnv "Context" "greeter" sampleFile sayHello).2.buf =
        sampleFile.buf ++ signature ++
          [call, "ctx,", "&" ++ request ++ "\x7b"] ++
          sayHello.Input.Fields.map
            (fun field => field.GoName ++ ": " ++ GetUnexportGoName field.GoName ++ ",") ++
          ["\x7d,", ")", "if err != nil \x7b",
            "return " ++ String.intercalate ", " (zeros ++ ["err"]), "\x7d",
            "return " ++ String.intercalate ", "
              (sayHello.Output.Fields.map (fun field => "response." ++ field.GoName) ++ ["nil"]),
            "\x7d", ""] ∧
      (sayHello.Output.Fields.length ≥ 1 → call = "response, err := s.client." ++ sayHello.GoName ++ "(") ∧
      (sayHello.Output.Fields.length = 0 →
        call = "_, err := s.client." ++ sayHello.GoName ++ "(" ∧
        sayHello.Output.Fields.map (fun field => "response." ++ field.GoName) ++ ["nil"] = ["nil"]) :=
  ⟨by decide,
    method_response_binding sampleEnv "Context" "greeter" sampleFile sayHello (by decide)⟩

/-! ## Stopping at a method that fails validation -/

theorem method_invalid (env : Env) (ctx sn : String) (g : GeneratedFile) (m : Method)
    (err : Error) (h : ValidateMethodUnary m = .error err) :
    generateServiceFile_method env ctx sn g m = (some err, g) := by
  unfold generateServiceFile_method
  simp [h]

theorem methods_stop (env : Env) (ctx sn : String) (method : Method) (after : List Method)
    (err : Error) (herr : ValidateMethodUnary method = .error err) (before : List Method) :
    (∀ m ∈ before, ValidateMethodUnary m = .ok () ∧ MethodHelpersOk env m) →
    ∀ g : GeneratedFile,
      ∃ blocks ids, List.Forall₂ (MethodText env ctx sn) before blocks ∧
        generateServiceFile_methods env ctx sn g (before ++ method :: after) =
          (some err, { g with resolved := g.resolved ++ ids, buf := g.buf ++ blocks.flatten }) := by
  induction before with
  | nil =>
    intro _ g
    refine ⟨[], [], List.Forall₂.nil, ?_⟩
    simp [generateServiceFile_methods, method_invalid env ctx sn g method err herr]
  | cons a rest ih =>
    intro h g
    have ha := h a (List.mem_cons_self _ _)
    have hnone := method_ok env ctx sn g a ha.1 ha.2
    obtain ⟨block, ids, hb, hg⟩ := method_ok_MethodText env ctx sn g a hnone
    rcases hr : generateServiceFile_method env ctx sn g a with ⟨e, g1⟩
    rw [hr] at hnone hg
    simp only at hnone hg
    subst hnone
    obtain ⟨blocks, ids2, hbs, hg2⟩ := ih (fun m hm => h m (List.mem_cons_of_mem _ hm)) g1
    refine ⟨block :: blocks, ids ++ ids2, List.Forall₂.cons hb hbs, ?_⟩
    rw [List.cons_append, generateServiceFile_methods, hr]
    simp only
    rw [hg2, hg]
    simp

theorem service_stop (env : Env) (file : File) (ctx lg : String) (g : GeneratedFile)
    (service : Service) (before : List Method) (method : Method) (after : List Method)
    (err : Error) (hmethods : service.Methods = before ++ method :: after)
    (herr : ValidateMethodUnary method = .error err)
    (hbefore : ∀ m ∈ before, ValidateMethodUnary m = .ok () ∧ MethodHelpersOk env m) :
    ∃ client blocks ids,
      List.Forall₂ (MethodText env ctx (GetUnexportGoName service.GoName)) before blocks ∧
      generateServiceFile_service env file ctx lg g service =
        (some err,
          { g with
            resolved := g.resolved ++ ids
            buf := g.buf ++
              [String.join ["type ", GetUnexportGoName service.GoName, " struct \x7b"],
                String.join ["logger *", lg], String.join ["client ", client],
                String.join ["\x7d"], String.join []] ++
              blocks.flatten }) := by
  unfold generateServiceFile_service
  simp only [hmethods]
  obtain ⟨blocks, ids, hbs, hg⟩ := methods_stop env ctx (GetUnexportGoName service.GoName)
    method after err herr before hbefore
    ((((((GeneratedFile.QualifiedGoIdent env g
      (GoImportPath_Ident file.GoImportPath service.GoName)).2.P
        ["type ", GetUnexportGoName service.GoName, " struct \x7b"]).P ["logger *", lg]).P
        ["client ", (GeneratedFile.QualifiedGoIdent env g
          (GoImportPath_Ident file.GoImportPath service.GoName)).1]).P ["\x7d"]).P [])
  rw [hg]
  refine ⟨env.qualify g.goImportPath g.resolved
      (GoImportPath_Ident file.GoImportPath service.GoName), blocks,
    [GoImportPath_Ident file.GoImportPath service.GoName] ++ ids, hbs, ?_⟩
  simp [GeneratedFile.P, GeneratedFile.QualifiedGoIdent]

theorem services_stop (env : Env) (file : File) (ctx lg : String)
    (service : Service) (safter : List Service)
    (before : List Method) (method : Method) (after : List Method)
    (err : Error) (hmethods : service.Methods = before ++ method :: after)
    (herr : ValidateMethodUnary method = .error err)
    (hbefore : ∀ m ∈ before, ValidateMethodUnary m = .ok () ∧ MethodHelpersOk env m)
    (sbefore : List Service) :
    (∀ s ∈ sbefore, ∀ m ∈ s.Methods, ValidateMethodUnary m = .ok () ∧ MethodHelpersOk env m) →
    ∀ g : GeneratedFile,
      ∃ client texts blocks ids,
        List.Forall₂ (ServiceText env ctx lg) sbefore texts ∧
        List.Forall₂ (MethodText env ctx (GetUnexportGoName service.GoName)) before blocks ∧
        generateServiceFile_services env file ctx lg g (sbefore ++ service :: safter) =
          (some err,
            { g with
              resolved := g.resolved ++ ids
              buf := g.buf ++
                (texts.flatten ++
                  [String.join ["type ", GetUnexportGoName service.GoName, " struct \x7b"],
                    String.join ["logger *", lg], String.join ["client ", client],
                    String.join ["\x7d"], String.join []] ++
                  blocks.flatten) }) := by
  induction sbefore with
  | nil =>
    intro _ g
    obtain ⟨client, blocks, ids, hbs, hg⟩ := service_stop env file ctx lg g service before
      method after err hmethods herr hbefore
    refine ⟨client, [], blocks, ids, List.Forall₂.nil, hbs, ?_⟩
    rw [List.nil_append, generateServiceFile_services, hg]
    simp
  | cons a rest ih =>
    intro h g
    have hnone := service_ok env file ctx lg g a (h a (List.mem_cons_self _ _))
    obtain ⟨text, ids, ht, hg⟩ := service_ok_text env file ctx lg g a hnone
    rcases hr : generateServiceFile_service env file ctx lg g a with ⟨e, g1⟩
    rw [hr] at hnone hg
    simp only at hnone hg
    subst hnone
    obtain ⟨client, texts, blocks, ids2, hts, hbs, hg2⟩ :=
      ih (fun s hs => h s (List.mem_cons_of_mem _ hs)) g1
    refine ⟨client, text :: texts, blocks, ids ++ ids2, List.Forall₂.cons ht hts, hbs, ?_⟩
    rw [List.cons_append, generateServiceFile_services, hr]
    simp only
    rw [hg2, hg]
    simp

theorem serviceFile_stop (env : Env) (helper : NamedHelper) (plugin : Plugin) (file : File)
    (sbefore : List Service) (service : Service) (safter : List Service)
    (before : List Method) (method : Method) (after : List Method) (err : Error)
    (hnew : ∃ r, helper.NewGeneratedFile plugin file pluginName = .ok r)
    (hservices : file.Services = sbefore ++ service :: safter)
    (hmethods : service.Methods = before ++ method :: after)
    (herr : ValidateMethodUnary method = .error err)
    (hsbefore : ∀ s ∈ sbefore, ∀ m ∈ s.Methods,
      ValidateMethodUnary m = .ok () ∧ MethodHelpersOk env m)
    (hbefore : ∀ m ∈ before, ValidateMethodUnary m = .ok () ∧ MethodHelpersOk env m) :
    ∃ g, StoppedArtifact env helper file sbefore service before g ∧
      generateServiceFile env helper plugin file = (some err, plugin.withFile g) := by
  obtain ⟨⟨n, p⟩, hn⟩ := hnew
  unfold generateServiceFile
  simp only [hn, hservices]
  obtain ⟨client, texts, blocks, ids, hts, hbs, hg⟩ := services_stop env file
    (GeneratedFile.QualifiedGoIdent env (GeneratedFile.new n p)
      (GoImportPath_Ident contextPackage "Context")).1
    (GeneratedFile.QualifiedGoIdent env
      (GeneratedFile.QualifiedGoIdent env (GeneratedFile.new n p)
        (GoImportPath_Ident contextPackage "Context")).2
      (GoImportPath_Ident zapPackage "Logger")).1
    service safter before method after err hmethods herr hbefore sbefore hsbefore
    (GeneratedFile.QualifiedGoIdent env
      (GeneratedFile.QualifiedGoIdent env (GeneratedFile.new n p)
        (GoImportPath_Ident contextPackage "Context")).2
      (GoImportPath_Ident zapPackage "Logger")).2
  rw [hg]
  refine ⟨_, ⟨⟨plugin, ?_⟩, _, _, client, texts, blocks, hts, hbs, ?_⟩, rfl⟩
  · rw [hn]
    rfl
  · simp [GeneratedFile.QualifiedGoIdent, GeneratedFile.new]

/-! ## Struct names of exported service names -/

theorem Char_toUpper_toLower (c : Char) (h : c.isUpper = true) : c.toLower.toUpper = c := by
  have hn : 65 ≤ c.toNat ∧ c.toNat ≤ 90 := by
    simp only [Char.isUpper, Bool.and_eq_true, decide_eq_true_eq] at h
    obtain ⟨h1, h2⟩ := h
    constructor
    · exact h1
    · exact h2
  obtain ⟨h1, h2⟩ := hn
  have hc : c = Char.ofNat c.toNat := (Char.ofNat_toNat c).symm
  generalize c.toNat = n at h1 h2 hc
  subst hc
  interval_cases n <;> decide

theorem GetUnexportGoName_injective (a b : String)
    (ha : isExportedGoName a = true) (hb : isExportedGoName b = true)
    (h : GetUnexportGoName a = GetUnexportGoName b) : a = b := by
  obtain ⟨la⟩ := a
  obtain ⟨lb⟩ := b
  cases la with
  | nil => simp [isExportedGoName] at ha
  | cons c cs =>
    cases lb with
    | nil => simp [isExportedGoName] at hb
    | cons d ds =>
      simp only [isExportedGoName] at ha hb
      simp only [GetUnexportGoName] at h
      have h' := congrArg String.data h
      simp only [List.cons.injEq] at h'
      obtain ⟨h1, h2⟩ := h' 
      have := congrArg Char.toUpper h1
      rw [Char_toUpper_toLower c ha, Char_toUpper_toLower d hb] at this
      rw [this, h2]

theorem flatMap_filter_services (files : List File) :
    files.flatMap (fun file => file.Services) =
      (files.filter (fun file => file.Services.length > 0)).flatMap (fun file => file.Services) := by
  induction files with
  | nil => rfl
  | cons a rest ih =>
    by_cases hlen : a.Services.length > 0
    · rw [List.filter_cons_of_pos (by simpa using hlen)]
      simp only [List.flatMap_cons, ih]
    · rw [List.filter_cons_of_neg (by simpa using hlen)]
      have hnil : a.Services = [] := by
        cases hS : a.Services with
        | nil => rfl
        | cons x xs => simp [hS] at hlen
      simp only [List.flatMap_cons, hnil, List.nil_append, ih]

/-! ## Running a plugin (C19) -/

theorem intercalate_go_append (sep : String) (l : List String) :
    ∀ x acc : String,
      String.intercalate.go (x ++ acc) sep l = x ++ String.intercalate.go acc sep l := by
  induction l with
  | nil => intro x acc; rfl
  | cons a rest ih =>
    intro x acc
    simp only [String.intercalate.go]
    rw [String.append_assoc, String.append_assoc, ← String.append_assoc acc, ih]

theorem intercalate_cons_cons (sep a b : String) (rest : List String) :
    String.intercalate sep (a :: b :: rest) = a ++ sep ++ String.intercalate sep (b :: rest) := by
  simp only [String.intercalate, String.intercalate.go]
  rw [intercalate_go_append]

/-- C19: `executePlugin` returns `nil` if and only if the generator's `Generate` call
returns `nil`; when `Generate` fails with an error of message `e`, `executePlugin`
returns an error whose message is exactly `--` + pluginName + `_out: ` + `e`; and the
option string handed to `ImagesToCodeGeneratorRequests` is the elements of
`pluginInfo.Opt` joined by `,` in their order, which is the empty string when `Opt` is
empty. -/
theorem executePlugin_result {Image Request : Type}
    (generate : String → String → List Request → String → Option String)
    (ImagesToCodeGeneratorRequests : List Image → String → List Request)
    (images : List Image) (pluginName : String) (info : Protoc.pluginInfo) :
    (Protoc.executePlugin generate ImagesToCodeGeneratorRequests images pluginName info = none ↔
      generate pluginName info.Out
        (ImagesToCodeGeneratorRequests images (String.intercalate "," info.Opt)) info.Path =
        none) ∧
    (∀ e,
      generate pluginName info.Out
        (ImagesToCodeGeneratorRequests images (String.intercalate "," info.Opt)) info.Path =
        some e →
      Protoc.executePlugin generate ImagesToCodeGeneratorRequests images pluginName info =
        some ("--" ++ pluginName ++ "_out: " ++ e)) ∧
    (info.Opt = [] → String.intercalate "," info.Opt = "") ∧
    (∀ a b rest, info.Opt = a :: b :: rest →
      String.intercalate "," info.Opt = a ++ "," ++ String.intercalate "," (b :: rest)) := by
  refine ⟨?_, ?_, ?_, ?_⟩
  · unfold Protoc.executePlugin
    split
    · rename_i err heq
      simp [heq]
    · rename_i heq
      simp [heq]
  · intro e he
    unfold Protoc.executePlugin
    rw [he]
  · intro h
    rw [h]
    rfl
  · intro a b rest h
    rw [h]
    exact intercalate_cons_cons "," a b rest

/-- Witness for C19: two options, joined to `a,b`, with a generator that succeeds; and
the option `fail`, for which the generator reports an error. -/
theorem executePlugin_result_witness :
    Protoc.executePlugin Protoc.sampleGenerate Protoc.sampleRequests [] "go"
        { Out := "gen", Opt := ["fail"], Path := "" } =
      some "--go_out: plugin go rejected its options" ∧
    String.intercalate "," ({ Out := "gen", Opt := ["a", "b"], Path := "" } :
        Protoc.pluginInfo).Opt =
      "a" ++ "," ++ String.intercalate "," ["b"] :=
  ⟨(executePlugin_result Protoc.sampleGenerate Protoc.sampleRequests [] "go"
      { Out := "gen", Opt := ["fail"], Path := "" }).2.1
      "plugin go rejected its options" (by decide),
    (executePlugin_result Protoc.sampleGenerate Protoc.sampleRequests [] "go"
      { Out := "gen", Opt := ["a", "b"], Path := "" }).2.2.2 "a" "b" [] rfl⟩

/-! ## The factory methods of the unit-level artifact (C3) -/

/-- C3 (as stated, refuted): the unit `greeterUnit` has one service, but with a helper
whose `NewPackageGoImportPath` fails for `api`, `generatePackageFile` returns that error
after the provider text: the unit-level file holds the 16 provider lines and not one
factory method. -/
theorem generatePackageFile_helper_failure_no_factory :
    greeterUnit.Services.length = 1 ∧
    (generatePackageFile sampleEnv apiFailingHelper ⟨[]⟩ greeterUnit).1 =
      some (Error.other "no import path for api") ∧
    (generatePackageFile sampleEnv apiFailingHelper ⟨[]⟩ greeterUnit).2.genFiles.map
        (fun g => g.buf) =
      [["// NewProvider returns a new Provider.", "func NewProvider(", "logger *Logger,",
        "httpClient Client,", ") Provider\x7b", "return &provider\x7b", "logger: logger,",
        "httpClient: httpClient,", "\x7d", "\x7d", "", "type provider struct \x7b",
        "logger *Logger", "httpClient Client", "\x7d", ""]] := by
  decide

/-- C3 (amended): whenever `generatePackageFile` returns `nil` (its file constructor and
both import-path helper calls succeeded), the unit-level artifact is the provider text
followed by exactly one factory method per service of `goPackageFileSet.Services()`,
in that order: the number of factory texts equals the number of services, and the
factory text of a service starts with the line
`func (p *provider) New<GoName>(ctx <Context>, address string) (<api>.<GoName>, error) {`,
where `<Context>` is the reference to `context.Context` and `<api>.<GoName>` the
reference to the identifier `<GoName>` of the unit's `api` package, both as resolved on
the unit-level file.  The text depends on the unit only through `Services()`, not on
the files the services come from. -/
theorem generatePackageFile_factory_methods (env : Env) (helper : NamedHelper) (plugin : Plugin)
    (goPackageFileSet : GoPackageFileSet)
    (hok : (generatePackageFile env helper plugin goPackageFileSet).1 = none) :
    ∃ g logger httpClient provider context apiPath blocks,
      (generatePackageFile env helper plugin goPackageFileSet).2 = plugin.withFile g ∧
      helper.NewPackageGoImportPath goPackageFileSet "api" = .ok apiPath ∧
      (∃ resolved, context =
        env.qualify g.goImportPath resolved (GoImportPath_Ident contextPackage "Context")) ∧
      g.buf = providerText logger httpClient provider ++ blocks.flatten ∧
      blocks.length = goPackageFileSet.Services.length ∧
      List.Forall₂
        (fun service block =>
          ∃ resolved newClient newClientOptions,
            block = factoryText service.GoName context
              (env.qualify g.goImportPath resolved (GoImportPath_Ident apiPath service.GoName))
              newClient newClientOptions ∧
            block.head? =
              some (String.join ["func (p *provider) New", service.GoName, "(ctx ", context,
                ", address string) (",
                env.qualify g.goImportPath resolved (GoImportPath_Ident apiPath service.GoName),
                ", error) \x7b"]))
        goPackageFileSet.Services blocks := by
  obtain ⟨filename, path, apiclient, api, blocks, ids, r1, r2, r3, r4, r5, _, _, hapi, hbs, hg⟩ :=
    packageFile_ok_text env helper plugin goPackageFileSet hok
  refine ⟨_, _, _, _, env.qualify path r5 (GoImportPath_Ident contextPackage "Context"), api,
    blocks, hg, hapi, ⟨r5, rfl⟩, rfl, hbs.length_eq.symm, ?_⟩
  refine List.Forall₂.imp ?_ hbs
  intro service block hb
  obtain ⟨q1, q2, hblock⟩ := hb
  refine ⟨q1, _, _, hblock, ?_⟩
  rw [hblock]
  simp [factoryText]

/-- Witness for C3 (amended): the unit made of the file that declares `Greeter`. -/
theorem generatePackageFile_factory_methods_witness :
    (generatePackageFile sampleEnv sampleHelper ⟨[]⟩ greeterUnit).1 = none ∧
    ∃ g logger httpClient provider context apiPath blocks,
      (generatePackageFile sampleEnv sampleHelper ⟨[]⟩ greeterUnit).2 =
        (⟨[]⟩ : Plugin).withFile g ∧
      sampleHelper.NewPackageGoImportPath greeterUnit "api" = .ok apiPath ∧
      (∃ resolved, context =
        sampleEnv.qualify g.goImportPath resolved
          (GoImportPath_Ident contextPackage "Context")) ∧
      g.buf = providerText logger httpClient provider ++ blocks.flatten ∧
      blocks.length = greeterUnit.Services.length ∧
      List.Forall₂
        (fun service block =>
          ∃ resolved newClient newClientOptions,
            block = factoryText service.GoName context
              (sampleEnv.qualify g.goImportPath resolved
                (GoImportPath_Ident apiPath service.GoName))
              newClient newClientOptions ∧
            block.head? =
              some (String.join ["func (p *provider) New", service.GoName, "(ctx ", context,
                ", address string) (",
                sampleEnv.qualify g.goImportPath resolved
                  (GoImportPath_Ident apiPath service.GoName),
                ", error) \x7b"]))
        greeterUnit.Services blocks :=
  ⟨by decide,
    generatePackageFile_factory_methods sampleEnv sampleHelper ⟨[]⟩ greeterUnit (by decide)⟩

/-! ## Wrapper types across the artifacts of a unit (C17) -/

theorem forall₂_map_eq {α β γ : Type} (f : β → γ) (g : α → γ) (l₁ : List α) (l₂ : List β)
    (h : List.Forall₂ (fun a b => f b = g a) l₁ l₂) : l₂.map f = l₁.map g := by
  induction h with
  | nil => rfl
  | cons hab _ ih => simp [hab, ih]

theorem wrap_injective (pre post : String) :
    Function.Injective (fun n : String => some (pre ++ n ++ post)) := by
  intro a b h
  simp only [Option.some.injEq] at h
  have hd := congrArg String.data h
  simp only [String.data_append] at hd
  have h1 := List.append_cancel_right hd
  have h2 := List.append_cancel_left h1
  exact String.ext h2

theorem count_map_injective {α β : Type} [BEq α] [LawfulBEq α] [BEq β] [LawfulBEq β]
    (f : α → β) (hf : Function.Injective f) (l : List α) (a : α) :
    (l.map f).count (f a) = l.count a := by
  induction l with
  | nil => rfl
  | cons x rest ih =>
    have hiff : ((f x == f a) = true) ↔ ((x == a) = true) := by
      rw [beq_iff_eq, beq_iff_eq]
      exact hf.eq_iff
    simp only [List.map_cons, List.count_cons, ih, hiff]

theorem count_flatten_one {α : Type} [BEq α] [LawfulBEq α] (a : α) (ls : List (List α)) :
    ls.flatten.count a = 1 → ls.countP (fun l => decide (a ∈ l)) = 1 := by
  have hzero : ∀ ls : List (List α), ls.flatten.count a = 0 →
      ls.countP (fun l => decide (a ∈ l)) = 0 := by
    intro ls
    induction ls with
    | nil => intro _; rfl
    | cons l rest ih =>
      intro h
      simp only [List.flatten_cons, List.count_append, Nat.add_eq_zero] at h
      have hl : a ∉ l := List.count_eq_zero.mp h.1
      simp [List.countP_cons, hl, ih h.2]
  induction ls with
  | nil => intro h; simp at h
  | cons l rest ih =>
    intro h
    simp only [List.flatten_cons, List.count_append] at h
    by_cases hl : a ∈ l
    · have hpos : 0 < l.count a := List.count_pos_iff.mpr hl
      have hrest : rest.flatten.count a = 0 := by omega
      simp [List.countP_cons, hl, hzero rest hrest]
    · have hl0 : l.count a = 0 := List.count_eq_zero.mpr hl
      have hrest : rest.flatten.count a = 1 := by omega
      simp [List.countP_cons, hl, ih hrest]

theorem fileArtifacts_texts (env : Env) (helper : NamedHelper) (files : List File)
    (arts : List GeneratedFile) (h : List.Forall₂ (FileArtifact env helper) files arts) :
    ∃ textss,
      List.Forall₂ (fun (art : GeneratedFile) (texts : List (List String)) =>
        art.buf = texts.flatten) arts textss ∧
      List.Forall₂
        (fun (file : File) (texts : List (List String)) =>
          ∃ ctx lg, List.Forall₂ (ServiceText env ctx lg) file.Services texts)
        files textss := by
  induction h with
  | nil => exact ⟨[], List.Forall₂.nil, List.Forall₂.nil⟩
  | cons hab _ ih =>
    obtain ⟨textss, h1, h2⟩ := ih
    obtain ⟨_, ctx, lg, texts, htexts, hbuf⟩ := hab
    exact ⟨texts :: textss, List.Forall₂.cons hbuf h1, List.Forall₂.cons ⟨ctx, lg, htexts⟩ h2⟩

theorem ServiceText_head (env : Env) (ctx lg : String) (s : Service) (text : List String)
    (h : ServiceText env ctx lg s text) :
    text.head? = some ("type " ++ GetUnexportGoName s.GoName ++ " struct \x7b") := by
  obtain ⟨client, mblocks, _, heq⟩ := h
  rw [heq]
  simp [String.join]

theorem texts_heads (env : Env) (files : List File) (textss : List (List (List String)))
    (h : List.Forall₂
      (fun (file : File) (texts : List (List String)) =>
        ∃ ctx lg, List.Forall₂ (ServiceText env ctx lg) file.Services texts)
      files textss) :
    textss.flatten.map (fun text => text.head?) =
      (files.flatMap (fun file => file.Services)).map
        (fun s => some ("type " ++ GetUnexportGoName s.GoName ++ " struct \x7b")) := by
  induction h with
  | nil => rfl
  | cons hab _ ih =>
    obtain ⟨ctx, lg, htexts⟩ := hab
    have hhead := forall₂_map_eq (fun text : List String => text.head?)
      (fun s : Service => some ("type " ++ GetUnexportGoName s.GoName ++ " struct \x7b")) _ _
      (List.Forall₂.imp (fun s text hst => ServiceText_head env ctx lg s text hst) htexts)
    simp only [List.flatten_cons, List.map_append, List.flatMap_cons, hhead, ih]

theorem structNames_nodup_of_exported (services : List Service)
    (hnames : (services.map (fun service => service.GoName)).Nodup)
    (hexported : ∀ service ∈ services, isExportedGoName service.GoName = true) :
    (services.map (fun service => GetUnexportGoName service.GoName)).Nodup := by
  have hmap : services.map (fun service => GetUnexportGoName service.GoName) =
      (services.map (fun service => service.GoName)).map GetUnexportGoName := by
    simp
  rw [hmap]
  refine List.Nodup.map_on ?_ hnames
  intro a ha b hb hab
  obtain ⟨sa, hsa, rfl⟩ := List.mem_map.mp ha
  obtain ⟨sb, hsb, rfl⟩ := List.mem_map.mp hb
  exact GetUnexportGoName_injective _ _ (hexported sa hsa) (hexported sb hsb) hab

theorem count_wrapped_name (pre post : String) (services : List Service) (service : Service)
    (hmem : service ∈ services)
    (hunique : (services.map (fun s => GetUnexportGoName s.GoName)).Nodup) :
    (services.map (fun s => some (pre ++ GetUnexportGoName s.GoName ++ post))).count
      (some (pre ++ GetUnexportGoName service.GoName ++ post)) = 1 := by
  have hmap : services.map (fun s => some (pre ++ GetUnexportGoName s.GoName ++ post)) =
      (services.map (fun s => GetUnexportGoName s.GoName)).map
        (fun n : String => some (pre ++ n ++ post)) := by
    simp
  rw [hmap]
  rw [count_map_injective _ (wrap_injective pre post)]
  exact List.count_eq_one_of_mem hunique (List.mem_map.mpr ⟨service, hmem, rfl⟩)

/-- C17 (as stated, refuted): the unit `clashingUnit` declares the services `Greeter`
and `greeter`; the names are unique, `handle` succeeds, yet both wrapper structs are
named `greeter`: the file-level artifact declares `type greeter struct {` twice and the
unit-level artifact constructs `return &greeter{` in two factory methods. -/
theorem handle_clashing_struct_names :
    (clashingUnit.Services.map (fun service => service.GoName)).Nodup ∧
    (handle sampleEnv sampleHelper ⟨[]⟩ clashingUnit).1 = none ∧
    (handle sampleEnv sampleHelper ⟨[]⟩ clashingUnit).2.genFiles.map
        (fun g => (g.filename, g.buf.count "type greeter struct \x7b",
          g.buf.count "return &greeter\x7b")) =
      [("pkg/a/provider.pb.go", 0, 2), ("a/greeter.pb.go", 2, 0)] := by
  decide

/-- C17 (amended): when `handle` succeeds on a unit with services whose struct names
(`GetUnexportGoName` of the service Go names) are pairwise different, the unit-level
artifact holds one factory per service of `Services()`, in order, and the factory of a
service constructs (`return &<name>{`) the struct named after the service; the
file-level artifacts hold, file by file and service by service in order, the text of
each service, which starts with the declaration `type <name> struct {` of the same
name; the services with a factory are exactly the services of the files that got an
artifact.  For every service, exactly one factory constructs its struct, exactly one
service text declares it, and that text lies in exactly one file-level artifact. -/
theorem handle_wrapper_types_consistent (env : Env) (helper : NamedHelper) (plugin : Plugin)
    (goPackageFileSet : GoPackageFileSet)
    (hservices : goPackageFileSet.Services.length > 0)
    (hok : (handle env helper plugin goPackageFileSet).1 = none)
    (hunique :
      (goPackageFileSet.Services.map (fun service => GetUnexportGoName service.GoName)).Nodup) :
    ∃ unitArtifact fileArtifacts logger httpClient provider factories textss,
      (handle env helper plugin goPackageFileSet).2.genFiles =
        plugin.genFiles ++ unitArtifact :: fileArtifacts ∧
      unitArtifact.buf = providerText logger httpClient provider ++ factories.flatten ∧
      List.Forall₂
        (fun service factory =>
          (∃ context api newClient newClientOptions,
            factory = factoryText service.GoName context api newClient newClientOptions) ∧
          factory.get? 1 = some ("return &" ++ GetUnexportGoName service.GoName ++ "\x7b"))
        goPackageFileSet.Services factories ∧
      List.Forall₂ (fun artifact texts => artifact.buf = texts.flatten) fileArtifacts textss ∧
      List.Forall₂
        (fun file texts =>
          ∃ context logger,
            List.Forall₂
              (fun service text =>
                ServiceText env context logger service text ∧
                text.head? =
                  some ("type " ++ GetUnexportGoName service.GoName ++ " struct \x7b"))
              file.Services texts)
        (goPackageFileSet.Files.filter (fun file => file.Services.length > 0)) textss ∧
      goPackageFileSet.Services =
        (goPackageFileSet.Files.filter (fun file => file.Services.length > 0)).flatMap
          (fun file => file.Services) ∧
      ∀ service ∈ goPackageFileSet.Services,
        (factories.map (fun factory => factory.get? 1)).count
            (some ("return &" ++ GetUnexportGoName service.GoName ++ "\x7b")) = 1 ∧
        (textss.flatten.map (fun text => text.head?)).count
            (some ("type " ++ GetUnexportGoName service.GoName ++ " struct \x7b")) = 1 ∧
        (textss.map (fun texts => texts.map (fun text => text.head?))).countP
            (fun heads => decide
              (some ("type " ++ GetUnexportGoName service.GoName ++ " struct \x7b") ∈ heads)) =
          1 := by
  obtain ⟨filename, path, apiclient, api, blocks, ids, r1, r2, r3, r4, r5, arts,
      _, _, _, hbs, harts, hgen⟩ := handle_ok_text env helper plugin goPackageFileSet hservices hok
  obtain ⟨textss, hbufs, htexts⟩ := fileArtifacts_texts env helper _ _ harts
  have hfactories : List.Forall₂
      (fun (service : Service) (factory : List String) =>
        (∃ context api newClient newClientOptions,
          factory = factoryText service.GoName context api newClient newClientOptions) ∧
        factory.get? 1 = some ("return &" ++ GetUnexportGoName service.GoName ++ "\x7b"))
      goPackageFileSet.Services blocks := by
    refine List.Forall₂.imp ?_ hbs
    intro service block hb
    obtain ⟨q1, q2, hblock⟩ := hb
    refine ⟨⟨_, _, _, _, hblock⟩, ?_⟩
    rw [hblock]
    simp [factoryText, String.join]
  have hflat := flatMap_filter_services goPackageFileSet.Files
  have hconstructed := forall₂_map_eq (fun factory : List String => factory.get? 1)
    (fun s : Service => some ("return &" ++ GetUnexportGoName s.GoName ++ "\x7b")) _ _
    (List.Forall₂.imp (fun _ _ h => h.2) hfactories)
  have hdeclared := texts_heads env _ textss htexts
  refine ⟨GeneratedFile.mk filename path ids
      (providerText (env.qualify path r3 (GoImportPath_Ident zapPackage "Logger"))
        (env.qualify path r1 (GoImportPath_Ident httpclientPackage "Client"))
        (env.qualify path r4 (GoImportPath_Ident apiclient "Provider")) ++ blocks.flatten),
    arts, _, _, _, blocks, textss, hgen, rfl, hfactories, hbufs, ?_, hflat, ?_⟩
  · refine List.Forall₂.imp ?_ htexts
    intro file texts h
    obtain ⟨ctx, lg, h⟩ := h
    refine ⟨ctx, lg, List.Forall₂.imp ?_ h⟩
    intro service text hst
    exact ⟨hst, ServiceText_head env ctx lg service text hst⟩
  · intro service hmem
    have hdecl : (textss.flatten.map (fun text => text.head?)).count
        (some ("type " ++ GetUnexportGoName service.GoName ++ " struct \x7b")) = 1 := by
      rw [hdeclared]
      have hS : (goPackageFileSet.Files.filter (fun file => file.Services.length > 0)).flatMap
          (fun file => file.Services) = goPackageFileSet.Services := by
        rw [← hflat]
        rfl
      rw [hS]
      exact count_wrapped_name "type " " struct \x7b" _ service hmem hunique
    refine ⟨?_, hdecl, ?_⟩
    · rw [hconstructed]
      exact count_wrapped_name "return &" "\x7b" _ service hmem hunique
    · apply count_flatten_one
      rw [← List.map_flatten]
      exact hdecl

/-- Witness for C17 (amended): a unit whose services `Greeter` and `Echo` come from two
different files, with a file without services between them. -/
theorem handle_wrapper_types_consistent_witness :
    twoServiceUnit.Services.length > 0 ∧
    (handle sampleEnv sampleHelper ⟨[]⟩ twoServiceUnit).1 = none ∧
    (twoServiceUnit.Services.map (fun service => GetUnexportGoName service.GoName)).Nodup ∧
    ∃ unitArtifact fileArtifacts logger httpClient provider factories textss,
      (handle sampleEnv sampleHelper ⟨[]⟩ twoServiceUnit).2.genFiles =
        (⟨[]⟩ : Plugin).genFiles ++ unitArtifact :: fileArtifacts ∧
      unitArtifact.buf = providerText logger httpClient provider ++ factories.flatten ∧
      List.Forall₂
        (fun service factory =>
          (∃ context api newClient newClientOptions,
            factory = factoryText service.GoName context api newClient newClientOptions) ∧
          factory.get? 1 = some ("return &" ++ GetUnexportGoName service.GoName ++ "\x7b"))
        twoServiceUnit.Services factories ∧
      List.Forall₂ (fun artifact texts => artifact.buf = texts.flatten) fileArtifacts textss ∧
      List.Forall₂
        (fun file texts =>
          ∃ context logger,
            List.Forall₂
              (fun service text =>
                ServiceText sampleEnv context logger service text ∧
                text.head? =
                  some ("type " ++ GetUnexportGoName service.GoName ++ " struct \x7b"))
              file.Services texts)
        (twoServiceUnit.Files.filter (fun file => file.Services.length > 0)) textss ∧
      twoServiceUnit.Services =
        (twoServiceUnit.Files.filter (fun file => file.Services.length > 0)).flatMap
          (fun file => file.Services) ∧
      ∀ service ∈ twoServiceUnit.Services,
        (factories.map (fun factory => factory.get? 1)).count
            (some ("return &" ++ GetUnexportGoName service.GoName ++ "\x7b")) = 1 ∧
        (textss.flatten.map (fun text => text.head?)).count
            (some ("type " ++ GetUnexportGoName service.GoName ++ " struct \x7b")) = 1 ∧
        (textss.map (fun texts => texts.map (fun text => text.head?))).countP
            (fun heads => decide
              (some ("type " ++ GetUnexportGoName service.GoName ++ " struct \x7b") ∈ heads)) =
          1 :=
  ⟨by decide, by decide, by decide,
    handle_wrapper_types_consistent sampleEnv sampleHelper ⟨[]⟩ twoServiceUnit
      (by decide) (by decide) (by decide)⟩

/-! ## The first method that fails validation (C16) -/

theorem handle_files_stop (env : Env) (helper : NamedHelper)
    (file : File) (fafter : List File)
    (sbefore : List Service) (service : Service) (safter : List Service)
    (before : List Method) (method : Method) (after : List Method) (err : Error)
    (hnewFile : ∀ p, ∃ r, helper.NewGeneratedFile p file pluginName = .ok r)
    (hservices : file.Services = sbefore ++ service :: safter)
    (hmethods : service.Methods = before ++ method :: after)
    (herr : ValidateMethodUnary method = .error err)
    (hsbefore : ∀ s ∈ sbefore, ∀ m ∈ s.Methods,
      ValidateMethodUnary m = .ok () ∧ MethodHelpersOk env m)
    (hbefore : ∀ m ∈ before, ValidateMethodUnary m = .ok () ∧ MethodHelpersOk env m)
    (fbefore : List File) :
    (∀ f ∈ fbefore, f.Services.length > 0 →
      ∀ p, ∃ r, helper.NewGeneratedFile p f pluginName = .ok r) →
    (∀ f ∈ fbefore, ∀ s ∈ f.Services, ∀ m ∈ s.Methods,
      ValidateMethodUnary m = .ok () ∧ MethodHelpersOk env m) →
    ∀ plugin : Plugin,
      ∃ arts stopped,
        List.Forall₂ (FileArtifact env helper)
          (fbefore.filter (fun file => file.Services.length > 0)) arts ∧
        StoppedArtifact env helper file sbefore service before stopped ∧
        (handle_files env helper plugin (fbefore ++ file :: fafter)).1 = some err ∧
        (handle_files env helper plugin (fbefore ++ file :: fafter)).2.genFiles =
          plugin.genFiles ++ (arts ++ [stopped]) := by
  induction fbefore with
  | nil =>
    intro _ _ p
    obtain ⟨g, hstop, hg⟩ := serviceFile_stop env helper p file sbefore service safter before
      method after err (hnewFile p) hservices hmethods herr hsbefore hbefore
    have hlen : file.Services.length > 0 := by rw [hservices]; simp
    refine ⟨[], g, by simp, hstop, ?_, ?_⟩
    · rw [List.nil_append, handle_files, if_pos hlen, hg]
    · rw [List.nil_append, handle_files, if_pos hlen, hg]
      simp [Plugin.withFile]
  | cons a rest ih =>
    intro hnew h p
    have hrest := ih (fun f hf => hnew f (List.mem_cons_of_mem _ hf))
      (fun f hf => h f (List.mem_cons_of_mem _ hf))
    rw [List.cons_append, handle_files]
    by_cases hlen : a.Services.length > 0
    · rw [if_pos hlen]
      have hnone := serviceFile_ok env helper p a (hnew a (List.mem_cons_self _ _) hlen p)
        (h a (List.mem_cons_self _ _))
      obtain ⟨filename, path, texts, ids, hn, ht, hg⟩ := serviceFile_ok_text env helper p a hnone
      rcases hr : generateServiceFile env helper p a with ⟨e, p1⟩
      rw [hr] at hnone hg
      simp only at hnone hg
      subst hnone
      simp only
      obtain ⟨arts, stopped, harts, hstop, h1, h2⟩ := hrest p1
      refine ⟨GeneratedFile.mk filename path ids texts.flatten :: arts, stopped, ?_, hstop, h1, ?_⟩
      · rw [List.filter_cons_of_pos (by simpa using hlen)]
        exact List.Forall₂.cons ⟨⟨p, hn⟩, _, _, texts, ht, rfl⟩ harts
      · rw [h2, hg]
        simp [Plugin.withFile]
    · rw [if_neg hlen]
      obtain ⟨arts, stopped, harts, hstop, h1, h2⟩ := hrest p
      refine ⟨arts, stopped, ?_, hstop, h1, h2⟩
      rw [List.filter_cons_of_neg (by simpa using hlen)]
      exact harts

/-- C16 (as stated, refuted): the only method of `streamingUnit` fails
`ValidateMethodUnary`, yet with a helper whose `NewPackageGoImportPath` fails for `api`
the error that `handle` returns is the error of that helper (`generatePackageFile`
runs before any method is validated), not the error of `ValidateMethodUnary`. -/
theorem handle_returns_import_path_error :
    ValidateMethodUnary watchMethod = .error (Error.shape "a.Greeter.Watch") ∧
    (handle sampleEnv apiFailingHelper ⟨[]⟩ streamingUnit).1 =
      some (Error.other "no import path for api") ∧
    (handle sampleEnv apiFailingHelper ⟨[]⟩ streamingUnit).1 ≠
      some (Error.shape "a.Greeter.Watch") := by
  decide

/-- C16 (amended): let `method` be the first method, in member file order, service
order and method declaration order, that fails `ValidateMethodUnary`, and let the
helper calls that `handle` makes before it reaches `method` succeed: the three calls of
`generatePackageFile`, the file constructor for the earlier files with services and for
the failing file, and the field helpers on the earlier methods.  Nothing is assumed
about later methods, services and files.  Then `handle` returns exactly the error of
`ValidateMethodUnary` for `method`, and the files added to the plugin are: the complete
unit-level artifact (the provider text and one factory method per service of
`Services()`), the complete artifacts of the earlier files with services, and the
artifact of the failing file, which holds the text of the earlier services, the wrapper
type of the failing service and the text of the earlier methods, and nothing else.  No
line is written for the failing method or for any later method, service or file. -/
theorem handle_first_invalid_method (env : Env) (helper : NamedHelper) (plugin : Plugin)
    (goPackageFileSet : GoPackageFileSet)
    (filesBefore : List File) (file : File) (filesAfter : List File)
    (servicesBefore : List Service) (service : Service) (servicesAfter : List Service)
    (methodsBefore : List Method) (method : Method) (methodsAfter : List Method) (err : Error)
    (filename path apiclient api : String)
    (hfiles : goPackageFileSet.Files = filesBefore ++ file :: filesAfter)
    (hservices : file.Services = servicesBefore ++ service :: servicesAfter)
    (hmethods : service.Methods = methodsBefore ++ method :: methodsAfter)
    (herr : ValidateMethodUnary method = .error err)
    (hfilesBefore : ∀ f ∈ filesBefore, ∀ s ∈ f.Services, ∀ m ∈ s.Methods,
      ValidateMethodUnary m = .ok () ∧ MethodHelpersOk env m)
    (hservicesBefore : ∀ s ∈ servicesBefore, ∀ m ∈ s.Methods,
      ValidateMethodUnary m = .ok () ∧ MethodHelpersOk env m)
    (hmethodsBefore : ∀ m ∈ methodsBefore,
      ValidateMethodUnary m = .ok () ∧ MethodHelpersOk env m)
    (hunit : helper.NewPackageGeneratedFile plugin goPackageFileSet pluginName =
      .ok (filename, path))
    (hapiclient : helper.NewPackageGoImportPath goPackageFileSet "apiclient" = .ok apiclient)
    (hapi : helper.NewPackageGoImportPath goPackageFileSet "api" = .ok api)
    (hnewBefore : ∀ f ∈ filesBefore, f.Services.length > 0 →
      ∀ p, ∃ r, helper.NewGeneratedFile p f pluginName = .ok r)
    (hnewFile : ∀ p, ∃ r, helper.NewGeneratedFile p file pluginName = .ok r) :
    (handle env helper plugin goPackageFileSet).1 = some err ∧
    ∃ unitArtifact factories fileArtifacts stopped r1 r2 r3 r4 r5,
      (handle env helper plugin goPackageFileSet).2.genFiles =
        plugin.genFiles ++ unitArtifact :: (fileArtifacts ++ [stopped]) ∧
      unitArtifact.filename = filename ∧ unitArtifact.goImportPath = path ∧
      unitArtifact.buf =
        providerText (env.qualify path r3 (GoImportPath_Ident zapPackage "Logger"))
            (env.qualify path r1 (GoImportPath_Ident httpclientPackage "Client"))
            (env.qualify path r4 (GoImportPath_Ident apiclient "Provider")) ++
          factories.flatten ∧
      List.Forall₂
        (FactoryText env path goPackageFileSet.GoImportPath api
          (env.qualify path r2 (GoImportPath_Ident twirpclientPackage "NewClientOptions"))
          (env.qualify path r5 (GoImportPath_Ident contextPackage "Context")))
        goPackageFileSet.Services factories ∧
      List.Forall₂ (FileArtifact env helper)
        (filesBefore.filter (fun file => file.Services.length > 0)) fileArtifacts ∧
      StoppedArtifact env helper file servicesBefore service methodsBefore stopped := by
  have hmem : service ∈ goPackageFileSet.Services := by
    unfold GoPackageFileSet.Services
    refine List.mem_flatMap.mpr ⟨file, ?_, ?_⟩
    · rw [hfiles]; simp
    · rw [hservices]; simp
  have hne : ¬ goPackageFileSet.Services.length = 0 := by
    intro h0
    rw [List.length_eq_zero.mp h0] at hmem
    simp at hmem
  have hpok := generatePackageFile_ok env helper plugin goPackageFileSet ⟨_, hunit⟩
    ⟨_, hapiclient⟩ ⟨_, hapi⟩
  obtain ⟨filename1, path1, apiclient1, api1, blocks, ids, r1, r2, r3, r4, r5, hn, ha, hb,
      hbs, hg⟩ := packageFile_ok_text env helper plugin goPackageFileSet hpok
  rw [hunit] at hn
  rw [hapiclient] at ha
  rw [hapi] at hb
  simp only [Except.ok.injEq, Prod.mk.injEq] at hn ha hb
  obtain ⟨hn1, hn2⟩ := hn
  subst hn1 hn2 ha hb
  rcases hr : generatePackageFile env helper plugin goPackageFileSet with ⟨e, p1⟩
  rw [hr] at hpok hg
  simp only at hpok hg
  subst hpok
  obtain ⟨arts, stopped, harts, hstop, h1, h2⟩ := handle_files_stop env helper file filesAfter
    servicesBefore service servicesAfter methodsBefore method methodsAfter err hnewFile
    hservices hmethods herr hservicesBefore hmethodsBefore filesBefore hnewBefore
    hfilesBefore p1
  have hhandle : handle env helper plugin goPackageFileSet =
      handle_files env helper p1 (filesBefore ++ file :: filesAfter) := by
    unfold handle
    rw [if_neg hne, hr, hfiles]
  rw [hhandle]
  refine ⟨h1, GeneratedFile.mk filename path ids
      (providerText (env.qualify path r3 (GoImportPath_Ident zapPackage "Logger"))
        (env.qualify path r1 (GoImportPath_Ident httpclientPackage "Client"))
        (env.qualify path r4 (GoImportPath_Ident apiclient "Provider")) ++ blocks.flatten),
    blocks, arts, stopped, r1, r2, r3, r4, r5, ?_, rfl, rfl, rfl, hbs, harts, hstop⟩
  rw [h2, hg]
  simp [Plugin.withFile]

/-- Witness for C16 (amended): in `stopUnit` the first failing method is `Watch`, the
second method of the second service of the third file.  The field helper of `strictEnv`
fails on the later method `Legacy` and the helper `lateFailingHelper` cannot create the
artifact of the later file `a/late`: neither matters. -/
theorem handle_first_invalid_method_witness :
    stopUnit.Files = [echoFile, typesFile] ++ stopFile :: [lateFile] ∧
    stopFile.Services =
      [{ GoName := "Health", Methods := [pingMethod] }] ++ stopService ::
        [{ GoName := "Archive", Methods := [legacyMethod] }] ∧
    stopService.Methods = [sayHello] ++ watchMethod :: [legacyMethod] ∧
    ValidateMethodUnary watchMethod = .error (Error.shape "a.Greeter.Watch") ∧
    ¬ MethodHelpersOk strictEnv legacyMethod ∧
    lateFailingHelper.NewGeneratedFile ⟨[]⟩ lateFile pluginName =
      .error (Error.other "no generated file for a/late") ∧
    (handle strictEnv lateFailingHelper ⟨[]⟩ stopUnit).1 = some (Error.shape "a.Greeter.Watch") ∧
    ∃ unitArtifact factories fileArtifacts stopped r1 r2 r3 r4 r5,
      (handle strictEnv lateFailingHelper ⟨[]⟩ stopUnit).2.genFiles =
        (⟨[]⟩ : Plugin).genFiles ++ unitArtifact :: (fileArtifacts ++ [stopped]) ∧
      unitArtifact.filename = "pkg/a/provider.pb.go" ∧ unitArtifact.goImportPath = "pkg/a" ∧
      unitArtifact.buf =
        providerText (strictEnv.qualify "pkg/a" r3 (GoImportPath_Ident zapPackage "Logger"))
            (strictEnv.qualify "pkg/a" r1 (GoImportPath_Ident httpclientPackage "Client"))
            (strictEnv.qualify "pkg/a" r4 (GoImportPath_Ident "pkg/a/apiclient" "Provider")) ++
          factories.flatten ∧
      List.Forall₂
        (FactoryText strictEnv "pkg/a" stopUnit.GoImportPath "pkg/a/api"
          (strictEnv.qualify "pkg/a" r2 (GoImportPath_Ident twirpclientPackage "NewClientOptions"))
          (strictEnv.qualify "pkg/a" r5 (GoImportPath_Ident contextPackage "Context")))
        stopUnit.Services factories ∧
      List.Forall₂ (FileArtifact strictEnv lateFailingHelper)
        ([echoFile, typesFile].filter (fun file => file.Services.length > 0)) fileArtifacts ∧
      StoppedArtifact strictEnv lateFailingHelper stopFile
        [{ GoName := "Health", Methods := [pingMethod] }] stopService [sayHello] stopped :=
  have hping : ValidateMethodUnary pingMethod = .ok () ∧ MethodHelpersOk strictEnv pingMethod :=
    ⟨by decide, by simp [MethodHelpersOk, pingMethod, emptyMessage]⟩
  have hhello : ValidateMethodUnary sayHello = .ok () ∧ MethodHelpersOk strictEnv sayHello :=
    ⟨by decide, by
      simp [MethodHelpersOk, sayHello, helloRequest, helloResponse, strictEnv, sampleEnv]⟩
  ⟨rfl, rfl, rfl, by decide,
    by
      intro h
      obtain ⟨t, ht⟩ := h.1 { GoName := "Payload", Desc := "group" }
        (by simp [legacyMethod]) sampleFile
      simp [strictEnv] at ht,
    by decide,
    handle_first_invalid_method strictEnv lateFailingHelper ⟨[]⟩ stopUnit
      [echoFile, typesFile] stopFile [lateFile]
      [{ GoName := "Health", Methods := [pingMethod] }] stopService
      [{ GoName := "Archive", Methods := [legacyMethod] }]
      [sayHello] watchMethod [legacyMethod] (Error.shape "a.Greeter.Watch")
      "pkg/a/provider.pb.go" "pkg/a" "pkg/a/apiclient" "pkg/a/api"
      rfl rfl rfl (by decide)
      (by
        intro f hf s hs m hm
        simp only [List.mem_cons, List.mem_singleton, List.not_mem_nil, or_false] at hf
        rcases hf with rfl | rfl
        · simp only [echoFile, List.mem_singleton] at hs
          subst hs
          simp only [List.mem_singleton] at hm
          subst hm
          exact hping
        · simp [typesFile] at hs)
      (by
        intro s hs m hm
        simp only [List.mem_singleton] at hs
        subst hs
        simp only [List.mem_singleton] at hm
        subst hm
        exact hping)
      (by
        intro m hm
        simp only [List.mem_singleton] at hm
        subst hm
        exact hhello)
      (by decide) (by decide) (by decide)
      (by
        intro f hf _ p
        simp only [List.mem_cons, List.mem_singleton, List.not_mem_nil, or_false] at hf
        rcases hf with rfl | rfl
        · exact ⟨("a/echo.pb.go", "pkg/a"), rfl⟩
        · exact ⟨("a/types.pb.go", "pkg/a"), rfl⟩)
      (fun _ => ⟨("a/greeter.pb.go", "pkg/a"), rfl⟩)⟩

/-! ## Files created before a failure stay in the plugin (C1) -/

theorem method_extends (env : Env) (ctx sn : String) (g : GeneratedFile) (m : Method) :
    g.buf <+: (generateServiceFile_method env ctx sn g m).2.buf ∧
    (generateServiceFile_method env ctx sn g m).2.filename = g.filename ∧
    (generateServiceFile_method env ctx sn g m).2.goImportPath = g.goImportPath := by
  unfold generateServiceFile_method
  cases hv : ValidateMethodUnary m with
  | error e => simp
  | ok u =>
    simp only
    obtain ⟨⟨ids1, hg1⟩, _⟩ := GetParameterStrings_spec env m.Input.Fields g
    rcases hr1 : GetParameterStrings env g m.Input.Fields with ⟨r1, g1⟩
    rw [hr1] at hg1
    simp only at hg1
    subst hg1
    cases r1 with
    | error e => simp [GeneratedFile.record]
    | ok ps1 =>
      simp only
      obtain ⟨⟨ids2, hg2⟩, _⟩ := GetParameterStrings_spec env m.Output.Fields (g.record ids1)
      rcases hr2 : GetParameterStrings env (g.record ids1) m.Output.Fields with ⟨r2, g2⟩
      rw [hr2] at hg2
      simp only at hg2
      subst hg2
      cases r2 with
      | error e => simp [GeneratedFile.record]
      | ok ps2 =>
        simp only
        split
        · rename_i e3 g3 heq
          obtain ⟨⟨ids3, hg3⟩, _⟩ :=
            GetParameterErrorReturnString_spec env m.Output.Fields "err" _
          rw [heq] at hg3
          simp only at hg3
          subst hg3
          simp only [foldl_P_eq]
          simp only [GeneratedFile.P, GeneratedFile.QualifiedGoIdent, GeneratedFile.record]
          split_ifs <;> simp
        · rename_i s3 g3 heq
          obtain ⟨⟨ids3, hg3⟩, _⟩ :=
            GetParameterErrorReturnString_spec env m.Output.Fields "err" _
          rw [heq] at hg3
          simp only at hg3
          subst hg3
          simp only [foldl_P_eq]
          simp only [GeneratedFile.P, GeneratedFile.QualifiedGoIdent, GeneratedFile.record]
          split_ifs <;> simp

theorem methods_extends (env : Env) (ctx sn : String) (ms : List Method) :
    ∀ g : GeneratedFile,
      g.buf <+: (generateServiceFile_methods env ctx sn g ms).2.buf ∧
      (generateServiceFile_methods env ctx sn g ms).2.filename = g.filename ∧
      (generateServiceFile_methods env ctx sn g ms).2.goImportPath = g.goImportPath := by
  induction ms with
  | nil => intro g; simp [generateServiceFile_methods]
  | cons a rest ih =>
    intro g
    obtain ⟨h1, h2, h3⟩ := method_extends env ctx sn g a
    unfold generateServiceFile_methods
    rcases hr : generateServiceFile_method env ctx sn g a with ⟨e, g1⟩
    rw [hr] at h1 h2 h3
    simp only at h1 h2 h3
    cases e with
    | some err => exact ⟨h1, h2, h3⟩
    | none =>
      simp only
      obtain ⟨k1, k2, k3⟩ := ih g1
      exact ⟨h1.trans k1, k2.trans h2, k3.trans h3⟩

theorem service_extends (env : Env) (file : File) (ctx lg : String) (g : GeneratedFile)
    (s : Service) :
    g.buf ++
        [String.join ["type ", GetUnexportGoName s.GoName, " struct \x7b"],
          String.join ["logger *", lg],
          String.join ["client ",
            env.qualify g.goImportPath g.resolved (GoImportPath_Ident file.GoImportPath s.GoName)],
          String.join ["\x7d"], String.join []] <+:
      (generateServiceFile_service env file ctx lg g s).2.buf ∧
    (generateServiceFile_service env file ctx lg g s).2.filename = g.filename ∧
    (generateServiceFile_service env file ctx lg g s).2.goImportPath = g.goImportPath := by
  unfold generateServiceFile_service
  simp only
  obtain ⟨h1, h2, h3⟩ := methods_extends env ctx (GetUnexportGoName s.GoName) s.Methods
    ((((((GeneratedFile.QualifiedGoIdent env g
      (GoImportPath_Ident file.GoImportPath s.GoName)).2.P
        ["type ", GetUnexportGoName s.GoName, " struct \x7b"]).P ["logger *", lg]).P
        ["client ", (GeneratedFile.QualifiedGoIdent env g
          (GoImportPath_Ident file.GoImportPath s.GoName)).1]).P ["\x7d"]).P [])
  rcases hr : generateServiceFile_methods env ctx (GetUnexportGoName s.GoName)
    ((((((GeneratedFile.QualifiedGoIdent env g
      (GoImportPath_Ident file.GoImportPath s.GoName)).2.P
        ["type ", GetUnexportGoName s.GoName, " struct \x7b"]).P ["logger *", lg]).P
        ["client ", (GeneratedFile.QualifiedGoIdent env g
          (GoImportPath_Ident file.GoImportPath s.GoName)).1]).P ["\x7d"]).P []) s.Methods
    with ⟨e, g1⟩
  rw [hr] at h1 h2 h3
  simp only [GeneratedFile.P, GeneratedFile.QualifiedGoIdent, List.append_assoc,
    List.singleton_append] at h1 h2 h3
  cases e with
  | some err =>
    simp only
    exact ⟨by simpa using h1, h2, h3⟩
  | none =>
    simp only [GeneratedFile.P]
    exact ⟨by simpa using h1.trans (List.prefix_append _ _), h2, h3⟩

theorem services_extends (env : Env) (file : File) (ctx lg : String) (ss : List Service) :
    ∀ g : GeneratedFile,
      g.buf <+: (generateServiceFile_services env file ctx lg g ss).2.buf ∧
      (generateServiceFile_services env file ctx lg g ss).2.filename = g.filename ∧
      (generateServiceFile_services env file ctx lg g ss).2.goImportPath = g.goImportPath := by
  induction ss with
  | nil => intro g; simp [generateServiceFile_services]
  | cons a rest ih =>
    intro g
    obtain ⟨h1, h2, h3⟩ := service_extends env file ctx lg g a
    have h0 := (List.prefix_append g.buf _).trans h1
    unfold generateServiceFile_services
    rcases hr : generateServiceFile_service env file ctx lg g a with ⟨e, g1⟩
    rw [hr] at h0 h2 h3
    simp only at h0 h2 h3
    cases e with
    | some err => exact ⟨h0, h2, h3⟩
    | none =>
      simp only
      obtain ⟨k1, k2, k3⟩ := ih g1
      exact ⟨h0.trans k1, k2.trans h2, k3.trans h3⟩

theorem services_extends_head (env : Env) (file : File) (ctx lg : String) (g : GeneratedFile)
    (s : Service) (rest : List Service) :
    g.buf ++
        [String.join ["type ", GetUnexportGoName s.GoName, " struct \x7b"],
          String.join ["logger *", lg],
          String.join ["client ",
            env.qualify g.goImportPath g.resolved (GoImportPath_Ident file.GoImportPath s.GoName)],
          String.join ["\x7d"], String.join []] <+:
      (generateServiceFile_services env file ctx lg g (s :: rest)).2.buf := by
  obtain ⟨h1, _, _⟩ := service_extends env file ctx lg g s
  unfold generateServiceFile_services
  rcases hr : generateServiceFile_service env file ctx lg g s with ⟨e, g1⟩
  rw [hr] at h1
  simp only at h1
  cases e with
  | some err => exact h1
  | none =>
    simp only
    exact h1.trans (services_extends env file ctx lg rest g1).1

theorem serviceFile_created (env : Env) (helper : NamedHelper) (plugin : Plugin) (file : File)
    (name path : String)
    (hnew : helper.NewGeneratedFile plugin file pluginName = .ok (name, path)) :
    ∃ g, (generateServiceFile env helper plugin file).2 = plugin.withFile g ∧
      g.filename = name ∧ g.goImportPath = path ∧
      ∀ s rest, file.Services = s :: rest →
        ∃ lg client,
          [String.join ["type ", GetUnexportGoName s.GoName, " struct \x7b"],
            String.join ["logger *", lg], String.join ["client ", client],
            String.join ["\x7d"], String.join []] <+: g.buf := by
  unfold generateServiceFile
  simp only [hnew]
  refine ⟨_, rfl, ?_, ?_, ?_⟩
  · exact (services_extends env file _ _ file.Services _).2.1
  · exact (services_extends env file _ _ file.Services _).2.2
  · intro s rest hs
    rw [hs]
    have h := services_extends_head env file
      (GeneratedFile.QualifiedGoIdent env (GeneratedFile.new name path)
        (GoImportPath_Ident contextPackage "Context")).1
      (GeneratedFile.QualifiedGoIdent env
        (GeneratedFile.QualifiedGoIdent env (GeneratedFile.new name path)
          (GoImportPath_Ident contextPackage "Context")).2
        (GoImportPath_Ident zapPackage "Logger")).1
      (GeneratedFile.QualifiedGoIdent env
        (GeneratedFile.QualifiedGoIdent env (GeneratedFile.new name path)
          (GoImportPath_Ident contextPackage "Context")).2
        (GoImportPath_Ident zapPackage "Logger")).2 s rest
    simp only [GeneratedFile.QualifiedGoIdent, GeneratedFile.new, List.nil_append] at h
    exact ⟨env.qualify path [GoImportPath_Ident contextPackage "Context"]
        (GoImportPath_Ident zapPackage "Logger"),
      env.qualify path
        [GoImportPath_Ident contextPackage "Context", GoImportPath_Ident zapPackage "Logger"]
        (GoImportPath_Ident file.GoImportPath s.GoName), h⟩

theorem packageFile_created (env : Env) (helper : NamedHelper) (plugin : Plugin)
    (set : GoPackageFileSet) (name path : String)
    (hnew : helper.NewPackageGeneratedFile plugin set pluginName = .ok (name, path)) :
    ∃ g, (generatePackageFile env helper plugin set).2 = plugin.withFile g ∧
      g.filename = name ∧ g.goImportPath = path ∧
      ∀ apiclient, helper.NewPackageGoImportPath set "apiclient" = .ok apiclient →
        ∃ logger httpClient provider, providerText logger httpClient provider <+: g.buf := by
  unfold generatePackageFile
  simp only [hnew]
  cases h1 : helper.NewPackageGoImportPath set "apiclient" with
  | error e =>
    refine ⟨_, rfl, rfl, rfl, ?_⟩
    intro apiclient h
    simp at h
  | ok apiclient =>
    simp only
    cases h2 : helper.NewPackageGoImportPath set "api" with
    | error e =>
      refine ⟨_, rfl, rfl, rfl, ?_⟩
      intro _ _
      refine ⟨env.qualify path [GoImportPath_Ident httpclientPackage "Client",
            GoImportPath_Ident twirpclientPackage "NewClientOptions"]
          (GoImportPath_Ident zapPackage "Logger"),
        env.qualify path [] (GoImportPath_Ident httpclientPackage "Client"),
        env.qualify path [GoImportPath_Ident httpclientPackage "Client",
            GoImportPath_Ident twirpclientPackage "NewClientOptions",
            GoImportPath_Ident zapPackage "Logger"]
          (GoImportPath_Ident apiclient "Provider"), ?_⟩
      simp only [GeneratedFile.P, GeneratedFile.QualifiedGoIdent, GeneratedFile.new,
        providerText, List.nil_append, List.cons_append, List.append_assoc]
      exact List.prefix_refl _
    | ok api =>
      simp only
      obtain ⟨blocks, ids, _, hg⟩ := packageFile_services_text env set
        (GeneratedFile.QualifiedGoIdent env
          (GeneratedFile.QualifiedGoIdent env (GeneratedFile.new name path)
            (GoImportPath_Ident httpclientPackage "Client")).2
          (GoImportPath_Ident twirpclientPackage "NewClientOptions")).1
        _ api set.Services _
      rw [hg]
      refine ⟨_, rfl, rfl, rfl, ?_⟩
      intro _ _
      refine ⟨env.qualify path [GoImportPath_Ident httpclientPackage "Client",
            GoImportPath_Ident twirpclientPackage "NewClientOptions"]
          (GoImportPath_Ident zapPackage "Logger"),
        env.qualify path [] (GoImportPath_Ident httpclientPackage "Client"),
        env.qualify path [GoImportPath_Ident httpclientPackage "Client",
            GoImportPath_Ident twirpclientPackage "NewClientOptions",
            GoImportPath_Ident zapPackage "Logger"]
          (GoImportPath_Ident apiclient "Provider"), ?_⟩
      simp only [GeneratedFile.P, GeneratedFile.QualifiedGoIdent, GeneratedFile.new,
        providerText, List.nil_append, List.cons_append, List.append_assoc]
      exact List.prefix_append _ _

theorem handle_files_cons (env : Env) (helper : NamedHelper) (plugin : Plugin) (a : File)
    (l : List File) :
    handle_files env helper plugin (a :: l) =
      if a.Services.length > 0 then
        match generateServiceFile env helper plugin a with
        | (some err, plugin) => (some err, plugin)
        | (none, plugin) => handle_files env helper plugin l
      else handle_files env helper plugin l := by
  rw [handle_files]

theorem handle_files_split (env : Env) (helper : NamedHelper) (pre post : List File) :
    ∀ plugin : Plugin, (handle_files env helper plugin pre).1 = none →
      handle_files env helper plugin (pre ++ post) =
        handle_files env helper (handle_files env helper plugin pre).2 post := by
  induction pre with
  | nil => intro p _; rfl
  | cons a rest ih =>
    intro p
    rw [List.cons_append, handle_files_cons env helper p a (rest ++ post),
      handle_files_cons env helper p a rest]
    by_cases hlen : a.Services.length > 0
    · simp only [hlen, if_true]
      rcases hr : generateServiceFile env helper p a with ⟨e, p1⟩
      cases e with
      | some err => simp
      | none =>
        simp only
        exact ih p1
    · simp only [hlen, if_false]
      exact ih p

theorem handle_of_package_error (env : Env) (helper : NamedHelper) (plugin : Plugin)
    (set : GoPackageFileSet) (hne : ¬ set.Services.length = 0) (err : Error) (p1 : Plugin)
    (hr : generatePackageFile env helper plugin set = (some err, p1)) :
    handle env helper plugin set = (some err, p1) := by
  unfold handle
  rw [if_neg hne, hr]

theorem handle_of_package_ok (env : Env) (helper : NamedHelper) (plugin : Plugin)
    (set : GoPackageFileSet) (hne : ¬ set.Services.length = 0) (p1 : Plugin)
    (hr : generatePackageFile env helper plugin set = (none, p1)) :
    handle env helper plugin set = handle_files env helper p1 set.Files := by
  unfold handle
  rw [if_neg hne, hr]

theorem handle_keeps_unit_file (env : Env) (helper : NamedHelper) (plugin : Plugin)
    (set : GoPackageFileSet) (hne : ¬ set.Services.length = 0) (name path : String)
    (hnew : helper.NewPackageGeneratedFile plugin set pluginName = .ok (name, path)) :
    ∃ unitArtifact later,
      (handle env helper plugin set).2.genFiles = plugin.genFiles ++ unitArtifact :: later ∧
      unitArtifact.filename = name ∧ unitArtifact.goImportPath = path ∧
      ∀ apiclient, helper.NewPackageGoImportPath set "apiclient" = .ok apiclient →
        ∃ logger httpClient provider,
          providerText logger httpClient provider <+: unitArtifact.buf := by
  obtain ⟨u, hu, h1, h2, h3⟩ := packageFile_created env helper plugin set name path hnew
  rcases hr : generatePackageFile env helper plugin set with ⟨e, p1⟩
  rw [hr] at hu
  simp only at hu
  subst hu
  cases e with
  | some err =>
    rw [handle_of_package_error env helper plugin set hne err _ hr]
    exact ⟨u, [], by simp [Plugin.withFile], h1, h2, h3⟩
  | none =>
    rw [handle_of_package_ok env helper plugin set hne _ hr]
    obtain ⟨t, ht⟩ := handle_files_appends env helper set.Files (plugin.withFile u)
    refine ⟨u, t, ?_, h1, h2, h3⟩
    rw [← ht]
    simp [Plugin.withFile]

theorem handle_files_keeps_file (env : Env) (helper : NamedHelper) (plugin : Plugin)
    (member : File) (post : List File) (name path : String)
    (hlen : member.Services.length > 0)
    (hnew : helper.NewGeneratedFile plugin member pluginName = .ok (name, path)) :
    ∃ fileArtifact later first others logger client,
      (handle_files env helper plugin (member :: post)).2.genFiles =
        plugin.genFiles ++ fileArtifact :: later ∧
      fileArtifact.filename = name ∧ fileArtifact.goImportPath = path ∧
      member.Services = first :: others ∧
      [String.join ["type ", GetUnexportGoName first.GoName, " struct \x7b"],
        String.join ["logger *", logger], String.join ["client ", client],
        String.join ["\x7d"], String.join []] <+: fileArtifact.buf := by
  obtain ⟨g, hg, h1, h2, h3⟩ := serviceFile_created env helper plugin member name path hnew
  obtain ⟨first, others, hso⟩ : ∃ first others, member.Services = first :: others := by
    cases hS : member.Services with
    | nil => simp [hS] at hlen
    | cons x xs => exact ⟨x, xs, rfl⟩
  obtain ⟨lg, client, hpre⟩ := h3 first others hso
  rw [handle_files_cons, if_pos hlen]
  rcases hr : generateServiceFile env helper plugin member with ⟨e, p1⟩
  rw [hr] at hg
  simp only at hg
  subst hg
  cases e with
  | some err =>
    exact ⟨g, [], first, others, lg, client, by simp [Plugin.withFile], h1, h2, hso, hpre⟩
  | none =>
    simp only
    obtain ⟨t, ht⟩ := handle_files_appends env helper post (plugin.withFile g)
    refine ⟨g, t, first, others, lg, client, ?_, h1, h2, hso, hpre⟩
    rw [← ht]
    simp [Plugin.withFile]

/-- C1 (amended): whenever some method of some service of a member file fails
`ValidateMethodUnary`, `handle` returns an error, and the plugin state is not rolled
back.  `handle` only appends to the files the plugin already holds.  If the constructor
of the unit-level file succeeded, that file is in the plugin after `handle` returns,
right after the files the plugin held before, under the name the helper gave it; if
the import path of `apiclient` was found too, the file starts with the provider text.
If the loop over the member files reached a member file with services (the unit-level
artifact and the earlier member files were generated without error) and the
constructor of its file-level file succeeded, that file is in the plugin after `handle`
returns, right after the files generated before it, under the name the helper gave it,
and it starts with the wrapper type of the first service of the member file. -/
theorem handle_invalid_method_returns_error (env : Env) (helper : NamedHelper) (plugin : Plugin)
    (goPackageFileSet : GoPackageFileSet) (file : File) (service : Service) (method : Method)
    (hf : file ∈ goPackageFileSet.Files) (hs : service ∈ file.Services)
    (hm : method ∈ service.Methods) (hv : ValidateMethodUnary method ≠ .ok ()) :
    (handle env helper plugin goPackageFileSet).1 ≠ none ∧
    plugin.genFiles <+: (handle env helper plugin goPackageFileSet).2.genFiles ∧
    (∀ name path,
      helper.NewPackageGeneratedFile plugin goPackageFileSet pluginName = .ok (name, path) →
      ∃ unitArtifact later,
        (handle env helper plugin goPackageFileSet).2.genFiles =
          plugin.genFiles ++ unitArtifact :: later ∧
        unitArtifact.filename = name ∧ unitArtifact.goImportPath = path ∧
        ∀ apiclient, helper.NewPackageGoImportPath goPackageFileSet "apiclient" = .ok apiclient →
          ∃ logger httpClient provider,
            providerText logger httpClient provider <+: unitArtifact.buf) ∧
    (∀ filesBefore member filesAfter name path,
      goPackageFileSet.Files = filesBefore ++ member :: filesAfter →
      member.Services.length > 0 →
      (generatePackageFile env helper plugin goPackageFileSet).1 = none →
      (handle_files env helper (generatePackageFile env helper plugin goPackageFileSet).2
        filesBefore).1 = none →
      helper.NewGeneratedFile
          (handle_files env helper (generatePackageFile env helper plugin goPackageFileSet).2
            filesBefore).2 member pluginName = .ok (name, path) →
      ∃ fileArtifact later first others logger client,
        (handle env helper plugin goPackageFileSet).2.genFiles =
          (handle_files env helper (generatePackageFile env helper plugin goPackageFileSet).2
            filesBefore).2.genFiles ++ fileArtifact :: later ∧
        fileArtifact.filename = name ∧ fileArtifact.goImportPath = path ∧
        member.Services = first :: others ∧
        [String.join ["type ", GetUnexportGoName first.GoName, " struct \x7b"],
              String.join ["logger *", logger], String.join ["client ", client],
              String.join ["\x7d"], String.join []] <+: fileArtifact.buf) := by
  have hmem : service ∈ goPackageFileSet.Services := by
    unfold GoPackageFileSet.Services
    exact List.mem_flatMap.mpr ⟨file, hf, hs⟩
  have hne : ¬ goPackageFileSet.Services.length = 0 := by
    intro h0
    rw [List.length_eq_zero.mp h0] at hmem
    simp at hmem
  refine ⟨?_, handle_appends env helper plugin goPackageFileSet, ?_, ?_⟩
  · intro h
    rcases hr : generatePackageFile env helper plugin goPackageFileSet with ⟨e, p1⟩
    cases e with
    | some err =>
      rw [handle_of_package_error env helper plugin goPackageFileSet hne err p1 hr] at h
      simp at h
    | none =>
      rw [handle_of_package_ok env helper plugin goPackageFileSet hne p1 hr] at h
      exact hv (handle_files_none_valid env helper goPackageFileSet.Files p1 h file hf
        service hs method hm)
  · intro name path hnew
    exact handle_keeps_unit_file env helper plugin goPackageFileSet hne name path hnew
  · intro filesBefore member filesAfter name path hfiles hlen hpkg hpre hnew
    rcases hr : generatePackageFile env helper plugin goPackageFileSet with ⟨e, p1⟩
    rw [hr] at hpkg hpre hnew
    simp only at hpkg hpre hnew
    subst hpkg
    rw [handle_of_package_ok env helper plugin goPackageFileSet hne p1 hr, hfiles,
      handle_files_split env helper filesBefore (member :: filesAfter) p1 hpre]
    exact handle_files_keeps_file env helper _ member filesAfter name path hlen hnew

/-- Witness for C1 (amended): in `helloThenWatchUnit` the method `Watch` fails
validation after `SayHello` was written; both file constructors succeed, so the
unit-level file and the file-level file stay in the plugin. -/
theorem handle_invalid_method_returns_error_witness :
    helloThenWatchFile ∈ helloThenWatchUnit.Files ∧
    helloThenWatchService ∈ helloThenWatchFile.Services ∧
    watchMethod ∈ helloThenWatchService.Methods ∧
    ValidateMethodUnary watchMethod ≠ .ok () ∧
    sampleHelper.NewPackageGeneratedFile ⟨[]⟩ helloThenWatchUnit pluginName =
      .ok ("pkg/a/provider.pb.go", "pkg/a") ∧
    sampleHelper.NewPackageGoImportPath helloThenWatchUnit "apiclient" = .ok "pkg/a/apiclient" ∧
    helloThenWatchUnit.Files = [] ++ helloThenWatchFile :: [] ∧
    helloThenWatchFile.Services.length > 0 ∧
    (generatePackageFile sampleEnv sampleHelper ⟨[]⟩ helloThenWatchUnit).1 = none ∧
    (handle_files sampleEnv sampleHelper
      (generatePackageFile sampleEnv sampleHelper ⟨[]⟩ helloThenWatchUnit).2 []).1 = none ∧
    sampleHelper.NewGeneratedFile
        (handle_files sampleEnv sampleHelper
          (generatePackageFile sampleEnv sampleHelper ⟨[]⟩ helloThenWatchUnit).2 []).2
        helloThenWatchFile pluginName = .ok ("a/greeter.pb.go", "pkg/a") ∧
    (handle sampleEnv sampleHelper ⟨[]⟩ helloThenWatchUnit).1 ≠ none ∧
    (⟨[]⟩ : Plugin).genFiles <+: (handle sampleEnv sampleHelper ⟨[]⟩ helloThenWatchUnit).2.genFiles ∧
    (∀ name path,
      sampleHelper.NewPackageGeneratedFile ⟨[]⟩ helloThenWatchUnit pluginName = .ok (name, path) →
      ∃ unitArtifact later,
        (handle sampleEnv sampleHelper ⟨[]⟩ helloThenWatchUnit).2.genFiles =
          (⟨[]⟩ : Plugin).genFiles ++ unitArtifact :: later ∧
        unitArtifact.filename = name ∧ unitArtifact.goImportPath = path ∧
        ∀ apiclient, sampleHelper.NewPackageGoImportPath helloThenWatchUnit "apiclient" = .ok apiclient →
          ∃ logger httpClient provider,
            providerText logger httpClient provider <+: unitArtifact.buf) ∧
    (∀ filesBefore member filesAfter name path,
      helloThenWatchUnit.Files = filesBefore ++ member :: filesAfter →
      member.Services.length > 0 →
      (generatePackageFile sampleEnv sampleHelper ⟨[]⟩ helloThenWatchUnit).1 = none →
      (handle_files sampleEnv sampleHelper (generatePackageFile sampleEnv sampleHelper ⟨[]⟩ helloThenWatchUnit).2
        filesBefore).1 = none →
      sampleHelper.NewGeneratedFile
          (handle_files sampleEnv sampleHelper (generatePackageFile sampleEnv sampleHelper ⟨[]⟩ helloThenWatchUnit).2
            filesBefore).2 member pluginName = .ok (name, path) →
      ∃ fileArtifact later first others logger client,
        (handle sampleEnv sampleHelper ⟨[]⟩ helloThenWatchUnit).2.genFiles =
          (handle_files sampleEnv sampleHelper (generatePackageFile sampleEnv sampleHelper ⟨[]⟩ helloThenWatchUnit).2
            filesBefore).2.genFiles ++ fileArtifact :: later ∧
        fileArtifact.filename = name ∧ fileArtifact.goImportPath = path ∧
        member.Services = first :: others ∧
        [String.join ["type ", GetUnexportGoName first.GoName, " struct \x7b"],
              String.join ["logger *", logger], String.join ["client ", client],
              String.join ["\x7d"], String.join []] <+: fileArtifact.buf) :=
  ⟨by decide, by decide, by decide, by decide, by decide, by decide, by decide, by decide,
    by decide, by decide, by decide,
    handle_invalid_method_returns_error sampleEnv sampleHelper ⟨[]⟩ helloThenWatchUnit
      helloThenWatchFile helloThenWatchService watchMethod
      (by decide) (by decide) (by decide) (by decide)⟩

end ApiClientTwirp
